import Mathlib

/-!
# spaint: forest-guided relocalisation (SLAMComponentWithScoreForest)

A shallow embedding of the pose-hypothesis, preemptive-RANSAC and pose-refinement
routines of `SLAMComponentWithScoreForest.cpp` and of the pixel helpers of
`ImageProcessor_Shared.h`, followed by theorems about them.

Conventions of the embedding:
* `float`/`double` values are rationals (`ℚ`); rounding, infinities and NaN are not modelled.
* `int`/`size_t` values that index or count are naturals; `modeIdx` and `cameraId`, which
  take the value `-1`, are integers. In `calculate_pixel_depth_difference`, which is handed the
  image size, the `int` arithmetic is modelled on 32 bits (`wrapInt`).
* Device/host images are a size plus a total lookup function on the linear index.
* `std::mt19937` is the stream of its future raw outputs.
* Functions of libraries that are not part of this source tree (ORUtils `length`, `log10f`,
  Kabsch, the Levenberg-Marquardt solver, the pose parametrisation, the best-mode search of a
  prediction) are fields of `Library`; every theorem holds whatever they compute.
* A thrown `std::runtime_error` is `Except.error` carrying the message.
-/

namespace spaint

/-! ## Data model -/

/-- ORUtils `Vector3f`. -/
structure Vector3f where
  x : ℚ
  y : ℚ
  z : ℚ
deriving DecidableEq

instance : Sub Vector3f := ⟨fun a b => ⟨a.x - b.x, a.y - b.y, a.z - b.z⟩⟩

instance : Inhabited Vector3f := ⟨⟨0, 0, 0⟩⟩

/-- ORUtils `dot` on `Vector3f`. -/
def dot (a b : Vector3f) : ℚ := a.x * b.x + a.y * b.y + a.z * b.z

/-- ORUtils `Vector4f`. -/
structure Vector4f where
  x : ℚ
  y : ℚ
  z : ℚ
  w : ℚ
deriving DecidableEq

/-- ORUtils `Vector4::toVector3`. -/
def Vector4f.toVector3 (v : Vector4f) : Vector3f := ⟨v.x, v.y, v.z⟩

/-- ORUtils `Vector3u`: three `unsigned char` channels, each kept in `0..255`. -/
structure Vector3u where
  x : Nat
  y : Nat
  z : Nat
deriving DecidableEq

/-- Subtraction of two `unsigned char` values, wrapping modulo 256. -/
def subUChar (a b : Nat) : Nat := (a % 256 + 256 - b % 256) % 256

instance : Sub Vector3u := ⟨fun a b => ⟨subUChar a.x b.x, subUChar a.y b.y, subUChar a.z b.z⟩⟩

/-- Conversion of one float channel to `unsigned char`: round, then clamp to `0..255`. -/
def toUCharChannel (q : ℚ) : Nat := min (Int.toNat (round q)) 255

/-- ORUtils `Vector3::toUChar`. -/
def Vector3f.toUChar (v : Vector3f) : Vector3u :=
  ⟨toUCharChannel v.x, toUCharChannel v.y, toUCharChannel v.z⟩

/-- ORUtils `Matrix3f`, stored column-major in `m` (entry `m[3*col + row]`). -/
structure Matrix3f where
  m : List ℚ
deriving DecidableEq

/-- ORUtils `Matrix3f * Vector3f`. -/
def Matrix3f.mulVec (b : Matrix3f) (a : Vector3f) : Vector3f :=
  ⟨b.m.getD 0 0 * a.x + b.m.getD 3 0 * a.y + b.m.getD 6 0 * a.z,
   b.m.getD 1 0 * a.x + b.m.getD 4 0 * a.y + b.m.getD 7 0 * a.z,
   b.m.getD 2 0 * a.x + b.m.getD 5 0 * a.y + b.m.getD 8 0 * a.z⟩

/-- ORUtils `Matrix4f`, stored column-major in `m` (entry `m[4*col + row]`). -/
structure Matrix4f where
  m : List ℚ
deriving DecidableEq

/-- ORUtils `Matrix4f * Vector3f`: the rigid transform applied to a point. -/
def Matrix4f.mulVec (b : Matrix4f) (a : Vector3f) : Vector3f :=
  ⟨b.m.getD 0 0 * a.x + b.m.getD 4 0 * a.y + b.m.getD 8 0 * a.z + b.m.getD 12 0,
   b.m.getD 1 0 * a.x + b.m.getD 5 0 * a.y + b.m.getD 9 0 * a.z + b.m.getD 13 0,
   b.m.getD 2 0 * a.x + b.m.getD 6 0 * a.y + b.m.getD 10 0 * a.z + b.m.getD 14 0⟩

/-- ORUtils `SE3Pose`: the six twist parameters together with the matrix they stand for. -/
structure SE3Pose where
  params : List ℚ
  M : Matrix4f
deriving DecidableEq

/-- ORUtils `SE3Pose::GetM`. -/
def SE3Pose.GetM (p : SE3Pose) : Matrix4f := p.M

/-- ORUtils `SE3Pose::GetParams`. -/
def SE3Pose.GetParams (p : SE3Pose) : List ℚ := p.params

/-- One Gaussian mode of a leaf prediction (`GPUForestMode`). -/
structure GPUForestMode where
  position : Vector3f
  positionInvCovariance : Matrix3f
  determinant : ℚ
  colour : Vector3u
  nbInliers : Nat
deriving DecidableEq

/-- The modes predicted for one pixel (`GPUForestPrediction`): `modes[0 .. nbModes-1]`. -/
structure GPUForestPrediction where
  nbModes : Nat
  modes : Nat → GPUForestMode

/-- A per-pixel feature (`RGBDPatchFeature`); `position.w < 0` marks an invalid feature. -/
structure RGBDPatchFeature where
  position : Vector4f
  colour : Vector4f
deriving DecidableEq

/-- An image: its dimensions (`noDims`) and its data, looked up by linear index. -/
structure Image (α : Type) where
  width : Nat
  height : Nat
  data : Nat → α

/-- The member `dataSize` of an image. -/
def Image.dataSize {α : Type} (img : Image α) : Nat := img.width * img.height

/-- The struct `PoseCandidate::Inlier`. -/
structure Inlier where
  linearIdx : Nat
  modeIdx : Int
  energy : ℚ
deriving DecidableEq

/-- The struct `PoseCandidate`. -/
structure PoseCandidate where
  cameraPose : Matrix4f
  inliers : List Inlier
  energy : ℚ
  cameraId : Int
deriving DecidableEq

/-- A point and the mode it is matched with (`PointForLM`). -/
structure PointForLM where
  point : Vector3f
  mode : GPUForestMode
deriving DecidableEq

/-- The random engine `std::mt19937`, as the stream of the raw values it will produce. -/
abbrev mt19937 := Nat → Nat

/-- One draw of `std::uniform_int_distribution<int>(a, b)`: a value of `[a, b]` and the
advanced engine. -/
def uniform_int_distribution (a b : Nat) (eng : mt19937) : Nat × mt19937 :=
  (a + eng 0 % (b - a + 1), fun n => eng (n + 1))

/-- Library routines used by the component whose code is outside this source tree. -/
structure Library where
  /-- ORUtils `length` of a `Vector3f`. -/
  length : Vector3f → ℚ
  /-- `log10f` of the C library. -/
  log10f : ℚ → ℚ
  /-- `Helpers::Kabsch` on the local and world points. -/
  Kabsch : List Vector3f → List Vector3f → Matrix4f
  /-- `GPUForestPrediction::get_best_mode_and_energy`: the index (negative when there is
  none) and the raw likelihood of the best mode at a point. -/
  get_best_mode_and_energy : GPUForestPrediction → Vector3f → Int × ℚ
  /-- The constructor `SE3Pose(const Matrix4f&)`. -/
  SE3PoseOfMatrix : Matrix4f → SE3Pose
  /-- `SE3Pose::SetFrom` on six twist parameters. -/
  SE3PoseOfParams : List ℚ → SE3Pose
  /-- The alglib Levenberg-Marquardt run (`minlmcreatev`, `minlmsetcond`, `minlmoptimize`,
  `minlmresults`): from the differentiation step, the stopping conditions, the function to
  minimise and the start, the parameters it ends on. -/
  minlmoptimize : ℚ → ℚ → Nat → (List ℚ → ℚ) → List ℚ → List ℚ

/-- `GPUForestPrediction::get_best_mode`. -/
def Library.get_best_mode (L : Library) (p : GPUForestPrediction) (x : Vector3f) : Int :=
  (L.get_best_mode_and_energy p x).1

/-- The members of `SLAMComponentWithScoreForest` read by the pose-estimation routines. -/
structure SLAMComponentWithScoreForest where
  m_kInitRansac : Nat
  m_nbPointsForKabschBoostrap : Nat
  m_useAllModesPerLeafInPoseHypothesisGeneration : Bool
  m_checkMinDistanceBetweenSampledModes : Bool
  m_minDistanceBetweenSampledModes : ℚ
  m_checkRigidTransformationConstraint : Bool
  m_translationErrorMaxForCorrectPose : ℚ
  m_batchSizeRansac : Nat
  m_trimKinitAfterFirstEnergyComputation : Nat
  m_poseUpdate : Bool
  m_usePredictionCovarianceForPoseOptimization : Bool
  m_poseOptimizationInlierThreshold : ℚ
  m_maxNbModesPerLeaf : Nat
  m_featureImage : Image RGBDPatchFeature
  m_predictionsImage : Image GPUForestPrediction

/-- The parameter values set by the constructor, around the two given images. -/
def SLAMComponentWithScoreForest.construct (features : Image RGBDPatchFeature)
    (predictions : Image GPUForestPrediction) : SLAMComponentWithScoreForest where
  m_kInitRansac := 1024
  m_nbPointsForKabschBoostrap := 3
  m_useAllModesPerLeafInPoseHypothesisGeneration := true
  m_checkMinDistanceBetweenSampledModes := true
  m_minDistanceBetweenSampledModes := 3 / 10
  m_checkRigidTransformationConstraint := true
  m_translationErrorMaxForCorrectPose := 5 / 100
  m_batchSizeRansac := 500
  m_trimKinitAfterFirstEnergyComputation := 64
  m_poseUpdate := true
  m_usePredictionCovarianceForPoseOptimization := true
  m_poseOptimizationInlierThreshold := 2 / 10
  m_maxNbModesPerLeaf := 10
  m_featureImage := features
  m_predictionsImage := predictions

/-! ## hypothesize_pose -/

/-- An entry of `selectedPixelsAndModes`: `(x, y, modeIdx)`. -/
abbrev SelectedPixelAndMode := Nat × Nat × Nat

/-- The linear index `y * width + x` of a selected pixel. -/
def linearIdxOf (self : SLAMComponentWithScoreForest) (s : SelectedPixelAndMode) : Nat :=
  s.2.1 * self.m_featureImage.width + s.1

/-- The world position of the mode chosen for a selected pixel. -/
def worldPtOf (self : SLAMComponentWithScoreForest) (s : SelectedPixelAndMode) : Vector3f :=
  ((self.m_predictionsImage.data (linearIdxOf self s)).modes s.2.2).position

/-- The camera-space position of the feature of a selected pixel. -/
def localPtOf (self : SLAMComponentWithScoreForest) (s : SelectedPixelAndMode) : Vector3f :=
  (self.m_featureImage.data (linearIdxOf self s)).position.toVector3

/-- The loop computing `farEnough`: false as soon as one already selected mode is closer to
`worldPt` than `m_minDistanceBetweenSampledModes`. -/
def farEnough (L : Library) (self : SLAMComponentWithScoreForest) (worldPt : Vector3f) :
    List SelectedPixelAndMode → Bool
  | [] => true
  | other :: rest =>
    let worldPtOther := worldPtOf self other
    let distOther := L.length (worldPtOther - worldPt)
    if distOther < self.m_minDistanceBetweenSampledModes then false
    else farEnough L self worldPt rest

/-- The loop computing `violatesConditions` of the rigid-transformation check. -/
def violatesConditions (L : Library) (self : SLAMComponentWithScoreForest)
    (selectedFeature : RGBDPatchFeature) (worldPtCur : Vector3f) :
    List SelectedPixelAndMode → Bool
  | [] => false
  | first :: rest =>
    let worldPtFirst := worldPtOf self first
    let distWorld := L.length (worldPtFirst - worldPtCur)
    let localPred := localPtOf self first
    let localCur := selectedFeature.position.toVector3
    let distLocal := L.length (localPred - localCur)
    if distLocal < self.m_minDistanceBetweenSampledModes
        ∨ |distLocal - distWorld| > (1 / 2) * self.m_translationErrorMaxForCorrectPose then true
    else violatesConditions L self selectedFeature worldPtCur rest

/-- The colour test made on the first pixel of a hypothesis. The difference is a `Vector3u`,
so each channel difference is taken modulo 256 before `abs`. -/
def consistentColour (selectedFeature : RGBDPatchFeature) (mode : GPUForestMode) : Bool :=
  let colourDiff : Vector3u := selectedFeature.colour.toVector3.toUChar - mode.colour
  decide (colourDiff.x ≤ 30) && decide (colourDiff.y ≤ 30) && decide (colourDiff.z ≤ 30)

/-- The inner `while` loop of `hypothesize_pose`; the first argument is the number of
iterations left, `maxIterationsInner - iterationsInner`. -/
def hypothesize_pose_inner (L : Library) (self : SLAMComponentWithScoreForest) :
    Nat → List SelectedPixelAndMode → mt19937 → List SelectedPixelAndMode × mt19937
  | 0, selectedPixelsAndModes, eng => (selectedPixelsAndModes, eng)
  | left + 1, selectedPixelsAndModes, eng =>
    if selectedPixelsAndModes.length = self.m_nbPointsForKabschBoostrap then
      (selectedPixelsAndModes, eng)
    else
      let dx := uniform_int_distribution 0 (self.m_featureImage.width - 1) eng
      let dy := uniform_int_distribution 0 (self.m_featureImage.height - 1) dx.2
      let x := dx.1
      let y := dy.1
      let linearFeatureIdx := y * self.m_featureImage.width + x
      let selectedFeature := self.m_featureImage.data linearFeatureIdx
      if selectedFeature.position.w < 0 then
        hypothesize_pose_inner L self left selectedPixelsAndModes dy.2
      else
        let selectedPrediction := self.m_predictionsImage.data linearFeatureIdx
        if selectedPrediction.nbModes = 0 then
          hypothesize_pose_inner L self left selectedPixelsAndModes dy.2
        else
          let dm := if self.m_useAllModesPerLeafInPoseHypothesisGeneration then
              uniform_int_distribution 0 (selectedPrediction.nbModes - 1) dy.2
            else (0, dy.2)
          let selectedModeIdx := dm.1
          if selectedPixelsAndModes.isEmpty
              ∧ consistentColour selectedFeature (selectedPrediction.modes selectedModeIdx)
                = false then
            hypothesize_pose_inner L self left selectedPixelsAndModes dm.2
          else if self.m_checkMinDistanceBetweenSampledModes = true
              ∧ farEnough L self (selectedPrediction.modes selectedModeIdx).position
                  selectedPixelsAndModes = false then
            hypothesize_pose_inner L self left selectedPixelsAndModes dm.2
          else if self.m_checkRigidTransformationConstraint = true
              ∧ violatesConditions L self selectedFeature
                  (selectedPrediction.modes selectedModeIdx).position
                  selectedPixelsAndModes = true then
            hypothesize_pose_inner L self left selectedPixelsAndModes dm.2
          else
            hypothesize_pose_inner L self left
              (selectedPixelsAndModes ++ [(x, y, selectedModeIdx)]) dm.2

/-- The constant `maxIterationsInner`. -/
def maxIterationsInner : Nat := 6000

/-- The constant `maxIterationsOuter`. -/
def maxIterationsOuter : Nat := 20

/-- The candidate filled in from the selected pixels: the inliers, the Kabsch pose, energy 0
and camera id -1. -/
def populate (L : Library) (self : SLAMComponentWithScoreForest)
    (selectedPixelsAndModes : List SelectedPixelAndMode) : PoseCandidate where
  inliers := selectedPixelsAndModes.map fun s => ⟨linearIdxOf self s, (s.2.2 : Int), 0⟩
  cameraPose := L.Kabsch (selectedPixelsAndModes.map (localPtOf self))
    (selectedPixelsAndModes.map (worldPtOf self))
  energy := 0
  cameraId := -1

/-- The outer `while` loop of `hypothesize_pose` with the statements after it. The first
argument bounds the number of times the loop condition is still evaluated. The result is the
returned flag, the candidate `res` and the engine. -/
def hypothesize_pose_outer (L : Library) (self : SLAMComponentWithScoreForest) :
    Nat → Bool → Nat → PoseCandidate → mt19937 → Bool × PoseCandidate × mt19937
  | 0, _, iterationsOuter, res, eng => (decide (iterationsOuter < maxIterationsOuter), res, eng)
  | left + 1, foundIsometricMapping, iterationsOuter, res, eng =>
    if foundIsometricMapping = false ∧ iterationsOuter < maxIterationsOuter then
      let r := hypothesize_pose_inner L self maxIterationsInner [] eng
      -- Reached limit of iterations
      if r.1.length ≠ self.m_nbPointsForKabschBoostrap then (false, res, r.2)
      else hypothesize_pose_outer L self left true (iterationsOuter + 1) (populate L self r.1) r.2
    else (decide (iterationsOuter < maxIterationsOuter), res, eng)

/-- The function `hypothesize_pose(res, eng)`. -/
def hypothesize_pose (L : Library) (self : SLAMComponentWithScoreForest) (res : PoseCandidate)
    (eng : mt19937) : Bool × PoseCandidate × mt19937 :=
  hypothesize_pose_outer L self (maxIterationsOuter + 1) false 0 res eng

/-- The function `generate_pose_candidates`, run sequentially: iteration `i` uses the engine of
the thread `threadOf i` and a candidate that passes is appended with `cameraId = i`. The first
argument counts the iterations left, the second is `i`. -/
def generate_pose_candidates_loop (L : Library) (self : SLAMComponentWithScoreForest)
    (threadOf : Nat → Nat) (candidate0 : PoseCandidate) :
    Nat → Nat → (Nat → mt19937) → List PoseCandidate → List PoseCandidate
  | 0, _, _, poseCandidates => poseCandidates
  | left + 1, i, engs, poseCandidates =>
    let threadId := threadOf i
    let r := hypothesize_pose L self candidate0 (engs threadId)
    let engs1 := fun t => if t = threadId then r.2.2 else engs t
    if r.1 = true ∧ r.2.1.inliers ≠ [] then
      generate_pose_candidates_loop L self threadOf candidate0 left (i + 1) engs1
        (poseCandidates ++ [{ r.2.1 with cameraId := (i : Int) }])
    else
      generate_pose_candidates_loop L self threadOf candidate0 left (i + 1) engs1 poseCandidates

/-- The function `generate_pose_candidates(poseCandidates)`; `candidate0` is the content of the
uninitialised local `candidate`, `engs` the per-thread engines. -/
def generate_pose_candidates (L : Library) (self : SLAMComponentWithScoreForest)
    (threadOf : Nat → Nat) (candidate0 : PoseCandidate) (engs : Nat → mt19937)
    (poseCandidates : List PoseCandidate) : List PoseCandidate :=
  generate_pose_candidates_loop L self threadOf candidate0 self.m_kInitRansac 0 engs
    poseCandidates

/-! ## sample_pixels_for_ransac and update_inliers_for_optimization -/

/-- ORUtils `Vector2i`, here a pixel position. -/
structure Vector2i where
  x : Nat
  y : Nat
deriving DecidableEq

/-- The state threaded through `sample_pixels_for_ransac`: the mask, the sampled pixels and
the engine. -/
structure SamplingState where
  maskSampledPixels : List Bool
  sampledPixelIdx : List Vector2i
  eng : mt19937

/-- The `while (!validIndex && innerIterations++ < 50)` loop; the first argument is
`50 - innerIterations`. The flag returned is the final `validIndex`. -/
def sample_pixel_attempts (self : SLAMComponentWithScoreForest) :
    Nat → SamplingState → Bool × SamplingState
  | 0, st => (false, st)
  | left + 1, st =>
    let dx := uniform_int_distribution 0 (self.m_featureImage.width - 1) st.eng
    let dy := uniform_int_distribution 0 (self.m_featureImage.height - 1) dx.2
    let s : Vector2i := ⟨dx.1, dy.1⟩
    let linearIdx := s.y * self.m_featureImage.width + s.x
    let st1 : SamplingState := { st with eng := dy.2 }
    if (self.m_featureImage.data linearIdx).position.w ≥ 0 then
      let selectedPrediction := self.m_predictionsImage.data linearIdx
      if selectedPrediction.nbModes > 0 then
        let validIndex : Bool :=
          st.maskSampledPixels.isEmpty || !(st.maskSampledPixels.getD linearIdx false)
        if validIndex = true then
          (true,
            { st1 with
              sampledPixelIdx := st.sampledPixelIdx ++ [s]
              maskSampledPixels :=
                if st.maskSampledPixels.isEmpty = false then
                  st.maskSampledPixels.set linearIdx true
                else st.maskSampledPixels })
        else sample_pixel_attempts self left st1
      else sample_pixel_attempts self left st1
    else sample_pixel_attempts self left st1

/-- The `for (int i = 0; i < batchSize; ++i)` loop; the first argument is `batchSize - i`. -/
def sample_pixels_loop (self : SLAMComponentWithScoreForest) :
    Nat → SamplingState → SamplingState
  | 0, st => st
  | left + 1, st =>
    let r := sample_pixel_attempts self 50 st
    if r.1 = false then r.2 else sample_pixels_loop self left r.2

/-- The function `sample_pixels_for_ransac(maskSampledPixels, sampledPixelIdx, eng, batchSize)`. -/
def sample_pixels_for_ransac (self : SLAMComponentWithScoreForest) (st : SamplingState)
    (batchSize : Nat) : SamplingState :=
  sample_pixels_loop self batchSize st

/-- The inlier appended for a sampled pixel: `{ linearIdx, -1, 0.f }`. -/
def sampleInlier (self : SLAMComponentWithScoreForest) (sample : Vector2i) : Inlier :=
  ⟨sample.y * self.m_featureImage.width + sample.x, -1, 0⟩

/-- The function `update_inliers_for_optimization(sampledPixelIdx, poseCandidates)`. -/
def update_inliers_for_optimization (self : SLAMComponentWithScoreForest)
    (sampledPixelIdx : List Vector2i) (poseCandidates : List PoseCandidate) :
    List PoseCandidate :=
  poseCandidates.map fun c =>
    { c with inliers := c.inliers ++ sampledPixelIdx.map (sampleInlier self) }

/-! ## compute_pose_energy and compute_and_sort_energies -/

/-- The best mode and its raw likelihood for an inlier under a pose, as `compute_pose_energy`
obtains them. -/
def bestModeOfInlier (L : Library) (self : SLAMComponentWithScoreForest)
    (candidateCameraPose : Matrix4f) (inlier : Inlier) : Int × ℚ :=
  let localPixel := (self.m_featureImage.data inlier.linearIdx).position.toVector3
  let projectedPixel := candidateCameraPose.mulVec localPixel
  L.get_best_mode_and_energy (self.m_predictionsImage.data inlier.linearIdx) projectedPixel

/-- The energy stored for an inlier whose best mode is `argmax` with raw likelihood `energy`. -/
def inlierEnergy (L : Library) (pred : GPUForestPrediction) (argmax : Int) (energy : ℚ) : ℚ :=
  let energy1 := energy / (pred.nbModes : ℚ)
  let energy2 := energy1 / ((pred.modes argmax.toNat).nbInliers : ℚ)
  let energy3 := if energy2 < 1 / 1000000 then 1 / 1000000 else energy2
  Neg.neg (L.log10f energy3)

/-- The loop of `compute_pose_energy` from inlier `s` on, with `totalEnergy` so far: the final
`totalEnergy` and the inliers as rewritten, or the error thrown. -/
def compute_pose_energy_loop (L : Library) (self : SLAMComponentWithScoreForest)
    (candidateCameraPose : Matrix4f) : List Inlier → ℚ → Except String (ℚ × List Inlier)
  | [], totalEnergy => .ok (totalEnergy, [])
  | inlier :: rest, totalEnergy =>
    let pred := self.m_predictionsImage.data inlier.linearIdx
    let r := bestModeOfInlier L self candidateCameraPose inlier
    let argmax := r.1
    if argmax < 0 then .error "prediction has no valid modes"
    else if (pred.modes argmax.toNat).nbInliers = 0 then .error "mode has no inliers"
    else
      let energy := inlierEnergy L pred argmax r.2
      match compute_pose_energy_loop L self candidateCameraPose rest (totalEnergy + energy) with
      | .error e => .error e
      | .ok (total, rest1) =>
        .ok (total, { inlier with energy := energy, modeIdx := argmax } :: rest1)

/-- The function `compute_pose_energy(candidateCameraPose, inliersIndices)`: the returned
energy and the rewritten inliers, or the error thrown. -/
def compute_pose_energy (L : Library) (self : SLAMComponentWithScoreForest)
    (candidateCameraPose : Matrix4f) (inliersIndices : List Inlier) :
    Except String (ℚ × List Inlier) :=
  match compute_pose_energy_loop L self candidateCameraPose inliersIndices 0 with
  | .error e => .error e
  | .ok (totalEnergy, inliers1) => .ok (totalEnergy / (inliersIndices.length : ℚ), inliers1)

/-- The scoring loop of `compute_and_sort_energies`: every candidate gets its energy and its
rewritten inliers. -/
def compute_energies (L : Library) (self : SLAMComponentWithScoreForest) :
    List PoseCandidate → Except String (List PoseCandidate)
  | [] => .ok []
  | candidate :: rest =>
    match compute_pose_energy L self candidate.cameraPose candidate.inliers with
    | .error e => .error e
    | .ok (energy, inliers1) =>
      match compute_energies L self rest with
      | .error e => .error e
      | .ok rest1 => .ok ({ candidate with energy := energy, inliers := inliers1 } :: rest1)

/-- The order `std::sort` is called with: ascending energy. -/
def energyLE (a b : PoseCandidate) : Prop := a.energy ≤ b.energy

instance : DecidableRel energyLE := fun a b => inferInstanceAs (Decidable (a.energy ≤ b.energy))

/-- The function `compute_and_sort_energies(poseCandidates)`; `std::sort` is an insertion
sort here. -/
def compute_and_sort_energies (L : Library) (self : SLAMComponentWithScoreForest)
    (poseCandidates : List PoseCandidate) : Except String (List PoseCandidate) :=
  match compute_energies L self poseCandidates with
  | .error e => .error e
  | .ok scored => .ok (scored.insertionSort energyLE)

/-! ## update_candidate_pose -/

/-- The function `EnergyForContinuous3DOptimizationUsingFullCovariance(pts, candidateCameraPose)`:
the sum of the squared Mahalanobis distances. -/
def EnergyForContinuous3DOptimizationUsingFullCovariance (pts : List PointForLM)
    (candidateCameraPose : SE3Pose) : ℚ :=
  pts.foldl (fun res pt =>
    let transformedPt := candidateCameraPose.GetM.mulVec pt.point
    let diff := transformedPt - pt.mode.position
    let err := dot diff (pt.mode.positionInvCovariance.mulVec diff)
    res + err) 0

/-- The callback `Continuous3DOptimizationUsingFullCovariance(ksi, fi, ptr)`: the value written
to `fi[0]`. -/
def Continuous3DOptimizationUsingFullCovariance (L : Library) (ptsLM : List PointForLM)
    (ksi : List ℚ) : ℚ :=
  EnergyForContinuous3DOptimizationUsingFullCovariance ptsLM (L.SE3PoseOfParams ksi)

/-- The first loop of `update_candidate_pose`: the points kept for the optimisation
(`ptsForLM`), or the error thrown when an inlier has no valid best mode. -/
def collect_ptsForLM (L : Library) (self : SLAMComponentWithScoreForest)
    (candidateCameraPose : SE3Pose) : List Inlier → Except String (List PointForLM)
  | [] => .ok []
  | inlier :: rest =>
    let inlierCameraPosition := (self.m_featureImage.data inlier.linearIdx).position.toVector3
    let inlierWorldPosition := candidateCameraPose.GetM.mulVec inlierCameraPosition
    let prediction := self.m_predictionsImage.data inlier.linearIdx
    let bestModeIdx := L.get_best_mode prediction inlierWorldPosition
    if bestModeIdx < 0 ∨ bestModeIdx ≥ (prediction.nbModes : Int) then
      .error "best mode idx invalid."
    else
      let ptLM : PointForLM := ⟨inlierCameraPosition, prediction.modes bestModeIdx.toNat⟩
      match collect_ptsForLM L self candidateCameraPose rest with
      | .error e => .error e
      | .ok pts =>
        if L.length (ptLM.mode.position - inlierWorldPosition)
            < self.m_poseOptimizationInlierThreshold then .ok (ptLM :: pts)
        else .ok pts

/-- The pose the Levenberg-Marquardt run ends on, started from `candidateCameraPose` on the
points `ptsForLM` (step `0.0001`, `epsg = 0.000001`, `maxits = 100`). -/
def optimisedPose (L : Library) (ptsForLM : List PointForLM) (candidateCameraPose : SE3Pose) :
    SE3Pose :=
  L.SE3PoseOfParams
    (L.minlmoptimize (1 / 10000) (1 / 1000000) 100
      (Continuous3DOptimizationUsingFullCovariance L ptsForLM) candidateCameraPose.GetParams)

/-- The function `update_candidate_pose(poseCandidate)`: the returned flag and the candidate
afterwards, or the error thrown. -/
def update_candidate_pose (L : Library) (self : SLAMComponentWithScoreForest)
    (poseCandidate : PoseCandidate) : Except String (Bool × PoseCandidate) :=
  let candidateCameraPose := L.SE3PoseOfMatrix poseCandidate.cameraPose
  match collect_ptsForLM L self candidateCameraPose poseCandidate.inliers with
  | .error e => .error e
  | .ok ptsForLM =>
    -- Continuous optimization
    if ptsForLM.length > 3 then
      if self.m_usePredictionCovarianceForPoseOptimization = true then
        let energyBefore :=
          EnergyForContinuous3DOptimizationUsingFullCovariance ptsForLM candidateCameraPose
        let candidateCameraPose1 := optimisedPose L ptsForLM candidateCameraPose
        let energyAfter :=
          EnergyForContinuous3DOptimizationUsingFullCovariance ptsForLM candidateCameraPose1
        if energyAfter < energyBefore then
          .ok (true, { poseCandidate with cameraPose := candidateCameraPose1.GetM })
        else .ok (false, poseCandidate)
      else .error "Not updated yet"
    else .ok (false, poseCandidate)

/-- The function `update_candidate_poses(poseCandidates)`. -/
def update_candidate_poses (L : Library) (self : SLAMComponentWithScoreForest) :
    List PoseCandidate → Except String (List PoseCandidate)
  | [] => .ok []
  | candidate :: rest =>
    match update_candidate_pose L self candidate with
    | .error e => .error e
    | .ok r =>
      match update_candidate_poses L self rest with
      | .error e => .error e
      | .ok rest1 => .ok (r.2 :: rest1)

/-! ## estimate_pose -/

/-- The state of the elimination loop of `estimate_pose`. -/
structure RansacState where
  candidates : List PoseCandidate
  maskSampledPixels : List Bool
  random_engine : mt19937
  iteration : Nat

/-- The statements of one iteration of the elimination loop up to and including
`compute_and_sort_energies`: the scored and sorted candidates, before the worse half is
erased. -/
def ransac_score_round (L : Library) (self : SLAMComponentWithScoreForest) (st : RansacState) :
    Except String RansacState :=
  let sampled :=
    sample_pixels_for_ransac self ⟨st.maskSampledPixels, [], st.random_engine⟩
      self.m_batchSizeRansac
  let candidates1 := update_inliers_for_optimization self sampled.sampledPixelIdx st.candidates
  match (if self.m_poseUpdate = true then update_candidate_poses L self candidates1
         else .ok candidates1) with
  | .error e => .error e
  | .ok candidates2 =>
    match compute_and_sort_energies L self candidates2 with
    | .error e => .error e
    | .ok candidates3 =>
      .ok ⟨candidates3, sampled.maskSampledPixels, sampled.eng, st.iteration + 1⟩

/-- The erasure that ends an iteration: `candidates.erase(begin + size / 2, end)`. -/
def erase_worse_half (candidates : List PoseCandidate) : List PoseCandidate :=
  candidates.take (candidates.length / 2)

/-- One whole iteration of the elimination loop. -/
def ransac_round (L : Library) (self : SLAMComponentWithScoreForest) (st : RansacState) :
    Except String RansacState :=
  match ransac_score_round L self st with
  | .error e => .error e
  | .ok scored => .ok { scored with candidates := erase_worse_half scored.candidates }

/-- The loop `while (candidates.size() > 1)`; the first argument bounds the number of
iterations still allowed. -/
def ransac_loop (L : Library) (self : SLAMComponentWithScoreForest) :
    Nat → RansacState → Except String RansacState
  | 0, st => .ok st
  | left + 1, st =>
    if st.candidates.length > 1 then
      match ransac_round L self st with
      | .error e => .error e
      | .ok st1 => ransac_loop L self left st1
    else .ok st

/-- The first trim of `estimate_pose`, made when more than
`m_trimKinitAfterFirstEnergyComputation` candidates were generated: the candidates and the
engine afterwards. -/
def first_trim (L : Library) (self : SLAMComponentWithScoreForest)
    (candidates : List PoseCandidate) (random_engine : mt19937) :
    Except String (List PoseCandidate × mt19937) :=
  if self.m_trimKinitAfterFirstEnergyComputation < candidates.length then
    let nbSamplesPerCamera := match candidates with
      | [] => 0
      | c :: _ => c.inliers.length
    let sampled := sample_pixels_for_ransac self ⟨[], [], random_engine⟩ self.m_batchSizeRansac
    let candidates1 := update_inliers_for_optimization self sampled.sampledPixelIdx candidates
    match compute_and_sort_energies L self candidates1 with
    | .error e => .error e
    | .ok candidates2 =>
      let candidates3 := candidates2.take self.m_trimKinitAfterFirstEnergyComputation
      if self.m_trimKinitAfterFirstEnergyComputation > 1 then
        .ok (candidates3.map (fun c =>
          if c.inliers.length > nbSamplesPerCamera then
            { c with inliers := c.inliers.take nbSamplesPerCamera }
          else c), sampled.eng)
      else .ok (candidates3, sampled.eng)
  else .ok (candidates, random_engine)

/-- The part of `estimate_pose` that follows `generate_pose_candidates`: the trim, the
elimination loop and the returned optional candidate. -/
def estimate_pose_from (L : Library) (self : SLAMComponentWithScoreForest)
    (candidates : List PoseCandidate) (random_engine : mt19937) :
    Except String (Option PoseCandidate) :=
  match first_trim L self candidates random_engine with
  | .error e => .error e
  | .ok trimmed =>
    let maskSampledPixels := List.replicate self.m_featureImage.dataSize false
    match ransac_loop L self trimmed.1.length ⟨trimmed.1, maskSampledPixels, trimmed.2, 0⟩ with
    | .error e => .error e
    | .ok st => .ok st.candidates.head?

/-- The function `estimate_pose()`. Its inputs besides the images are the engines: one per
thread for the generation of the candidates, and `random_engine`. -/
def estimate_pose (L : Library) (self : SLAMComponentWithScoreForest) (threadOf : Nat → Nat)
    (candidate0 : PoseCandidate) (engs : Nat → mt19937) (random_engine : mt19937) :
    Except String (Option PoseCandidate) :=
  estimate_pose_from L self (generate_pose_candidates L self threadOf candidate0 engs [])
    random_engine

/-! ## process_relocalisation -/

/-- The enumeration `TrackingResult`. -/
inductive TrackingResult where
  | TRACKING_GOOD
  | TRACKING_POOR
  | TRACKING_FAILED
deriving DecidableEq

/-- The current view: the depth image, the colour image and the depth intrinsics. -/
structure View where
  depth : Image ℚ
  rgb : Image Vector3u
  intrinsics_d : Vector4f

/-- A call made by `process_relocalisation` to one of its collaborators, in the order made. -/
inductive Call where
  | CountValidDepths
  | compute_features (invCameraPose : Matrix4f)
  | evaluate_forest
  | estimate_pose
  | SetInvM (pose : Matrix4f)
  | UpdateVisibleList
  | prepare_for_tracking
  | TrackCamera
  | save_pose_on_thread (pose : Option Matrix4f) (pattern : String) (index : Nat)
  | increment_index
  | add_features_to_forest
deriving DecidableEq

/-- The collaborators of `process_relocalisation`, whose code is outside this source tree. -/
structure Collaborators where
  /-- The call `m_lowLevelEngine->CountValidDepths`. -/
  CountValidDepths : Image ℚ → Nat
  /-- The call `m_gpuRansac->get_min_nb_required_points`. -/
  get_min_nb_required_points : Nat
  /-- The call `m_featureExtractor->ComputeFeature`. -/
  ComputeFeature : Image Vector3u → Image ℚ → Vector4f → Matrix4f → Image RGBDPatchFeature
  /-- The call `m_gpuForest->evaluate_forest`, on the feature images folded into the forest so
  far and the current features. -/
  evaluate_forest : List (Image RGBDPatchFeature) → Image RGBDPatchFeature →
    Image GPUForestPrediction
  /-- The call `m_gpuRansac->estimate_pose`. -/
  estimate_pose : Image RGBDPatchFeature → Image GPUForestPrediction → Option PoseCandidate
  /-- The call `m_refineTracker->TrackCamera`: the pose and the tracker result it leaves in the
  tracking state. -/
  TrackCamera : Matrix4f → View → Matrix4f × TrackingResult

/-- The state `process_relocalisation` works on. -/
structure ComponentState where
  /-- The matrix `trackingState->pose_d->GetInvM()`. -/
  pose_d_InvM : Matrix4f
  /-- The field `trackingState->trackerResult`. -/
  trackerResult : TrackingResult
  m_featureImage : Image RGBDPatchFeature
  m_predictionsImage : Image GPUForestPrediction
  /-- The forest, as the feature images folded into it so far. -/
  forest : List (Image RGBDPatchFeature)
  /-- The index of `m_sequentialPathGenerator`, when there is one. -/
  m_sequentialPathGenerator : Option Nat
  /-- The calls made so far. -/
  calls : List Call

/-- Records a call. -/
def ComponentState.call (st : ComponentState) (c : Call) : ComponentState :=
  { st with calls := st.calls ++ [c] }

/-- The identity matrix (`Matrix4f::setIdentity`). -/
def Matrix4f.identity : Matrix4f := ⟨[1, 0, 0, 0, 0, 1, 0, 0, 0, 0, 1, 0, 0, 0, 0, 1]⟩

/-- The function `compute_features(inputRgbImage, inputDepthImage, depthIntrinsics, invCameraPose)`. -/
def compute_features (K : Collaborators) (st : ComponentState) (inputRgbImage : Image Vector3u)
    (inputDepthImage : Image ℚ) (depthIntrinsics : Vector4f) (invCameraPose : Matrix4f) :
    ComponentState :=
  { st.call (.compute_features invCameraPose) with
    m_featureImage := K.ComputeFeature inputRgbImage inputDepthImage depthIntrinsics invCameraPose }

/-- The function `evaluate_forest()`. -/
def evaluate_forest (K : Collaborators) (st : ComponentState) : ComponentState :=
  { st.call .evaluate_forest with
    m_predictionsImage := K.evaluate_forest st.forest st.m_featureImage }

/-- The statement `if (m_sequentialPathGenerator) m_sequentialPathGenerator->increment_index()`. -/
def increment_index_if_present (st : ComponentState) : ComponentState :=
  match st.m_sequentialPathGenerator with
  | some i => { st.call .increment_index with m_sequentialPathGenerator := some (i + 1) }
  | none => st

/-- The three `save_pose_on_thread` calls, made when there is a path generator. -/
def save_poses_if_present (st : ComponentState) (reloc icp final : Option Matrix4f) :
    ComponentState :=
  match st.m_sequentialPathGenerator with
  | some i =>
    ((st.call (.save_pose_on_thread reloc "pose-%06i.reloc.txt" i)).call
      (.save_pose_on_thread icp "pose-%06i.icp.txt" i)).call
      (.save_pose_on_thread final "pose-%06i.final.txt" i)
  | none => st

/-- The function `process_relocalisation(trackingResult)`, built with `SAVE_RELOC_POSES`
defined and `ENABLE_TIMERS`, `VISUALIZE_INLIERS` undefined: the returned result and the state
afterwards. -/
def process_relocalisation (K : Collaborators) (view : View) (st : ComponentState)
    (trackingResult : TrackingResult) : TrackingResult × ComponentState :=
  let inputDepthImage := view.depth
  let inputRGBImage := view.rgb
  let depthIntrinsics := view.intrinsics_d
  if trackingResult = .TRACKING_FAILED then
    let st1 := st.call .CountValidDepths
    if K.CountValidDepths inputDepthImage < K.get_min_nb_required_points then
      (trackingResult, increment_index_if_present st1)
    else
      let st2 := compute_features K st1 inputRGBImage inputDepthImage depthIntrinsics
        Matrix4f.identity
      let st3 := evaluate_forest K st2
      let st4 := st3.call .estimate_pose
      match K.estimate_pose st4.m_featureImage st4.m_predictionsImage with
      | some pose_candidate =>
        let st5 : ComponentState := { st4.call (.SetInvM pose_candidate.cameraPose) with
          pose_d_InvM := pose_candidate.cameraPose }
        let st6 := (st5.call .UpdateVisibleList).call .prepare_for_tracking
        let tracked := K.TrackCamera st6.pose_d_InvM view
        let st7 : ComponentState := { st6.call .TrackCamera with
          pose_d_InvM := tracked.1, trackerResult := tracked.2 }
        let trackingResult1 : TrackingResult := st7.trackerResult
        let final_pose :=
          if trackingResult1 = .TRACKING_GOOD then st7.pose_d_InvM
          else pose_candidate.cameraPose
        let st8 := save_poses_if_present st7 (some pose_candidate.cameraPose)
          (some st7.pose_d_InvM) (some final_pose)
        let trackingResult2 : TrackingResult := .TRACKING_POOR
        (trackingResult2, increment_index_if_present st8)
      | none =>
        let st5 := save_poses_if_present st4 none none none
        (trackingResult, increment_index_if_present st5)
  else if trackingResult = .TRACKING_GOOD then
    let invCameraPose := st.pose_d_InvM
    let st1 := compute_features K st inputRGBImage inputDepthImage depthIntrinsics invCameraPose
    let st2 : ComponentState := { st1.call .add_features_to_forest with
      forest := st1.forest ++ [st1.m_featureImage] }
    (trackingResult, st2)
  else (trackingResult, st)

/-! ## ImageProcessor_Shared.h

Image buffers (`const float *`, `float *`) are total functions on the element index; the input
and output buffers of a call are distinct arrays. In `calculate_pixel_depth_difference` the
indices are `int` values (32 bits, two's complement) and an element index is the offset from
the buffer's pointer, which the arithmetic can make negative. -/

/-- The value an `int` holds for the mathematical result `z`: the representative of `z` modulo
`2^32` in `[-2^31, 2^31)`. -/
def wrapInt (z : Int) : Int := (z + 2147483648) % 4294967296 - 2147483648

/-- The function `calculate_pixel_depth_difference(rowMajorIndex, firstInputData,
secondInputData, width, height, outputData)`: the output buffer after the call. The division
and remainder truncate towards zero and every `int` operation wraps around. -/
def calculate_pixel_depth_difference (rowMajorIndex : Int)
    (firstInputData secondInputData : Int → ℚ) (width height : Int) (outputData : Int → ℚ) :
    Int → ℚ :=
  let row := wrapInt (rowMajorIndex.tdiv width)
  let col := wrapInt (rowMajorIndex.tmod width)
  let columnMajorIndex := wrapInt (wrapInt (col * height) + row)
  let firstPixel := firstInputData rowMajorIndex
  let secondPixel := secondInputData rowMajorIndex
  Function.update outputData columnMajorIndex
    (if firstPixel ≥ 0 ∧ secondPixel ≥ 0 then |firstPixel - secondPixel| else -1)

/-- The enumeration `ImageProcessor::ComparisonOperator`. The source names the enumerators
`CO_GREATER` and `CO_LESS`; `other` stands for any further value, which reaches the `default`
branch of `set_pixel_on_threshold`. -/
inductive ComparisonOperator where
  | CO_GREATER
  | CO_LESS
  | other (code : Nat)
deriving DecidableEq

/-- The input buffer and the output buffer of `set_pixel_on_threshold`. -/
structure PixelBuffers where
  inputData : Nat → ℚ
  outputData : Nat → ℚ

/-- The function `set_pixel_on_threshold(pixelIndex, inputData, op, threshold, value,
outputData)`: the two buffers after the call. -/
def set_pixel_on_threshold (pixelIndex : Nat) (op : ComparisonOperator) (threshold value : ℚ)
    (buffers : PixelBuffers) : PixelBuffers :=
  let input := buffers.inputData pixelIndex
  match op with
  | .CO_GREATER =>
    { buffers with
      outputData := Function.update buffers.outputData pixelIndex
        (if input > threshold then value else input) }
  | .CO_LESS =>
    { buffers with
      outputData := Function.update buffers.outputData pixelIndex
        (if input < threshold then value else input) }
  | .other _ =>
    -- This should never happen.
    buffers

/-! ## Example instances

A library and a small scene on which the definitions can be evaluated. The scene is a 3 x 1
image whose pixels see the corners of a 3-4-5 triangle; every prediction has one mode, located
where the pixel's feature is, so that the identity is the true camera pose. -/

/-- The integer square root, found by search; exact on perfect squares. -/
def exampleSqrtNat (n : Nat) : Nat := Nat.findGreatest (fun k => k * k ≤ n) n

/-- The Euclidean length, exact whenever the squared length is the square of a rational. -/
def exampleLength (v : Vector3f) : ℚ :=
  (exampleSqrtNat (dot v v).num.toNat : ℚ) / (exampleSqrtNat (dot v v).den : ℚ)

/-- The number of decimal digits of `n`, less one; the first argument bounds the recursion. -/
def exampleLog10Nat : Nat → Nat → Nat
  | 0, _ => 0
  | fuel + 1, n => if n < 10 then 0 else exampleLog10Nat fuel (n / 10) + 1

/-- The decimal logarithm, exact on the powers of ten. -/
def exampleLog10 (q : ℚ) : ℚ :=
  (exampleLog10Nat q.num.toNat q.num.toNat : ℚ) - (exampleLog10Nat q.den q.den : ℚ)

/-- The squared Mahalanobis distance of `x` to a mode. -/
def mahalanobisSq (mode : GPUForestMode) (x : Vector3f) : ℚ :=
  dot (mode.position - x) (mode.positionInvCovariance.mulVec (mode.position - x))

/-- A likelihood of a mode at `x` that is largest at the mode's mean, where it is the mode's
number of inliers, and decreases with the Mahalanobis distance. -/
def exampleLikelihood (mode : GPUForestMode) (x : Vector3f) : ℚ :=
  (mode.nbInliers : ℚ) / (1 + mahalanobisSq mode x)

/-- The search for the mode of highest likelihood, from mode `m` on: a mode replaces the best
so far only when its likelihood is strictly higher. -/
def exampleBestModeLoop (p : GPUForestPrediction) (x : Vector3f) : Nat → Nat → Int × ℚ → Int × ℚ
  | 0, _, best => best
  | left + 1, m, best =>
    exampleBestModeLoop p x left (m + 1)
      (if exampleLikelihood (p.modes m) x > best.2 then ((m : Int), exampleLikelihood (p.modes m) x)
       else best)

/-- The best mode of a prediction at `x` and its likelihood; `-1` when no mode has a positive
likelihood. -/
def exampleBestMode (p : GPUForestPrediction) (x : Vector3f) : Int × ℚ :=
  exampleBestModeLoop p x p.nbModes 0 (-1, 0)

/-- The pose with the given translation and no rotation. -/
def translationPose (t : List ℚ) : SE3Pose :=
  ⟨[t.getD 0 0, t.getD 1 0, t.getD 2 0, 0, 0, 0],
   ⟨[1, 0, 0, 0, 0, 1, 0, 0, 0, 0, 1, 0, t.getD 0 0, t.getD 1 0, t.getD 2 0, 1]⟩⟩

/-- An example library: exact lengths and logarithms on the values of the example scene, the
identity as Kabsch solution, translations as poses, and an optimiser that stays at its start. -/
def exampleLibrary : Library where
  length := exampleLength
  log10f := exampleLog10
  Kabsch := fun _ _ => Matrix4f.identity
  get_best_mode_and_energy := exampleBestMode
  SE3PoseOfMatrix := fun M => ⟨[M.m.getD 12 0, M.m.getD 13 0, M.m.getD 14 0, 0, 0, 0], M⟩
  SE3PoseOfParams := translationPose
  minlmoptimize := fun _ _ _ _ start => start

/-- The identity matrix as a `Matrix3f`. -/
def Matrix3f.identity : Matrix3f := ⟨[1, 0, 0, 0, 1, 0, 0, 0, 1]⟩

/-- The camera-space (and world-space) point seen by pixel `i` of the example scene. -/
def examplePoint (i : Nat) : Vector3f :=
  if i = 0 then ⟨0, 0, 0⟩ else if i = 1 then ⟨3, 0, 0⟩ else ⟨0, 4, 0⟩

/-- The features of the example scene: all valid, all of colour (10, 10, 10). -/
def exampleFeatures : Image RGBDPatchFeature where
  width := 3
  height := 1
  data := fun i =>
    ⟨⟨(examplePoint i).x, (examplePoint i).y, (examplePoint i).z, 1⟩, ⟨10, 10, 10, 255⟩⟩

/-- The predictions of the example scene: one mode per pixel, at the pixel's point. -/
def examplePredictions : Image GPUForestPrediction where
  width := 3
  height := 1
  data := fun i => ⟨1, fun _ => ⟨examplePoint i, Matrix3f.identity, 1, ⟨10, 10, 10⟩, 5⟩⟩

/-- The component as constructed, on the example scene. -/
def exampleComponent : SLAMComponentWithScoreForest :=
  SLAMComponentWithScoreForest.construct exampleFeatures examplePredictions

/-- An engine whose draws visit the pixels 0, 1, 2, 0, ... when three values are drawn for
each pixel (column, row, mode). -/
def exampleEngine : mt19937 := fun n => if n % 3 = 0 then n / 3 else 0

/-- A candidate with no inliers, standing for an uninitialised `PoseCandidate`. -/
def emptyCandidate : PoseCandidate := ⟨Matrix4f.identity, [], 0, 0⟩

/-- The example component with 4 hypotheses, batches of 2 pixels and a trim to 2 candidates,
so that `estimate_pose` can be evaluated on it. -/
def smallComponent : SLAMComponentWithScoreForest :=
  { exampleComponent with
    m_kInitRansac := 4
    m_batchSizeRansac := 2
    m_trimKinitAfterFirstEnergyComputation := 2 }

/-- The thread of iteration `i` when 12 threads take the iterations in turn. -/
def exampleThreadOf (i : Nat) : Nat := i % 12

/-- An engine whose draws visit the pixels 0, 1, 2, 0, ... when two values are drawn for each
pixel (column, row). -/
def exampleSamplingEngine : mt19937 := fun n => n / 2

deriving instance DecidableEq for Except

/-- A candidate on the mixed scene with exactly 3 inliers, the third on the pixel without
modes. -/
def threeInliersOneWithoutMode : PoseCandidate :=
  ⟨Matrix4f.identity, [⟨0, 0, 0⟩, ⟨1, 0, 0⟩, ⟨4, -1, 0⟩], 0, 0⟩

/-- A candidate on the mixed scene with the inliers 0, 1, 2, 3, all of which fit its pose. -/
def fourFittingInliers : PoseCandidate :=
  ⟨Matrix4f.identity, [⟨0, 0, 0⟩, ⟨1, 0, 0⟩, ⟨2, 0, 0⟩, ⟨3, -1, 0⟩], 0, 0⟩

/-- The candidate `estimate_pose` returns on `smallComponent`. -/
def smallComponentResult : PoseCandidate :=
  ⟨Matrix4f.identity, [⟨0, 0, 0⟩, ⟨1, 0, 0⟩, ⟨2, 0, 0⟩, ⟨2, 0, 0⟩, ⟨0, 0, 0⟩], 0, 0⟩

/-- The point seen by pixel `i` of the mixed scene: the example scene with a fourth and a
fifth pixel. -/
def mixedPoint (i : Nat) : Vector3f :=
  if i = 3 then ⟨0, 0, 12⟩ else if i = 4 then ⟨5, 0, 12⟩ else examplePoint i

/-- The features of the mixed scene, a 5 x 1 image. -/
def mixedFeatures : Image RGBDPatchFeature where
  width := 5
  height := 1
  data := fun i => ⟨⟨(mixedPoint i).x, (mixedPoint i).y, (mixedPoint i).z, 1⟩, ⟨10, 10, 10, 255⟩⟩

/-- The predictions of the mixed scene. Pixels 0, 1 and 2 have one mode; pixel 3 has ten
modes, all at its point; pixel 4 has no mode. -/
def mixedPredictions : Image GPUForestPrediction where
  width := 5
  height := 1
  data := fun i =>
    ⟨if i = 3 then 10 else if i = 4 then 0 else 1,
      fun _ => ⟨mixedPoint i, Matrix3f.identity, 1, ⟨10, 10, 10⟩, 5⟩⟩

/-- The component on the mixed scene, with batches of one pixel and without pose update. -/
def mixedComponent : SLAMComponentWithScoreForest :=
  { SLAMComponentWithScoreForest.construct mixedFeatures mixedPredictions with
    m_batchSizeRansac := 1
    m_poseUpdate := false }

/-- The pose that translates by 3 along x. -/
def shiftedPose : Matrix4f := ⟨[1, 0, 0, 0, 0, 1, 0, 0, 0, 0, 1, 0, 3, 0, 0, 1]⟩

/-- A candidate on the pixels 0, 1, 2 with the given pose and camera id, as `hypothesize_pose`
fills it in. -/
def candidateOn012 (pose : Matrix4f) (cameraId : Int) : PoseCandidate :=
  ⟨pose, [⟨0, 0, 0⟩, ⟨1, 0, 0⟩, ⟨2, 0, 0⟩], 0, cameraId⟩

/-- An engine that draws pixel 0 and then pixel 3 when two values are drawn for each pixel. -/
def engine0Then3 : mt19937 := fun n => if n = 2 then 3 else 0

/-- A state of the elimination loop on the mixed scene: three candidates with the shifted pose
and, in third place, one with the true (identity) pose. -/
def oneGoodOfFour : RansacState :=
  ⟨[candidateOn012 shiftedPose 0, candidateOn012 shiftedPose 1,
    candidateOn012 Matrix4f.identity 2, candidateOn012 shiftedPose 3],
   List.replicate 5 false, engine0Then3, 0⟩

/-- A state of the elimination loop on the mixed scene: four candidates with the true pose. -/
def fourGood : RansacState :=
  ⟨[candidateOn012 Matrix4f.identity 0, candidateOn012 Matrix4f.identity 1,
    candidateOn012 Matrix4f.identity 2, candidateOn012 Matrix4f.identity 3],
   List.replicate 5 false, engine0Then3, 0⟩

/-- The candidate `slightlyOffCandidate` with a fifth inlier, on the pixel without modes. -/
def slightlyOffWithoutMode : PoseCandidate :=
  ⟨⟨[1, 0, 0, 0, 0, 1, 0, 0, 0, 0, 1, 0, 1 / 10, 0, 0, 1]⟩,
    [⟨0, 0, 0⟩, ⟨1, 0, 0⟩, ⟨2, 0, 0⟩, ⟨3, -1, 0⟩, ⟨4, -1, 0⟩], 0, 0⟩

/-- The example library with an optimiser that always ends on the zero twist, the identity. -/
def improvingLibrary : Library :=
  { exampleLibrary with minlmoptimize := fun _ _ _ _ _ => [0, 0, 0, 0, 0, 0] }

/-- A candidate on the mixed scene with the inliers 0, 1, 2, 3 and a pose that is off the true
one by 1/10 along x. -/
def slightlyOffCandidate : PoseCandidate :=
  ⟨⟨[1, 0, 0, 0, 0, 1, 0, 0, 0, 0, 1, 0, 1 / 10, 0, 0, 1]⟩,
    [⟨0, 0, 0⟩, ⟨1, 0, 0⟩, ⟨2, 0, 0⟩, ⟨3, -1, 0⟩], 0, 0⟩

/-- Example collaborators: valid depths are the positive ones, 3 of them are required, the
features and predictions are those of the example scene, no pose is found and the tracker keeps
the pose. -/
def exampleCollaborators : Collaborators where
  CountValidDepths := fun d => ((List.range d.dataSize).filter (fun i => d.data i > 0)).length
  get_min_nb_required_points := 3
  ComputeFeature := fun _ _ _ _ => exampleFeatures
  evaluate_forest := fun _ _ => examplePredictions
  estimate_pose := fun _ _ => none
  TrackCamera := fun pose _ => (pose, .TRACKING_GOOD)

/-- A view whose 2 x 1 depth image has one valid depth. -/
def sparseView : View where
  depth := ⟨2, 1, fun i => if i = 0 then 1 else 0⟩
  rgb := ⟨2, 1, fun _ => ⟨10, 10, 10⟩⟩
  intrinsics_d := ⟨1, 1, 0, 0⟩

/-- A state before a relocalisation: the shifted pose, tracking failed, a path generator at
index 7 and no call made yet. -/
def exampleState : ComponentState where
  pose_d_InvM := shiftedPose
  trackerResult := .TRACKING_FAILED
  m_featureImage := exampleFeatures
  m_predictionsImage := examplePredictions
  forest := []
  m_sequentialPathGenerator := some 7
  calls := []

/-- Example collaborators that require one valid depth and find the candidate
`smallComponentResult`; the tracker keeps the pose and reports good tracking. -/
def findingCollaborators : Collaborators :=
  { exampleCollaborators with
    get_min_nb_required_points := 1
    estimate_pose := fun _ _ => some smallComponentResult }

/-- Example collaborators that require one valid depth and find no candidate. -/
def notFindingCollaborators : Collaborators :=
  { exampleCollaborators with get_min_nb_required_points := 1 }

/-- The predictions of the example scene with every mode of colour (20, 20, 20): each pixel,
of colour (10, 10, 10), is darker than its mode by 10 on every channel. -/
def brighterModePredictions : Image GPUForestPrediction where
  width := 3
  height := 1
  data := fun i => ⟨1, fun _ => ⟨examplePoint i, Matrix3f.identity, 1, ⟨20, 20, 20⟩, 5⟩⟩

/-- The component as constructed, on the example features and the brighter modes. -/
def brighterModeComponent : SLAMComponentWithScoreForest :=
  SLAMComponentWithScoreForest.construct exampleFeatures brighterModePredictions

/-- A black feature, of colour (0, 0, 0). -/
def blackFeature : RGBDPatchFeature := ⟨⟨0, 0, 0, 1⟩, ⟨0, 0, 0, 255⟩⟩

/-- A white mode, of colour (255, 255, 255). -/
def whiteMode : GPUForestMode := ⟨⟨0, 0, 0⟩, Matrix3f.identity, 1, ⟨255, 255, 255⟩, 5⟩

/-- The features of the retry scene, a 4 x 1 image: pixel 0 is invalid, the pixels 1, 2, 3 see
the three points of the example scene. -/
def retryFeatures : Image RGBDPatchFeature where
  width := 4
  height := 1
  data := fun i =>
    ⟨⟨(examplePoint (i - 1)).x, (examplePoint (i - 1)).y, (examplePoint (i - 1)).z,
      if i = 0 then -1 else 1⟩, ⟨10, 10, 10, 255⟩⟩

/-- The predictions of the retry scene: one mode per pixel, at the pixel's point. -/
def retryPredictions : Image GPUForestPrediction where
  width := 4
  height := 1
  data := fun i => ⟨1, fun _ => ⟨examplePoint (i - 1), Matrix3f.identity, 1, ⟨10, 10, 10⟩, 5⟩⟩

/-- The component as constructed, on the retry scene. -/
def retryComponent : SLAMComponentWithScoreForest :=
  SLAMComponentWithScoreForest.construct retryFeatures retryPredictions

/-- An engine whose first 12000 raw values are 0, so that 6000 draws of a pixel give the
invalid pixel 0, and whose later values visit the pixels 1, 2, 3 when three values are drawn
for each pixel. -/
def lateEngine : mt19937 := fun n =>
  if n < 12000 then 0 else if (n - 12000) % 3 = 0 then (n - 12000) / 3 + 1 else 0

/-- The component on the mixed scene with `m_usePredictionCovarianceForPoseOptimization`
disabled. -/
def mixedComponentWithoutCovariance : SLAMComponentWithScoreForest :=
  { mixedComponent with m_usePredictionCovarianceForPoseOptimization := false }

/-- The example library with the integer part of the decimal logarithm as `log10f`: it is
monotone on the positive rationals and exact on the powers of ten. -/
def floorLogLibrary : Library :=
  { exampleLibrary with log10f := fun q => ((Int.log 10 q : Int) : ℚ) }

/-! ## Predicates used in the statements -/

/-- The world position of the mode an inlier refers to. -/
def inlierModePosition (self : SLAMComponentWithScoreForest) (inlier : Inlier) : Vector3f :=
  ((self.m_predictionsImage.data inlier.linearIdx).modes inlier.modeIdx.toNat).position

/-- The camera-space position of the feature an inlier refers to. -/
def inlierFeaturePosition (self : SLAMComponentWithScoreForest) (inlier : Inlier) : Vector3f :=
  (self.m_featureImage.data inlier.linearIdx).position.toVector3

/-- The pixel at a linear index has a valid feature (`position.w >= 0`) and a prediction with
at least one mode. -/
def ValidPixel (self : SLAMComponentWithScoreForest) (linearIdx : Nat) : Prop :=
  (self.m_featureImage.data linearIdx).position.w ≥ 0
    ∧ (self.m_predictionsImage.data linearIdx).nbModes ≥ 1


/-- What `hypothesize_pose` has checked of a pixel and mode `s` when it appends it to the
already selected `sel`. -/
structure Accepts (L : Library) (comp : SLAMComponentWithScoreForest)
    (sel : List SelectedPixelAndMode) (s : SelectedPixelAndMode) : Prop where
  valid : ¬ (comp.m_featureImage.data (linearIdxOf comp s)).position.w < 0
  hasModes : (comp.m_predictionsImage.data (linearIdxOf comp s)).nbModes ≠ 0
  colour : sel.isEmpty = true →
    consistentColour (comp.m_featureImage.data (linearIdxOf comp s))
      ((comp.m_predictionsImage.data (linearIdxOf comp s)).modes s.2.2) = true
  far : comp.m_checkMinDistanceBetweenSampledModes = true →
    farEnough L comp (worldPtOf comp s) sel = true
  rigid : comp.m_checkRigidTransformationConstraint = true →
    violatesConditions L comp (comp.m_featureImage.data (linearIdxOf comp s)) (worldPtOf comp s)
      sel = false

/-- The lists of selected pixels that `hypothesize_pose` can build: each entry was accepted
against the entries before it. -/
inductive AcceptedSequence (L : Library) (self : SLAMComponentWithScoreForest) :
    List SelectedPixelAndMode → Prop where
  | nil : AcceptedSequence L self []
  | snoc (sel : List SelectedPixelAndMode) (s : SelectedPixelAndMode) :
      AcceptedSequence L self sel → Accepts L self sel s → AcceptedSequence L self (sel ++ [s])

/-- The energy `compute_pose_energy` stores for an inlier under a pose; it depends on the
inlier's pixel only. -/
def scoredEnergyOf (L : Library) (self : SLAMComponentWithScoreForest)
    (candidateCameraPose : Matrix4f) (inlier : Inlier) : ℚ :=
  inlierEnergy L (self.m_predictionsImage.data inlier.linearIdx)
    (bestModeOfInlier L self candidateCameraPose inlier).1
    (bestModeOfInlier L self candidateCameraPose inlier).2

/-- The inlier as `compute_pose_energy` rewrites it: its energy and its best mode. -/
def rescored (L : Library) (self : SLAMComponentWithScoreForest)
    (candidateCameraPose : Matrix4f) (inlier : Inlier) : Inlier :=
  { inlier with
    energy := scoredEnergyOf L self candidateCameraPose inlier
    modeIdx := (bestModeOfInlier L self candidateCameraPose inlier).1 }

/-- The inlier makes `compute_pose_energy` raise: it has no best mode, or its best mode has no
inliers. -/
def RaisesOn (L : Library) (self : SLAMComponentWithScoreForest)
    (candidateCameraPose : Matrix4f) (inlier : Inlier) : Prop :=
  (bestModeOfInlier L self candidateCameraPose inlier).1 < 0
    ∨ ((self.m_predictionsImage.data inlier.linearIdx).modes
        (bestModeOfInlier L self candidateCameraPose inlier).1.toNat).nbInliers = 0

instance (L : Library) (self : SLAMComponentWithScoreForest) (candidateCameraPose : Matrix4f)
    (inlier : Inlier) : Decidable (RaisesOn L self candidateCameraPose inlier) :=
  inferInstanceAs (Decidable (_ ∨ _))

/-- The inliers that the iteration of the elimination loop starting in state `st` appends to
every candidate: those of the batch it samples. -/
def nextBatch (self : SLAMComponentWithScoreForest) (st : RansacState) : List Inlier :=
  (sample_pixels_for_ransac self ⟨st.maskSampledPixels, [], st.random_engine⟩
    self.m_batchSizeRansac).sampledPixelIdx.map (sampleInlier self)

/-- The best mode index `update_candidate_pose` finds for an inlier under a pose. -/
def bestModeIdxOf (L : Library) (self : SLAMComponentWithScoreForest)
    (candidateCameraPose : SE3Pose) (inlier : Inlier) : Int :=
  L.get_best_mode (self.m_predictionsImage.data inlier.linearIdx)
    (candidateCameraPose.GetM.mulVec
      (self.m_featureImage.data inlier.linearIdx).position.toVector3)

/-- The inlier trips the guard of `update_candidate_pose`: its best mode index is negative or
not below `nbModes`. -/
def NoBestMode (L : Library) (self : SLAMComponentWithScoreForest)
    (candidateCameraPose : SE3Pose) (inlier : Inlier) : Prop :=
  bestModeIdxOf L self candidateCameraPose inlier < 0
    ∨ bestModeIdxOf L self candidateCameraPose inlier
        ≥ ((self.m_predictionsImage.data inlier.linearIdx).nbModes : Int)

instance (L : Library) (self : SLAMComponentWithScoreForest) (candidateCameraPose : SE3Pose)
    (inlier : Inlier) : Decidable (NoBestMode L self candidateCameraPose inlier) :=
  inferInstanceAs (Decidable (_ ∨ _))

/-- The (point, best mode) pair of an inlier. -/
def pairOf (L : Library) (self : SLAMComponentWithScoreForest)
    (candidateCameraPose : SE3Pose) (inlier : Inlier) : PointForLM :=
  ⟨(self.m_featureImage.data inlier.linearIdx).position.toVector3,
    (self.m_predictionsImage.data inlier.linearIdx).modes
      (bestModeIdxOf L self candidateCameraPose inlier).toNat⟩

/-- The inlier yields a pair for the refinement: it has a valid best mode, and its projected
point lies at a distance strictly below `m_poseOptimizationInlierThreshold` from the mean of
that mode. -/
def YieldsPair (L : Library) (self : SLAMComponentWithScoreForest)
    (candidateCameraPose : SE3Pose) (inlier : Inlier) : Prop :=
  ¬ NoBestMode L self candidateCameraPose inlier
    ∧ L.length ((pairOf L self candidateCameraPose inlier).mode.position
          - candidateCameraPose.GetM.mulVec
              (self.m_featureImage.data inlier.linearIdx).position.toVector3)
        < self.m_poseOptimizationInlierThreshold

instance (L : Library) (self : SLAMComponentWithScoreForest) (candidateCameraPose : SE3Pose)
    (inlier : Inlier) : Decidable (YieldsPair L self candidateCameraPose inlier) :=
  inferInstanceAs (Decidable (_ ∧ _))

/-- The pairs yielded by the inliers of a list, in order: the refinement set. -/
def refinementSet (L : Library) (self : SLAMComponentWithScoreForest)
    (candidateCameraPose : SE3Pose) (inliers : List Inlier) : List PointForLM :=
  (inliers.filter (fun i => decide (YieldsPair L self candidateCameraPose i))).map
    (pairOf L self candidateCameraPose)

instance : IsTotal PoseCandidate energyLE := ⟨fun a b => le_total a.energy b.energy⟩

instance : IsTrans PoseCandidate energyLE := ⟨fun _ _ _ h1 h2 => le_trans h1 h2⟩

/-- The calls that persist the poses of a relocalisation and advance the path generator, when
there is one at index `i`: three `save_pose_on_thread` calls and `increment_index`. -/
def persistCalls (generator : Option Nat) (reloc icp final : Option Matrix4f) : List Call :=
  match generator with
  | some i =>
    [.save_pose_on_thread reloc "pose-%06i.reloc.txt" i,
     .save_pose_on_thread icp "pose-%06i.icp.txt" i,
     .save_pose_on_thread final "pose-%06i.final.txt" i,
     .increment_index]
  | none => []

/-- The calls made by one invocation of `process_relocalisation`: those recorded after the
calls that were already in the state. -/
def newCalls (K : Collaborators) (view : View) (st : ComponentState)
    (trackingResult : TrackingResult) : List Call :=
  (process_relocalisation K view st trackingResult).2.calls.drop st.calls.length

/-- The engine after `k` raw values have been drawn from it. -/
def dropDraws (k : Nat) (eng : mt19937) : mt19937 := fun n => eng (n + k)

/-- The linear index of the pixel drawn by iteration `j` of a loop that draws a column and a
row in every iteration and nothing else. -/
def drawnPixel (self : SLAMComponentWithScoreForest) (eng : mt19937) (j : Nat) : Nat :=
  (uniform_int_distribution 0 (self.m_featureImage.height - 1) (dropDraws (2 * j + 1) eng)).1
      * self.m_featureImage.width
    + (uniform_int_distribution 0 (self.m_featureImage.width - 1) (dropDraws (2 * j) eng)).1

/-- The chosen mode of an inlier under a pose: the mode of its prediction at the index that
`get_best_mode_and_energy` returns. -/
def chosenMode (L : Library) (self : SLAMComponentWithScoreForest)
    (candidateCameraPose : Matrix4f) (inlier : Inlier) : GPUForestMode :=
  (self.m_predictionsImage.data inlier.linearIdx).modes
    (bestModeOfInlier L self candidateCameraPose inlier).1.toNat

/-- The batches of pixels sampled by the iterations of the elimination loop started in `st`,
in the order sampled, up to the end of the loop or the iteration that raises; the first
argument bounds the number of iterations, as in `ransac_loop`. -/
def ransac_loop_batches (L : Library) (self : SLAMComponentWithScoreForest) :
    Nat → RansacState → List (List Vector2i)
  | 0, _ => []
  | left + 1, st =>
    if st.candidates.length > 1 then
      (sample_pixels_for_ransac self ⟨st.maskSampledPixels, [], st.random_engine⟩
          self.m_batchSizeRansac).sampledPixelIdx ::
        (match ransac_round L self st with
         | .error _ => []
         | .ok st1 => ransac_loop_batches L self left st1)
    else []

/-- The candidate `c` is the candidate `c0` as the scoring loop of `compute_and_sort_energies`
leaves it: the pose and the camera id of `c0`, with the energy and the inliers that
`compute_pose_energy` returns for `c0`. -/
def ScoredAs (L : Library) (self : SLAMComponentWithScoreForest) (c0 c : PoseCandidate) : Prop :=
  c.cameraPose = c0.cameraPose ∧ c.cameraId = c0.cameraId
    ∧ compute_pose_energy L self c0.cameraPose c0.inliers = .ok (c.energy, c.inliers)

/-- The candidate `c1` is the candidate `c0` as an iteration of the elimination loop hands it
to the scoring: with the inliers of the batch appended and, when `m_poseUpdate` is set, as
`update_candidate_pose` leaves it then. -/
def ExtendedAs (L : Library) (self : SLAMComponentWithScoreForest) (batch : List Inlier)
    (c0 c1 : PoseCandidate) : Prop :=
  if self.m_poseUpdate = true then
    ∃ flag : Bool,
      update_candidate_pose L self { c0 with inliers := c0.inliers ++ batch } = .ok (flag, c1)
  else c1 = { c0 with inliers := c0.inliers ++ batch }

/-! # Theorems -/

/-! ## Properties of hypothesize_pose -/

theorem hypothesize_pose_inner_accepted (L : Library) (self : SLAMComponentWithScoreForest) :
    ∀ (left : Nat) (sel : List SelectedPixelAndMode) (eng : mt19937),
      AcceptedSequence L self sel →
      AcceptedSequence L self (hypothesize_pose_inner L self left sel eng).1 := by
  intro left
  induction left with
  | zero => intro sel eng h; simpa [hypothesize_pose_inner] using h
  | succ n ih =>
    intro sel eng h
    rw [hypothesize_pose_inner]
    dsimp only
    split_ifs <;>
      first
      | exact h
      | exact ih _ _ h
      | (refine ih _ _ (AcceptedSequence.snoc sel _ h ?_)
         constructor <;> simp_all [linearIdxOf, worldPtOf])

theorem farEnough_eq_true (L : Library) (self : SLAMComponentWithScoreForest) (w : Vector3f) :
    ∀ sel : List SelectedPixelAndMode, farEnough L self w sel = true →
      ∀ a ∈ sel, self.m_minDistanceBetweenSampledModes ≤ L.length (worldPtOf self a - w) := by
  intro sel
  induction sel with
  | nil => intro _ a ha; simp at ha
  | cons b rest ih =>
    intro h a ha
    simp only [farEnough] at h
    split_ifs at h with hlt
    rcases List.mem_cons.mp ha with rfl | hmem
    · exact not_lt.mp hlt
    · exact ih h a hmem

theorem violatesConditions_eq_false (L : Library) (self : SLAMComponentWithScoreForest)
    (f : RGBDPatchFeature) (w : Vector3f) :
    ∀ sel : List SelectedPixelAndMode, violatesConditions L self f w sel = false →
      ∀ a ∈ sel,
        self.m_minDistanceBetweenSampledModes ≤ L.length (localPtOf self a - f.position.toVector3)
        ∧ |L.length (localPtOf self a - f.position.toVector3) - L.length (worldPtOf self a - w)|
            ≤ (1 / 2) * self.m_translationErrorMaxForCorrectPose := by
  intro sel
  induction sel with
  | nil => intro _ a ha; simp at ha
  | cons b rest ih =>
    intro h a ha
    simp only [violatesConditions] at h
    split_ifs at h with hv
    rcases List.mem_cons.mp ha with rfl | hmem
    · rw [not_or] at hv
      exact ⟨not_lt.mp hv.1, not_lt.mp hv.2⟩
    · exact ih h a hmem

/-- What `hypothesize_pose` returns when it returns true: the candidate populated from the
pixels selected by the first run of the inner loop, which selected the full number. -/
theorem hypothesize_pose_eq_of_true (L : Library) (self : SLAMComponentWithScoreForest)
    (res : PoseCandidate) (eng : mt19937)
    (h : (hypothesize_pose L self res eng).1 = true) :
    (hypothesize_pose_inner L self maxIterationsInner [] eng).1.length
        = self.m_nbPointsForKabschBoostrap
      ∧ (hypothesize_pose L self res eng).2.1
        = populate L self (hypothesize_pose_inner L self maxIterationsInner [] eng).1 := by
  unfold hypothesize_pose at h ⊢
  by_cases hl : (hypothesize_pose_inner L self maxIterationsInner [] eng).1.length
      = self.m_nbPointsForKabschBoostrap
  · refine ⟨hl, ?_⟩
    simp [hypothesize_pose_outer, maxIterationsOuter, hl]
  · simp [hypothesize_pose_outer, maxIterationsOuter, hl] at h

theorem accepted_pairwise_far (L : Library) (self : SLAMComponentWithScoreForest)
    (hcheck : self.m_checkMinDistanceBetweenSampledModes = true)
    (sel : List SelectedPixelAndMode) (h : AcceptedSequence L self sel) :
    sel.Pairwise (fun a b =>
      self.m_minDistanceBetweenSampledModes ≤ L.length (worldPtOf self a - worldPtOf self b)) := by
  induction h with
  | nil => exact List.Pairwise.nil
  | snoc sel s _ ha ih =>
    rw [List.pairwise_append]
    refine ⟨ih, List.pairwise_singleton _ _, ?_⟩
    intro a ha1 b hb
    rw [List.mem_singleton] at hb
    subst hb
    exact farEnough_eq_true L self _ sel (ha.far hcheck) a ha1

theorem accepted_pairwise_rigid (L : Library) (self : SLAMComponentWithScoreForest)
    (hcheck : self.m_checkRigidTransformationConstraint = true)
    (sel : List SelectedPixelAndMode) (h : AcceptedSequence L self sel) :
    sel.Pairwise (fun a b =>
      |L.length (localPtOf self a - localPtOf self b)
          - L.length (worldPtOf self a - worldPtOf self b)|
        ≤ (1 / 2) * self.m_translationErrorMaxForCorrectPose) := by
  induction h with
  | nil => exact List.Pairwise.nil
  | snoc sel s _ ha ih =>
    rw [List.pairwise_append]
    refine ⟨ih, List.pairwise_singleton _ _, ?_⟩
    intro a ha1 b hb
    rw [List.mem_singleton] at hb
    subst hb
    exact (violatesConditions_eq_false L self _ _ sel (ha.rigid hcheck) a ha1).2

theorem accepted_valid (L : Library) (self : SLAMComponentWithScoreForest)
    (sel : List SelectedPixelAndMode) (h : AcceptedSequence L self sel) :
    ∀ s ∈ sel, ValidPixel self (linearIdxOf self s) := by
  induction h with
  | nil => intro s hs; simp at hs
  | snoc sel s _ ha ih =>
    intro t ht
    rcases List.mem_append.mp ht with h1 | h1
    · exact ih t h1
    · rw [List.mem_singleton] at h1
      subst h1
      exact ⟨not_lt.mp ha.valid, Nat.one_le_iff_ne_zero.mpr ha.hasModes⟩

/-- The pixels selected by the first run of the inner loop form an accepted sequence. -/
theorem inner_from_nil_accepted (L : Library) (self : SLAMComponentWithScoreForest)
    (eng : mt19937) :
    AcceptedSequence L self (hypothesize_pose_inner L self maxIterationsInner [] eng).1 :=
  hypothesize_pose_inner_accepted L self _ [] eng AcceptedSequence.nil

/-- C1: when `hypothesize_pose` returns true with `m_checkMinDistanceBetweenSampledModes`
enabled, it returns `m_nbPointsForKabschBoostrap` (3) inliers, and for every two of them the
distance between the positions of their chosen modes, `length(earlier - later)` as the code
computes it, is at least `m_minDistanceBetweenSampledModes`. -/
theorem hypothesize_pose_min_distance (L : Library) (self : SLAMComponentWithScoreForest)
    (res : PoseCandidate) (eng : mt19937)
    (hcheck : self.m_checkMinDistanceBetweenSampledModes = true)
    (hret : (hypothesize_pose L self res eng).1 = true) :
    (hypothesize_pose L self res eng).2.1.inliers.length = self.m_nbPointsForKabschBoostrap
    ∧ ∀ (i j : Nat) (hi : i < (hypothesize_pose L self res eng).2.1.inliers.length)
        (hj : j < (hypothesize_pose L self res eng).2.1.inliers.length), i < j →
        self.m_minDistanceBetweenSampledModes
          ≤ L.length (inlierModePosition self (hypothesize_pose L self res eng).2.1.inliers[i]
              - inlierModePosition self (hypothesize_pose L self res eng).2.1.inliers[j]) := by
  obtain ⟨hlen, heq⟩ := hypothesize_pose_eq_of_true L self res eng hret
  rw [heq]
  refine ⟨by simpa [populate] using hlen, ?_⟩
  have hp := accepted_pairwise_far L self hcheck _ (inner_from_nil_accepted L self eng)
  have hp2 : (populate L self (hypothesize_pose_inner L self maxIterationsInner [] eng).1).inliers.Pairwise
      (fun a b => self.m_minDistanceBetweenSampledModes
        ≤ L.length (inlierModePosition self a - inlierModePosition self b)) := by
    simp only [populate, List.pairwise_map]
    simpa [inlierModePosition, worldPtOf] using hp
  intro i j hi hj hij
  exact List.pairwise_iff_getElem.mp hp2 i j hi hj hij

/-- Witness of C1 on the example scene, where the three pixels are selected in turn. -/
theorem hypothesize_pose_min_distance_witness :
    (hypothesize_pose exampleLibrary exampleComponent emptyCandidate exampleEngine).2.1.inliers.length
      = exampleComponent.m_nbPointsForKabschBoostrap
    ∧ ∀ (i j : Nat)
        (hi : i < (hypothesize_pose exampleLibrary exampleComponent emptyCandidate
          exampleEngine).2.1.inliers.length)
        (hj : j < (hypothesize_pose exampleLibrary exampleComponent emptyCandidate
          exampleEngine).2.1.inliers.length), i < j →
        exampleComponent.m_minDistanceBetweenSampledModes
          ≤ exampleLibrary.length
              (inlierModePosition exampleComponent
                  (hypothesize_pose exampleLibrary exampleComponent emptyCandidate
                    exampleEngine).2.1.inliers[i]
                - inlierModePosition exampleComponent
                  (hypothesize_pose exampleLibrary exampleComponent emptyCandidate
                    exampleEngine).2.1.inliers[j]) :=
  hypothesize_pose_min_distance exampleLibrary exampleComponent emptyCandidate exampleEngine
    (by decide) (by decide!)

/-- C2: when `hypothesize_pose` returns true with `m_checkRigidTransformationConstraint`
enabled, then for every two of the inliers it returns, the camera-space distance between their
features and the world-space distance between their chosen modes differ in absolute value by at
most half of `m_translationErrorMaxForCorrectPose`. -/
theorem hypothesize_pose_rigid (L : Library) (self : SLAMComponentWithScoreForest)
    (res : PoseCandidate) (eng : mt19937)
    (hcheck : self.m_checkRigidTransformationConstraint = true)
    (hret : (hypothesize_pose L self res eng).1 = true) :
    (hypothesize_pose L self res eng).2.1.inliers.length = self.m_nbPointsForKabschBoostrap
    ∧ ∀ (i j : Nat) (hi : i < (hypothesize_pose L self res eng).2.1.inliers.length)
        (hj : j < (hypothesize_pose L self res eng).2.1.inliers.length), i < j →
        |L.length (inlierFeaturePosition self (hypothesize_pose L self res eng).2.1.inliers[i]
              - inlierFeaturePosition self (hypothesize_pose L self res eng).2.1.inliers[j])
          - L.length (inlierModePosition self (hypothesize_pose L self res eng).2.1.inliers[i]
              - inlierModePosition self (hypothesize_pose L self res eng).2.1.inliers[j])|
        ≤ (1 / 2) * self.m_translationErrorMaxForCorrectPose := by
  obtain ⟨hlen, heq⟩ := hypothesize_pose_eq_of_true L self res eng hret
  rw [heq]
  refine ⟨by simpa [populate] using hlen, ?_⟩
  have hp := accepted_pairwise_rigid L self hcheck _ (inner_from_nil_accepted L self eng)
  have hp2 : (populate L self (hypothesize_pose_inner L self maxIterationsInner [] eng).1).inliers.Pairwise
      (fun a b =>
        |L.length (inlierFeaturePosition self a - inlierFeaturePosition self b)
          - L.length (inlierModePosition self a - inlierModePosition self b)|
        ≤ (1 / 2) * self.m_translationErrorMaxForCorrectPose) := by
    simp only [populate, List.pairwise_map]
    simpa [inlierModePosition, inlierFeaturePosition, worldPtOf, localPtOf] using hp
  intro i j hi hj hij
  exact List.pairwise_iff_getElem.mp hp2 i j hi hj hij

/-- Witness of C2 on the example scene, where camera-space and world-space distances agree. -/
theorem hypothesize_pose_rigid_witness :
    (hypothesize_pose exampleLibrary exampleComponent emptyCandidate exampleEngine).2.1.inliers.length
      = exampleComponent.m_nbPointsForKabschBoostrap
    ∧ ∀ (i j : Nat)
        (hi : i < (hypothesize_pose exampleLibrary exampleComponent emptyCandidate
          exampleEngine).2.1.inliers.length)
        (hj : j < (hypothesize_pose exampleLibrary exampleComponent emptyCandidate
          exampleEngine).2.1.inliers.length), i < j →
        |exampleLibrary.length
            (inlierFeaturePosition exampleComponent
                (hypothesize_pose exampleLibrary exampleComponent emptyCandidate
                  exampleEngine).2.1.inliers[i]
              - inlierFeaturePosition exampleComponent
                (hypothesize_pose exampleLibrary exampleComponent emptyCandidate
                  exampleEngine).2.1.inliers[j])
          - exampleLibrary.length
            (inlierModePosition exampleComponent
                (hypothesize_pose exampleLibrary exampleComponent emptyCandidate
                  exampleEngine).2.1.inliers[i]
              - inlierModePosition exampleComponent
                (hypothesize_pose exampleLibrary exampleComponent emptyCandidate
                  exampleEngine).2.1.inliers[j])|
        ≤ (1 / 2) * exampleComponent.m_translationErrorMaxForCorrectPose :=
  hypothesize_pose_rigid exampleLibrary exampleComponent emptyCandidate exampleEngine
    (by decide) (by decide!)

/-! ## Properties of sample_pixels_for_ransac and update_inliers_for_optimization -/

theorem sample_pixel_attempts_valid (self : SLAMComponentWithScoreForest) :
    ∀ (left : Nat) (st : SamplingState),
      (∀ s ∈ st.sampledPixelIdx, ValidPixel self (sampleInlier self s).linearIdx) →
      ∀ s ∈ (sample_pixel_attempts self left st).2.sampledPixelIdx,
        ValidPixel self (sampleInlier self s).linearIdx := by
  intro left
  induction left with
  | zero => intro st h; simpa [sample_pixel_attempts] using h
  | succ n ih =>
    intro st h
    rw [sample_pixel_attempts]
    dsimp only
    by_cases h1 : (self.m_featureImage.data
        ((uniform_int_distribution 0 (self.m_featureImage.height - 1)
            (uniform_int_distribution 0 (self.m_featureImage.width - 1) st.eng).2).1
          * self.m_featureImage.width
          + (uniform_int_distribution 0 (self.m_featureImage.width - 1) st.eng).1)).position.w ≥ 0
    · by_cases h2 : (self.m_predictionsImage.data
          ((uniform_int_distribution 0 (self.m_featureImage.height - 1)
              (uniform_int_distribution 0 (self.m_featureImage.width - 1) st.eng).2).1
            * self.m_featureImage.width
            + (uniform_int_distribution 0 (self.m_featureImage.width - 1) st.eng).1)).nbModes > 0
      · rw [if_pos h1, if_pos h2]
        split_ifs <;>
          first
          | exact ih _ h
          | (intro s hs
             rcases List.mem_append.mp hs with hs1 | hs1
             · exact h s hs1
             · rw [List.mem_singleton] at hs1
               subst hs1
               exact ⟨h1, h2⟩)
      · rw [if_pos h1, if_neg h2]
        exact ih _ h
    · rw [if_neg h1]
      exact ih _ h

theorem sample_pixels_loop_valid (self : SLAMComponentWithScoreForest) :
    ∀ (left : Nat) (st : SamplingState),
      (∀ s ∈ st.sampledPixelIdx, ValidPixel self (sampleInlier self s).linearIdx) →
      ∀ s ∈ (sample_pixels_loop self left st).sampledPixelIdx,
        ValidPixel self (sampleInlier self s).linearIdx := by
  intro left
  induction left with
  | zero => intro st h; simpa [sample_pixels_loop] using h
  | succ n ih =>
    intro st h
    rw [sample_pixels_loop]
    split_ifs
    · exact sample_pixel_attempts_valid self 50 st h
    · exact ih _ (sample_pixel_attempts_valid self 50 st h)

/-- C3: every inlier placed in a candidate refers to a pixel with a valid feature
(`position.w >= 0`) and a prediction with at least one mode. This holds for the inliers of a
candidate returned by `hypothesize_pose`, and it is kept when
`update_inliers_for_optimization` appends a batch returned by `sample_pixels_for_ransac`
(called, as in `estimate_pose`, with an empty `sampledPixelIdx`). -/
theorem inliers_reference_valid_pixels (L : Library) (self : SLAMComponentWithScoreForest) :
    (∀ (res : PoseCandidate) (eng : mt19937), (hypothesize_pose L self res eng).1 = true →
      ∀ inlier ∈ (hypothesize_pose L self res eng).2.1.inliers,
        ValidPixel self inlier.linearIdx)
    ∧ (∀ (maskSampledPixels : List Bool) (eng : mt19937) (batchSize : Nat)
        (poseCandidates : List PoseCandidate),
        (∀ c ∈ poseCandidates, ∀ inlier ∈ c.inliers, ValidPixel self inlier.linearIdx) →
        ∀ c ∈ update_inliers_for_optimization self
            (sample_pixels_for_ransac self ⟨maskSampledPixels, [], eng⟩
              batchSize).sampledPixelIdx poseCandidates,
          ∀ inlier ∈ c.inliers, ValidPixel self inlier.linearIdx) := by
  constructor
  · intro res eng hret inlier hin
    obtain ⟨_, heq⟩ := hypothesize_pose_eq_of_true L self res eng hret
    rw [heq] at hin
    simp only [populate, List.mem_map] at hin
    obtain ⟨s, hs, rfl⟩ := hin
    exact accepted_valid L self _ (inner_from_nil_accepted L self eng) s hs
  · intro mask eng batchSize cands hc c hcin inlier hin
    simp only [update_inliers_for_optimization, List.mem_map] at hcin
    obtain ⟨c0, hc0, rfl⟩ := hcin
    rcases List.mem_append.mp hin with h1 | h1
    · exact hc c0 hc0 inlier h1
    · obtain ⟨s, hs, rfl⟩ := List.mem_map.mp h1
      exact sample_pixels_loop_valid self batchSize _ (by intro s hs; simp at hs) s hs

/-- Witness of C3 on the example scene: the candidate hypothesised there, then extended by a
batch of two sampled pixels. -/
theorem inliers_reference_valid_pixels_witness :
    (∀ inlier ∈ (hypothesize_pose exampleLibrary exampleComponent emptyCandidate
        exampleEngine).2.1.inliers, ValidPixel exampleComponent inlier.linearIdx)
    ∧ (∀ c ∈ update_inliers_for_optimization exampleComponent
          (sample_pixels_for_ransac exampleComponent ⟨[false, false, false], [], exampleEngine⟩
            2).sampledPixelIdx
          [(hypothesize_pose exampleLibrary exampleComponent emptyCandidate exampleEngine).2.1],
        ∀ inlier ∈ c.inliers, ValidPixel exampleComponent inlier.linearIdx) :=
  have h := inliers_reference_valid_pixels exampleLibrary exampleComponent
  have h1 := h.1 emptyCandidate exampleEngine (by decide!)
  ⟨h1, h.2 [false, false, false] exampleEngine 2 _ (fun c hc inlier hin =>
    h1 inlier ((List.mem_singleton.mp hc) ▸ hin))⟩

/-! ## Properties of the elimination loop of estimate_pose -/

theorem compute_energies_length (L : Library) (self : SLAMComponentWithScoreForest) :
    ∀ (cs cs1 : List PoseCandidate), compute_energies L self cs = .ok cs1 →
      cs1.length = cs.length := by
  intro cs
  induction cs with
  | nil => intro cs1 h; simp [compute_energies] at h; simp [← h]
  | cons c rest ih =>
    intro cs1 h
    simp only [compute_energies] at h
    split at h
    · exact absurd h (by simp)
    · split at h
      · exact absurd h (by simp)
      · rename_i rest1 hrest
        injection h with h
        subst h
        simp [ih rest1 hrest]

theorem compute_and_sort_energies_length (L : Library) (self : SLAMComponentWithScoreForest)
    (cs cs1 : List PoseCandidate) (h : compute_and_sort_energies L self cs = .ok cs1) :
    cs1.length = cs.length := by
  simp only [compute_and_sort_energies] at h
  split at h
  · exact absurd h (by simp)
  · rename_i scored hs
    injection h with h
    subst h
    rw [List.length_insertionSort]
    exact compute_energies_length L self cs scored hs

theorem update_candidate_poses_length (L : Library) (self : SLAMComponentWithScoreForest) :
    ∀ (cs cs1 : List PoseCandidate), update_candidate_poses L self cs = .ok cs1 →
      cs1.length = cs.length := by
  intro cs
  induction cs with
  | nil => intro cs1 h; simp [update_candidate_poses] at h; simp [← h]
  | cons c rest ih =>
    intro cs1 h
    simp only [update_candidate_poses] at h
    split at h
    · exact absurd h (by simp)
    · split at h
      · exact absurd h (by simp)
      · rename_i rest1 hrest
        injection h with h
        subst h
        simp [ih rest1 hrest]

theorem ransac_score_round_length (L : Library) (self : SLAMComponentWithScoreForest)
    (st st1 : RansacState) (h : ransac_score_round L self st = .ok st1) :
    st1.candidates.length = st.candidates.length := by
  simp only [ransac_score_round] at h
  split at h
  · exact absurd h (by simp)
  · rename_i cs2 h2
    split at h
    · exact absurd h (by simp)
    · rename_i cs3 h3
      injection h with h
      subst h
      have e3 := compute_and_sort_energies_length L self _ _ h3
      have e2 : cs2.length = st.candidates.length := by
        split_ifs at h2
        · rw [update_candidate_poses_length L self _ _ h2]
          simp [update_inliers_for_optimization]
        · injection h2 with h2
          subst h2
          simp [update_inliers_for_optimization]
      simp [e3, e2]

theorem ransac_round_length (L : Library) (self : SLAMComponentWithScoreForest)
    (st st1 : RansacState) (h : ransac_round L self st = .ok st1) :
    st1.candidates.length = st.candidates.length / 2 := by
  simp only [ransac_round] at h
  split at h
  · exact absurd h (by simp)
  · rename_i scored hs
    injection h with h
    subst h
    have := ransac_score_round_length L self st scored hs
    simp only [erase_worse_half, List.length_take]
    omega

theorem ransac_loop_ends_with_one (L : Library) (self : SLAMComponentWithScoreForest) :
    ∀ (left : Nat) (st st1 : RansacState), st.candidates.length ≤ left →
      ransac_loop L self left st = .ok st1 →
      st1.candidates.length ≤ 1 ∧ (st.candidates ≠ [] → st1.candidates.length = 1) := by
  intro left
  induction left with
  | zero =>
    intro st st1 hle h
    simp only [ransac_loop] at h
    injection h with h
    subst h
    have h0 : st.candidates = [] := List.length_eq_zero.mp (Nat.le_zero.mp hle)
    simp [h0]
  | succ n ih =>
    intro st st1 hle h
    simp only [ransac_loop] at h
    split_ifs at h with hgt
    · split at h
      · exact absurd h (by simp)
      · rename_i st2 h2
        have hl := ransac_round_length L self st st2 h2
        have := ih st2 st1 (by omega) h
        refine ⟨this.1, fun _ => this.2 ?_⟩
        intro hnil
        rw [hnil] at hl
        simp at hl
        omega
    · injection h with h
      subst h
      refine ⟨by omega, fun hne => ?_⟩
      have : st.candidates.length ≠ 0 := fun h0 => hne (List.length_eq_zero.mp h0)
      omega

theorem first_trim_nil_iff (L : Library) (self : SLAMComponentWithScoreForest)
    (candidates : List PoseCandidate) (eng : mt19937)
    (trimmed : List PoseCandidate × mt19937)
    (hT : 0 < self.m_trimKinitAfterFirstEnergyComputation)
    (h : first_trim L self candidates eng = .ok trimmed) :
    trimmed.1 = [] ↔ candidates = [] := by
  simp only [first_trim] at h
  by_cases hlt : self.m_trimKinitAfterFirstEnergyComputation < candidates.length
  · simp only [hlt, if_true] at h
    have hne : candidates ≠ [] := by
      intro h0
      rw [h0] at hlt
      simp at hlt
    have hlen : trimmed.1.length = self.m_trimKinitAfterFirstEnergyComputation := by
      split at h
      · exact absurd h (by simp)
      · rename_i cs2 h2
        have hl := compute_and_sort_energies_length L self _ _ h2
        simp only [update_inliers_for_optimization, List.length_map] at hl
        split_ifs at h <;>
          (injection h with h
           subst h
           simp only [List.length_map, List.length_take]
           omega)
    constructor
    · intro h0
      rw [h0] at hlen
      simp at hlen
      omega
    · intro h0
      exact absurd h0 hne
  · simp only [hlt, if_false] at h
    injection h with h
    subst h
    rfl

/-- C4: when `estimate_pose` raises no error (and the trim threshold is not zero, as with the
constructor's 64), it returns no candidate if and only if the pool of generated candidates is
empty; for a non-empty pool the elimination loop ends with exactly one candidate, which is the
one returned; and an iteration of the loop, which runs on more than one candidate, never
leaves the pool empty. -/
theorem estimate_pose_none_iff_empty_pool (L : Library) (self : SLAMComponentWithScoreForest)
    (threadOf : Nat → Nat) (candidate0 : PoseCandidate) (engs : Nat → mt19937)
    (random_engine : mt19937) (r : Option PoseCandidate)
    (hT : 0 < self.m_trimKinitAfterFirstEnergyComputation)
    (hok : estimate_pose L self threadOf candidate0 engs random_engine = .ok r) :
    (r = none ↔ generate_pose_candidates L self threadOf candidate0 engs [] = [])
    ∧ (generate_pose_candidates L self threadOf candidate0 engs [] ≠ [] →
        ∃ (trimmed : List PoseCandidate × mt19937) (st : RansacState) (c : PoseCandidate),
          first_trim L self (generate_pose_candidates L self threadOf candidate0 engs [])
              random_engine = .ok trimmed
          ∧ ransac_loop L self trimmed.1.length
              ⟨trimmed.1, List.replicate self.m_featureImage.dataSize false, trimmed.2, 0⟩
              = .ok st
          ∧ st.candidates = [c] ∧ r = some c)
    ∧ (∀ st st1 : RansacState, 1 < st.candidates.length → ransac_round L self st = .ok st1 →
        st1.candidates ≠ []) := by
  have hround : ∀ st st1 : RansacState, 1 < st.candidates.length →
      ransac_round L self st = .ok st1 → st1.candidates ≠ [] := by
    intro st st1 hgt h hnil
    have hl := ransac_round_length L self st st1 h
    rw [hnil] at hl
    simp at hl
    omega
  simp only [estimate_pose, estimate_pose_from] at hok
  split at hok
  · exact absurd hok (by simp)
  · rename_i trimmed htrim
    split at hok
    · exact absurd hok (by simp)
    · rename_i st hloop
      injection hok with hok
      have hiff := first_trim_nil_iff L self _ _ trimmed hT htrim
      have hend := ransac_loop_ends_with_one L self trimmed.1.length
        ⟨trimmed.1, List.replicate self.m_featureImage.dataSize false, trimmed.2, 0⟩ st
        (le_refl _) hloop
      simp only at hend
      refine ⟨?_, ?_, hround⟩
      · rw [← hiff, ← hok]
        constructor
        · intro hnone
          by_contra hne
          have h1 := hend.2 hne
          match hc : st.candidates, h1 with
          | [c], _ => rw [hc] at hnone; simp at hnone
        · intro hnil
          have : st.candidates.length = 0 := by
            have h0 : trimmed.1.length = 0 := by rw [hnil]; rfl
            rw [h0] at hloop
            simp only [ransac_loop] at hloop
            injection hloop with hloop
            rw [← hloop]
            simpa using h0
          rw [List.length_eq_zero.mp this]
          rfl
      · intro hne
        have hne1 : trimmed.1 ≠ [] := fun h0 => hne (hiff.mp h0)
        have h1 := hend.2 hne1
        match hc : st.candidates, h1 with
        | [c], _ =>
          refine ⟨trimmed, st, c, htrim, hloop, hc, ?_⟩
          rw [← hok, hc]
          rfl

/-- Witness of C4 on `smallComponent`: four candidates are generated, two are left by the trim
and one by the single iteration of the loop. -/
theorem estimate_pose_none_iff_empty_pool_witness :
    (some smallComponentResult = none ↔
      generate_pose_candidates exampleLibrary smallComponent exampleThreadOf emptyCandidate
        (fun _ => exampleEngine) [] = [])
    ∧ generate_pose_candidates exampleLibrary smallComponent exampleThreadOf emptyCandidate
        (fun _ => exampleEngine) [] ≠ [] :=
  ⟨(estimate_pose_none_iff_empty_pool exampleLibrary smallComponent exampleThreadOf
      emptyCandidate (fun _ => exampleEngine) exampleSamplingEngine (some smallComponentResult)
      (by decide) (by decide!)).1, by decide!⟩

/-! ## Properties of compute_pose_energy and compute_and_sort_energies -/

theorem compute_pose_energy_loop_ok (L : Library) (self : SLAMComponentWithScoreForest)
    (pose : Matrix4f) :
    ∀ (inliers : List Inlier) (total t : ℚ) (inliers1 : List Inlier),
      compute_pose_energy_loop L self pose inliers total = .ok (t, inliers1) →
      t = total + (inliers.map (scoredEnergyOf L self pose)).sum
        ∧ inliers1 = inliers.map (rescored L self pose) := by
  intro inliers
  induction inliers with
  | nil =>
    intro total t inliers1 h
    simp only [compute_pose_energy_loop] at h
    injection h with h
    injection h with h1 h2
    simp [← h1, ← h2]
  | cons i rest ih =>
    intro total t inliers1 h
    simp only [compute_pose_energy_loop] at h
    split_ifs at h with h1 h2
    split at h
    · exact absurd h (by simp)
    · rename_i t1 rest1 hrest
      injection h with h
      injection h with ht hl
      obtain ⟨e1, e2⟩ := ih _ _ _ hrest
      subst ht hl
      refine ⟨?_, ?_⟩
      · rw [e1]
        simp only [List.map_cons, List.sum_cons, scoredEnergyOf]
        ring
      · rw [e2]
        simp [rescored, scoredEnergyOf]

/-- What `compute_pose_energy` returns when it does not raise: the mean of the energies of the
inliers, and the inliers rewritten with their energy and best mode. -/
theorem compute_pose_energy_ok (L : Library) (self : SLAMComponentWithScoreForest)
    (pose : Matrix4f) (inliers inliers1 : List Inlier) (energy : ℚ)
    (h : compute_pose_energy L self pose inliers = .ok (energy, inliers1)) :
    energy = (inliers.map (scoredEnergyOf L self pose)).sum / (inliers.length : ℚ)
      ∧ inliers1 = inliers.map (rescored L self pose) := by
  simp only [compute_pose_energy] at h
  split at h
  · exact absurd h (by simp)
  · rename_i t l1 hl
    injection h with h
    injection h with h1 h2
    obtain ⟨e1, e2⟩ := compute_pose_energy_loop_ok L self pose _ _ _ _ hl
    subst h1 h2
    exact ⟨by rw [e1, zero_add], e2⟩

/-- Every candidate scored by `compute_energies` is one of the given candidates with the
energy and the inliers that `compute_pose_energy` returned for it. -/
theorem compute_energies_mem (L : Library) (self : SLAMComponentWithScoreForest) :
    ∀ (cs cs1 : List PoseCandidate), compute_energies L self cs = .ok cs1 →
      ∀ c ∈ cs1, ∃ c0 ∈ cs, c.cameraPose = c0.cameraPose ∧ c.cameraId = c0.cameraId
        ∧ compute_pose_energy L self c0.cameraPose c0.inliers = .ok (c.energy, c.inliers) := by
  intro cs
  induction cs with
  | nil =>
    intro cs1 h c hc
    simp only [compute_energies] at h
    injection h with h
    subst h
    simp at hc
  | cons c0 rest ih =>
    intro cs1 h c hc
    simp only [compute_energies] at h
    split at h
    · exact absurd h (by simp)
    · rename_i energy inliers1 he
      split at h
      · exact absurd h (by simp)
      · rename_i rest1 hrest
        injection h with h
        subst h
        rcases List.mem_cons.mp hc with rfl | hmem
        · exact ⟨c0, List.mem_cons_self _ _, rfl, rfl, he⟩
        · obtain ⟨c1, hc1, hp⟩ := ih rest1 hrest c hmem
          exact ⟨c1, List.mem_cons_of_mem _ hc1, hp⟩

theorem compute_and_sort_energies_sorted (L : Library) (self : SLAMComponentWithScoreForest)
    (cs cs1 : List PoseCandidate) (h : compute_and_sort_energies L self cs = .ok cs1) :
    cs1.Sorted energyLE
      ∧ ∀ c ∈ cs1, ∃ c0 ∈ cs, c.cameraPose = c0.cameraPose ∧ c.cameraId = c0.cameraId
        ∧ compute_pose_energy L self c0.cameraPose c0.inliers = .ok (c.energy, c.inliers) := by
  simp only [compute_and_sort_energies] at h
  split at h
  · exact absurd h (by simp)
  · rename_i scored hs
    injection h with h
    subst h
    refine ⟨List.sorted_insertionSort energyLE scored, ?_⟩
    intro c hc
    exact compute_energies_mem L self cs scored hs c
      ((List.perm_insertionSort energyLE scored).mem_iff.mp hc)

/-- In a list sorted by energy, an entry of a prefix has at most the energy of an entry of the
rest. -/
theorem sorted_take_le_drop (l : List PoseCandidate) (k : Nat) (h : l.Sorted energyLE) :
    ∀ a ∈ l.take k, ∀ b ∈ l.drop k, a.energy ≤ b.energy := by
  have h2 : (l.take k ++ l.drop k).Pairwise energyLE := by
    rw [List.take_append_drop]
    exact h
  exact (List.pairwise_append.mp h2).2.2

theorem sorted_strict_min_mem_take (l : List PoseCandidate) (k : Nat) (hk : 1 ≤ k)
    (h : l.Sorted energyLE) (c : PoseCandidate) (hc : c ∈ l)
    (hmin : ∀ d ∈ l, d ≠ c → c.energy < d.energy) : c ∈ l.take k := by
  match l, h, hc, hmin with
  | a :: rest, h, hc, hmin =>
    have ha : a = c := by
      by_contra hne
      have h1 := hmin a (List.mem_cons_self _ _) hne
      rcases List.mem_cons.mp hc with rfl | hmem
      · exact hne rfl
      · have h2 : a.energy ≤ c.energy := (List.pairwise_cons.mp h).1 c hmem
        exact absurd h1 (not_lt.mpr h2)
    subst ha
    obtain ⟨k1, rfl⟩ : ∃ k1, k = k1 + 1 := ⟨k - 1, by omega⟩
    simp [List.take_succ_cons]

/-- The scored state of an iteration, spelled out. -/
theorem ransac_score_round_sorted (L : Library) (self : SLAMComponentWithScoreForest)
    (st scored : RansacState) (h : ransac_score_round L self st = .ok scored) :
    scored.candidates.Sorted energyLE
      ∧ ∀ c ∈ scored.candidates, ∃ inliers0 : List Inlier,
          compute_pose_energy L self c.cameraPose inliers0 = .ok (c.energy, c.inliers) := by
  simp only [ransac_score_round] at h
  split at h
  · exact absurd h (by simp)
  · rename_i cs2 h2
    split at h
    · exact absurd h (by simp)
    · rename_i cs3 h3
      injection h with h
      subst h
      obtain ⟨hs, hm⟩ := compute_and_sort_energies_sorted L self _ _ h3
      refine ⟨hs, ?_⟩
      intro c hc
      obtain ⟨c0, _, hp, _, he⟩ := hm c hc
      exact ⟨c0.inliers, by rw [hp]; exact he⟩

/-- The scoring loop of `compute_and_sort_energies` scores the candidates one by one, in
place. -/
theorem compute_energies_pointwise (L : Library) (self : SLAMComponentWithScoreForest) :
    ∀ (cs cs1 : List PoseCandidate), compute_energies L self cs = .ok cs1 →
      List.Forall₂ (ScoredAs L self) cs cs1 := by
  intro cs
  induction cs with
  | nil =>
    intro cs1 h
    simp only [compute_energies] at h
    injection h with h
    subst h
    exact List.Forall₂.nil
  | cons c0 rest ih =>
    intro cs1 h
    simp only [compute_energies] at h
    split at h
    · exact absurd h (by simp)
    · rename_i energy inliers1 he
      split at h
      · exact absurd h (by simp)
      · rename_i rest1 hrest
        injection h with h
        subst h
        exact List.Forall₂.cons ⟨rfl, rfl, he⟩ (ih rest1 hrest)

/-- The list `compute_and_sort_energies` returns is a rearrangement of the scored pool: every
given candidate is in it once, with the pose and id it had and the energy and inliers that
`compute_pose_energy` returned for it. -/
theorem compute_and_sort_energies_perm (L : Library) (self : SLAMComponentWithScoreForest)
    (cs cs1 : List PoseCandidate) (h : compute_and_sort_energies L self cs = .ok cs1) :
    ∃ pool : List PoseCandidate,
      List.Forall₂ (ScoredAs L self) cs pool ∧ cs1.Perm pool := by
  simp only [compute_and_sort_energies] at h
  split at h
  · exact absurd h (by simp)
  · rename_i scored hs
    injection h with h
    subst h
    exact ⟨scored, compute_energies_pointwise L self cs scored hs,
      List.perm_insertionSort energyLE scored⟩

/-- The function `update_candidate_poses` updates the candidates one by one, in place. -/
theorem update_candidate_poses_pointwise (L : Library) (self : SLAMComponentWithScoreForest) :
    ∀ (cs cs1 : List PoseCandidate), update_candidate_poses L self cs = .ok cs1 →
      List.Forall₂ (fun c0 c1 => ∃ flag : Bool, update_candidate_pose L self c0 = .ok (flag, c1))
        cs cs1 := by
  intro cs
  induction cs with
  | nil =>
    intro cs1 h
    simp only [update_candidate_poses] at h
    injection h with h
    subst h
    exact List.Forall₂.nil
  | cons c0 rest ih =>
    intro cs1 h
    simp only [update_candidate_poses] at h
    split at h
    · exact absurd h (by simp)
    · rename_i r hr
      split at h
      · exact absurd h (by simp)
      · rename_i rest1 hrest
        injection h with h
        subst h
        exact List.Forall₂.cons ⟨r.1, hr⟩ (ih rest1 hrest)

/-- The scored list of an iteration of the elimination loop is a rearrangement of the pool the
iteration started with, every candidate extended by the batch, updated when `m_poseUpdate` is
set, and scored. -/
theorem ransac_score_round_pool (L : Library) (self : SLAMComponentWithScoreForest)
    (st scored : RansacState) (h : ransac_score_round L self st = .ok scored) :
    ∃ extended pool : List PoseCandidate,
      List.Forall₂ (ExtendedAs L self (nextBatch self st)) st.candidates extended
      ∧ List.Forall₂ (ScoredAs L self) extended pool
      ∧ scored.candidates.Perm pool := by
  simp only [ransac_score_round] at h
  split at h
  · exact absurd h (by simp)
  · rename_i cs2 h2
    split at h
    · exact absurd h (by simp)
    · rename_i cs3 h3
      injection h with h
      subst h
      obtain ⟨pool, hp1, hp2⟩ := compute_and_sort_energies_perm L self _ _ h3
      refine ⟨cs2, pool, ?_, hp1, hp2⟩
      by_cases hu : self.m_poseUpdate = true
      · rw [if_pos hu] at h2
        have hf := update_candidate_poses_pointwise L self _ _ h2
        simp only [update_inliers_for_optimization, List.forall₂_map_left_iff] at hf
        refine hf.imp ?_
        intro c0 c1 hc
        simp only [ExtendedAs, if_pos hu]
        exact hc
      · rw [if_neg hu] at h2
        injection h2 with h2
        subst h2
        simp only [update_inliers_for_optimization, List.forall₂_map_right_iff]
        refine List.forall₂_same.mpr ?_
        intro c0 _
        simp only [ExtendedAs, if_neg hu]
        rfl

/-- C5: in an iteration of the elimination loop over n >= 2 candidates that raises no error,
the scored list is a rearrangement of the pool: every candidate the iteration started with is
in it once, extended by the batch, updated when `m_poseUpdate` is set, and with the energy
`compute_pose_energy` returned for it in this iteration. Exactly floor(n/2) of the scored
candidates survive the erasure, and the survivors together with the erased candidates are
that pool; every survivor's energy is at most the energy of every erased candidate; and a
candidate of the pool whose energy is strictly below the energy of all others survives. -/
theorem elimination_round_keeps_lower_half (L : Library) (self : SLAMComponentWithScoreForest)
    (st scored : RansacState) (hn : 2 ≤ st.candidates.length)
    (h : ransac_score_round L self st = .ok scored) :
    ransac_round L self st
        = .ok { scored with candidates := erase_worse_half scored.candidates }
    ∧ scored.candidates.length = st.candidates.length
    ∧ (erase_worse_half scored.candidates).length = st.candidates.length / 2
    ∧ (∀ c ∈ scored.candidates, ∃ inliers0 : List Inlier,
        compute_pose_energy L self c.cameraPose inliers0 = .ok (c.energy, c.inliers))
    ∧ (∀ a ∈ erase_worse_half scored.candidates,
        ∀ b ∈ scored.candidates.drop (scored.candidates.length / 2), a.energy ≤ b.energy)
    ∧ (∀ c ∈ scored.candidates, (∀ d ∈ scored.candidates, d ≠ c → c.energy < d.energy) →
        c ∈ erase_worse_half scored.candidates)
    ∧ (∃ extended pool : List PoseCandidate,
        List.Forall₂ (ExtendedAs L self (nextBatch self st)) st.candidates extended
        ∧ List.Forall₂ (ScoredAs L self) extended pool
        ∧ scored.candidates.Perm pool
        ∧ (erase_worse_half scored.candidates
            ++ scored.candidates.drop (scored.candidates.length / 2)).Perm pool
        ∧ ∀ c ∈ pool, (∀ d ∈ pool, d ≠ c → c.energy < d.energy) →
            c ∈ erase_worse_half scored.candidates) := by
  have hlen := ransac_score_round_length L self st scored h
  obtain ⟨hs, hm⟩ := ransac_score_round_sorted L self st scored h
  obtain ⟨extended, pool, hp1, hp2, hp3⟩ := ransac_score_round_pool L self st scored h
  have hmin : ∀ c ∈ scored.candidates,
      (∀ d ∈ scored.candidates, d ≠ c → c.energy < d.energy) →
      c ∈ erase_worse_half scored.candidates := by
    intro c hc hmin
    exact sorted_strict_min_mem_take _ _ (by omega) hs c hc hmin
  refine ⟨by simp [ransac_round, h], hlen, ?_, hm, ?_, hmin, extended, pool, hp1, hp2, hp3,
    ?_, ?_⟩
  · simp only [erase_worse_half, List.length_take]
    omega
  · exact sorted_take_le_drop _ _ hs
  · simp only [erase_worse_half, List.take_append_drop]
    exact hp3
  · intro c hc hlow
    exact hmin c (hp3.mem_iff.mpr hc) (fun d hd hne => hlow d (hp3.mem_iff.mp hd) hne)

/-- A computation whose mapped result is a value did not raise. -/
theorem map_eq_ok {α β : Type} {x : Except String α} {f : α → β} {b : β}
    (h : x.map f = .ok b) : ∃ a, x = .ok a ∧ f a = b := by
  match x, h with
  | .ok a, h =>
    simp only [Except.map] at h
    injection h with h
    exact ⟨a, rfl, h⟩

/-- Witness of C5 on the mixed scene: of three candidates with a shifted pose (energy 1) and
one with the true pose (energy 0), the latter is sorted first and survives. -/
theorem elimination_round_keeps_lower_half_witness :
    ∃ scored : RansacState,
      ransac_score_round exampleLibrary mixedComponent oneGoodOfFour = .ok scored
      ∧ scored.candidates.map (fun c => (c.cameraId, c.energy)) = [(2, 0), (0, 1), (1, 1), (3, 1)]
      ∧ (erase_worse_half scored.candidates).length = oneGoodOfFour.candidates.length / 2
      ∧ (∀ a ∈ erase_worse_half scored.candidates,
          ∀ b ∈ scored.candidates.drop (scored.candidates.length / 2), a.energy ≤ b.energy) :=
  have hmap : (ransac_score_round exampleLibrary mixedComponent oneGoodOfFour).map
      (fun s => s.candidates.map (fun c => (c.cameraId, c.energy)))
      = .ok [(2, 0), (0, 1), (1, 1), (3, 1)] := by decide!
  have ⟨scored, hs, hm⟩ := map_eq_ok hmap
  have h := elimination_round_keeps_lower_half exampleLibrary mixedComponent oneGoodOfFour scored
    (by decide) hs
  ⟨scored, hs, hm, h.2.2.1, h.2.2.2.2.1⟩

/-! ## The energy of a candidate from one iteration to the next -/

theorem sum_scoredEnergyOf_rescored (L : Library) (self : SLAMComponentWithScoreForest)
    (pose : Matrix4f) (inliers : List Inlier) :
    ((inliers.map (rescored L self pose)).map (scoredEnergyOf L self pose)).sum
      = (inliers.map (scoredEnergyOf L self pose)).sum := by
  rw [List.map_map]
  rfl

/-- A scored candidate's energy is the mean of the energies of its inliers: the number of
inliers times the energy is their sum. -/
theorem scored_energy_is_mean (L : Library) (self : SLAMComponentWithScoreForest)
    (st scored : RansacState) (h : ransac_score_round L self st = .ok scored) :
    ∀ c ∈ scored.candidates,
      (c.inliers.length : ℚ) * c.energy
        = (c.inliers.map (scoredEnergyOf L self c.cameraPose)).sum := by
  intro c hc
  obtain ⟨inliers0, h0⟩ := (ransac_score_round_sorted L self st scored h).2 c hc
  obtain ⟨he, hi⟩ := compute_pose_energy_ok L self _ _ _ _ h0
  rw [hi, sum_scoredEnergyOf_rescored, he, List.length_map]
  by_cases hz : inliers0 = []
  · simp [hz]
  · have : (inliers0.length : ℚ) ≠ 0 := by
      simpa using hz
    field_simp

/-- Without pose update, a candidate scored in an iteration is a candidate of the state the
iteration started in, with the same pose, scored on its inliers followed by the batch. -/
theorem ransac_score_round_mem (L : Library) (self : SLAMComponentWithScoreForest)
    (st scored : RansacState) (hupd : self.m_poseUpdate = false)
    (h : ransac_score_round L self st = .ok scored) :
    ∀ c ∈ scored.candidates, ∃ c0 ∈ st.candidates,
      c.cameraPose = c0.cameraPose ∧ c.cameraId = c0.cameraId
      ∧ compute_pose_energy L self c0.cameraPose (c0.inliers ++ nextBatch self st)
          = .ok (c.energy, c.inliers) := by
  simp only [ransac_score_round, hupd] at h
  split at h
  · exact absurd h (by simp)
  · rename_i cs2 h2
    split at h
    · exact absurd h (by simp)
    · rename_i cs3 h3
      injection h with h
      subst h
      simp only [Bool.false_eq_true, if_false] at h2
      injection h2 with h2
      subst h2
      intro c hc
      obtain ⟨c0, hc0, hp, hid, he⟩ := (compute_and_sort_energies_sorted L self _ _ h3).2 c hc
      simp only [update_inliers_for_optimization, List.mem_map] at hc0
      obtain ⟨c1, hc1, rfl⟩ := hc0
      exact ⟨c1, hc1, hp, hid, he⟩

/-- C6 as amended: without pose update, a candidate scored in iteration k+1 is a survivor of
iteration k with the same pose, and its new energy is the mean over its inliers of iteration k
and the inliers appended in iteration k+1. So the new energy is at most the old one if and
only if the mean energy of the appended inliers is at most the old energy. -/
theorem next_round_energy_is_mean (L : Library) (self : SLAMComponentWithScoreForest)
    (st scored1 scored2 : RansacState) (hupd : self.m_poseUpdate = false)
    (h1 : ransac_score_round L self st = .ok scored1)
    (h2 : ransac_score_round L self
        { scored1 with candidates := erase_worse_half scored1.candidates } = .ok scored2) :
    ∀ c2 ∈ scored2.candidates, ∃ c1 ∈ erase_worse_half scored1.candidates,
      c2.cameraId = c1.cameraId ∧ c2.cameraPose = c1.cameraPose
      ∧ c2.energy
          = ((c1.inliers.length : ℚ) * c1.energy
              + ((nextBatch self scored1).map (scoredEnergyOf L self c1.cameraPose)).sum)
            / ((c1.inliers.length : ℚ) + ((nextBatch self scored1).length : ℚ))
      ∧ (0 < c1.inliers.length + (nextBatch self scored1).length →
          (c2.energy ≤ c1.energy ↔
            ((nextBatch self scored1).map (scoredEnergyOf L self c1.cameraPose)).sum
              ≤ ((nextBatch self scored1).length : ℚ) * c1.energy)) := by
  intro c2 hc2
  obtain ⟨c1, hc1, hp, hid, he⟩ := ransac_score_round_mem L self _ scored2 hupd h2 c2 hc2
  have hbatch : nextBatch self { scored1 with candidates := erase_worse_half scored1.candidates }
      = nextBatch self scored1 := rfl
  rw [hbatch] at he
  simp only at hc1
  have hmem : c1 ∈ scored1.candidates := List.mem_of_mem_take hc1
  have hmean := scored_energy_is_mean L self st scored1 h1 c1 hmem
  obtain ⟨hE, _⟩ := compute_pose_energy_ok L self _ _ _ _ he
  have hE2 : c2.energy
      = ((c1.inliers.length : ℚ) * c1.energy
          + ((nextBatch self scored1).map (scoredEnergyOf L self c1.cameraPose)).sum)
        / ((c1.inliers.length : ℚ) + ((nextBatch self scored1).length : ℚ)) := by
    rw [hE, List.map_append, List.sum_append, List.length_append, hmean]
    push_cast
    rfl
  refine ⟨c1, hc1, hid, hp, hE2, ?_⟩
  intro hpos
  have hpos2 : (0 : ℚ) < (c1.inliers.length : ℚ) + ((nextBatch self scored1).length : ℚ) := by
    exact_mod_cast hpos
  rw [hE2, div_le_iff₀ hpos2]
  constructor <;> intro h <;> nlinarith

/-- The result of a computation followed by another, when the first one returned `a`. -/
theorem bind_ok {α β : Type} {x : Except String α} {f : α → Except String β} {a : α}
    (h : x = .ok a) : x.bind f = f a := by
  rw [h]
  rfl

/-- A list whose image under `f` starts with `b` has a first entry, whose image is `b`. -/
theorem map_eq_cons {α β : Type} {f : α → β} {l : List α} {b : β} {bs : List β}
    (h : l.map f = b :: bs) : ∃ a, a ∈ l ∧ f a = b := by
  match l, h with
  | a :: rest, h =>
    simp only [List.map_cons, List.cons.injEq] at h
    exact ⟨a, List.mem_cons_self _ _, h.1⟩

/-- Witness of the amended C6 on the mixed scene: two iterations from four candidates with the
true pose. -/
theorem next_round_energy_is_mean_witness :
    ∃ scored1 scored2 : RansacState,
      ransac_score_round exampleLibrary mixedComponent fourGood = .ok scored1
      ∧ ransac_score_round exampleLibrary mixedComponent
          { scored1 with candidates := erase_worse_half scored1.candidates } = .ok scored2
      ∧ ∀ c2 ∈ scored2.candidates, ∃ c1 ∈ erase_worse_half scored1.candidates,
          c2.cameraId = c1.cameraId ∧ c2.cameraPose = c1.cameraPose
          ∧ c2.energy
              = ((c1.inliers.length : ℚ) * c1.energy
                  + ((nextBatch mixedComponent scored1).map
                      (scoredEnergyOf exampleLibrary mixedComponent c1.cameraPose)).sum)
                / ((c1.inliers.length : ℚ) + ((nextBatch mixedComponent scored1).length : ℚ))
          ∧ (0 < c1.inliers.length + (nextBatch mixedComponent scored1).length →
              (c2.energy ≤ c1.energy ↔
                ((nextBatch mixedComponent scored1).map
                    (scoredEnergyOf exampleLibrary mixedComponent c1.cameraPose)).sum
                  ≤ ((nextBatch mixedComponent scored1).length : ℚ) * c1.energy)) :=
  have hm1 : (ransac_score_round exampleLibrary mixedComponent fourGood).map
      (fun s => s.candidates.length) = .ok 4 := by decide!
  have ⟨scored1, hs1, _⟩ := map_eq_ok hm1
  have hm2 : ((ransac_score_round exampleLibrary mixedComponent fourGood).bind
      (fun s => ransac_score_round exampleLibrary mixedComponent
        { s with candidates := erase_worse_half s.candidates })).map
      (fun s => s.candidates.length) = .ok 2 := by decide!
  have ⟨scored2, hs2, _⟩ := map_eq_ok hm2
  have hs2a : ransac_score_round exampleLibrary mixedComponent
      { scored1 with candidates := erase_worse_half scored1.candidates } = .ok scored2 :=
    (bind_ok hs1).symm.trans hs2
  ⟨scored1, scored2, hs1, hs2a,
    next_round_energy_is_mean exampleLibrary mixedComponent fourGood scored1 scored2 rfl hs1 hs2a⟩

/-- C6 fails as stated. On the mixed scene, without pose update, the candidate with camera id
0 survives two consecutive iterations with an unchanged pose; its energy is 0 in the first and
1/5 in the second, where the pixel with ten modes joins its inliers. -/
theorem selector_energy_can_increase :
    mixedComponent.m_poseUpdate = false
    ∧ ∃ (st1 st2 : RansacState) (c1 c2 : PoseCandidate),
        ransac_round exampleLibrary mixedComponent fourGood = .ok st1
        ∧ ransac_round exampleLibrary mixedComponent st1 = .ok st2
        ∧ c1 ∈ st1.candidates ∧ c2 ∈ st2.candidates
        ∧ c1.cameraId = 0 ∧ c2.cameraId = 0 ∧ c2.cameraPose = c1.cameraPose
        ∧ c1.energy = 0 ∧ c2.energy = 1 / 5 ∧ ¬ c2.energy ≤ c1.energy := by
  refine ⟨rfl, ?_⟩
  have hm1 : (ransac_round exampleLibrary mixedComponent fourGood).map
      (fun s => s.candidates.map (fun c => (c.cameraId, c.cameraPose, c.energy)))
      = .ok [(0, Matrix4f.identity, 0), (1, Matrix4f.identity, 0)] := by decide!
  obtain ⟨st1, hs1, hl1⟩ := map_eq_ok hm1
  have hm2 : ((ransac_round exampleLibrary mixedComponent fourGood).bind
      (ransac_round exampleLibrary mixedComponent)).map
      (fun s => s.candidates.map (fun c => (c.cameraId, c.cameraPose, c.energy)))
      = .ok [(0, Matrix4f.identity, 1 / 5)] := by decide!
  obtain ⟨st2, hs2, hl2⟩ := map_eq_ok hm2
  rw [bind_ok hs1] at hs2
  obtain ⟨x, hc1, hx⟩ := map_eq_cons hl1
  obtain ⟨z, hc2, hz⟩ := map_eq_cons hl2
  simp only [Prod.mk.injEq] at hx hz
  obtain ⟨hx1, hx2, hx3⟩ := hx
  obtain ⟨hz1, hz2, hz3⟩ := hz
  refine ⟨st1, st2, x, z, hs1, hs2, hc1, hc2, hx1, hz1, ?_, hx3, hz3, ?_⟩
  · rw [hz2, hx2]
  · rw [hz3, hx3]
    norm_num

/-! ## When compute_pose_energy raises -/

theorem compute_pose_energy_loop_error_iff (L : Library) (self : SLAMComponentWithScoreForest)
    (pose : Matrix4f) :
    ∀ (inliers : List Inlier) (total : ℚ),
      (∃ e, compute_pose_energy_loop L self pose inliers total = .error e)
        ↔ ∃ i ∈ inliers, RaisesOn L self pose i := by
  intro inliers
  induction inliers with
  | nil => intro total; simp [compute_pose_energy_loop]
  | cons i rest ih =>
    intro total
    simp only [compute_pose_energy_loop, List.mem_cons, exists_eq_or_imp]
    by_cases h1 : (bestModeOfInlier L self pose i).1 < 0
    · simp [h1, RaisesOn]
    · by_cases h2 : ((self.m_predictionsImage.data i.linearIdx).modes
          (bestModeOfInlier L self pose i).1.toNat).nbInliers = 0
      · simp [h1, h2, RaisesOn]
      · have hi : ¬ RaisesOn L self pose i := by
          simp only [RaisesOn, not_or]
          exact ⟨h1, h2⟩
        simp only [h1, h2, if_false, hi, false_or]
        rw [← ih (total + inlierEnergy L (self.m_predictionsImage.data i.linearIdx)
          (bestModeOfInlier L self pose i).1 (bestModeOfInlier L self pose i).2)]
        split <;> simp_all

/-- C7: `compute_pose_energy` raises an error if and only if some inlier of the list has no
best mode at its projected point (`argmax < 0`) or has a best mode with `nbInliers == 0`; in
every other case it returns an energy (with the rewritten inliers). -/
theorem compute_pose_energy_raises_iff (L : Library) (self : SLAMComponentWithScoreForest)
    (candidateCameraPose : Matrix4f) (inliersIndices : List Inlier) :
    ((∃ e, compute_pose_energy L self candidateCameraPose inliersIndices = .error e)
        ↔ ∃ i ∈ inliersIndices, RaisesOn L self candidateCameraPose i)
    ∧ ((¬ ∃ i ∈ inliersIndices, RaisesOn L self candidateCameraPose i) →
        ∃ (energy : ℚ) (inliers1 : List Inlier),
          compute_pose_energy L self candidateCameraPose inliersIndices
            = .ok (energy, inliers1)) := by
  have hiff : (∃ e, compute_pose_energy L self candidateCameraPose inliersIndices = .error e)
      ↔ ∃ i ∈ inliersIndices, RaisesOn L self candidateCameraPose i := by
    rw [← compute_pose_energy_loop_error_iff L self candidateCameraPose inliersIndices 0]
    simp only [compute_pose_energy]
    split <;> simp_all
  refine ⟨hiff, fun hno => ?_⟩
  match hr : compute_pose_energy L self candidateCameraPose inliersIndices with
  | .ok (energy, inliers1) => exact ⟨energy, inliers1, rfl⟩
  | .error e => exact absurd (hiff.mp ⟨e, hr⟩) hno

/-- Witness of C7 on the mixed scene: the inliers on the pixels 0, 1, 2 are scored without
error, and a list containing the pixel without modes makes the function raise. -/
theorem compute_pose_energy_raises_iff_witness :
    (∃ (energy : ℚ) (inliers1 : List Inlier),
      compute_pose_energy exampleLibrary mixedComponent Matrix4f.identity
        [⟨0, 0, 0⟩, ⟨1, 0, 0⟩, ⟨2, 0, 0⟩] = .ok (energy, inliers1))
    ∧ ∃ e, compute_pose_energy exampleLibrary mixedComponent Matrix4f.identity
        [⟨0, 0, 0⟩, ⟨4, -1, 0⟩] = .error e :=
  have h1 := compute_pose_energy_raises_iff exampleLibrary mixedComponent Matrix4f.identity
    [⟨0, 0, 0⟩, ⟨1, 0, 0⟩, ⟨2, 0, 0⟩]
  have h2 := compute_pose_energy_raises_iff exampleLibrary mixedComponent Matrix4f.identity
    [⟨0, 0, 0⟩, ⟨4, -1, 0⟩]
  ⟨h1.2 (by decide!), h2.1.mpr ⟨⟨4, -1, 0⟩, by simp, by decide!⟩⟩

/-! ## Properties of update_candidate_pose -/

theorem collect_ptsForLM_ok (L : Library) (self : SLAMComponentWithScoreForest)
    (pose : SE3Pose) :
    ∀ inliers : List Inlier, (∀ i ∈ inliers, ¬ NoBestMode L self pose i) →
      collect_ptsForLM L self pose inliers = .ok (refinementSet L self pose inliers) := by
  intro inliers
  induction inliers with
  | nil => intro _; rfl
  | cons i rest ih =>
    intro h
    have hi : ¬ NoBestMode L self pose i := h i (List.mem_cons_self _ _)
    have hrest := ih (fun j hj => h j (List.mem_cons_of_mem _ hj))
    have hi2 : ¬ (L.get_best_mode (self.m_predictionsImage.data i.linearIdx)
        (pose.GetM.mulVec (self.m_featureImage.data i.linearIdx).position.toVector3) < 0
        ∨ L.get_best_mode (self.m_predictionsImage.data i.linearIdx)
          (pose.GetM.mulVec (self.m_featureImage.data i.linearIdx).position.toVector3)
          ≥ ((self.m_predictionsImage.data i.linearIdx).nbModes : Int)) := hi
    simp only [collect_ptsForLM, hi2, if_false, hrest]
    by_cases hy : YieldsPair L self pose i
    · have hlt := hy.2
      simp only [pairOf, bestModeIdxOf] at hlt
      simp [refinementSet, List.filter_cons, hy, hlt, pairOf, bestModeIdxOf]
    · have hlt : ¬ L.length ((pairOf L self pose i).mode.position
          - pose.GetM.mulVec (self.m_featureImage.data i.linearIdx).position.toVector3)
          < self.m_poseOptimizationInlierThreshold := fun hlt => hy ⟨hi, hlt⟩
      simp only [pairOf, bestModeIdxOf] at hlt
      simp [refinementSet, List.filter_cons, hy, hlt]

theorem collect_ptsForLM_error (L : Library) (self : SLAMComponentWithScoreForest)
    (pose : SE3Pose) :
    ∀ inliers : List Inlier, (∃ i ∈ inliers, NoBestMode L self pose i) →
      collect_ptsForLM L self pose inliers = .error "best mode idx invalid." := by
  intro inliers
  induction inliers with
  | nil => intro h; simp at h
  | cons i rest ih =>
    intro h
    by_cases hi : NoBestMode L self pose i
    · have hi2 : (L.get_best_mode (self.m_predictionsImage.data i.linearIdx)
          (pose.GetM.mulVec (self.m_featureImage.data i.linearIdx).position.toVector3) < 0
          ∨ L.get_best_mode (self.m_predictionsImage.data i.linearIdx)
            (pose.GetM.mulVec (self.m_featureImage.data i.linearIdx).position.toVector3)
            ≥ ((self.m_predictionsImage.data i.linearIdx).nbModes : Int)) := hi
      simp only [collect_ptsForLM, hi2, if_true]
    · have hi2 : ¬ (L.get_best_mode (self.m_predictionsImage.data i.linearIdx)
          (pose.GetM.mulVec (self.m_featureImage.data i.linearIdx).position.toVector3) < 0
          ∨ L.get_best_mode (self.m_predictionsImage.data i.linearIdx)
            (pose.GetM.mulVec (self.m_featureImage.data i.linearIdx).position.toVector3)
            ≥ ((self.m_predictionsImage.data i.linearIdx).nbModes : Int)) := hi
      have hrest : ∃ j ∈ rest, NoBestMode L self pose j := by
        obtain ⟨j, hj, hn⟩ := h
        rcases List.mem_cons.mp hj with rfl | hmem
        · exact absurd hn hi
        · exact ⟨j, hmem, hn⟩
      simp only [collect_ptsForLM, hi2, if_false, ih hrest]

theorem refinementSet_length_le (L : Library) (self : SLAMComponentWithScoreForest)
    (pose : SE3Pose) (inliers : List Inlier) :
    (refinementSet L self pose inliers).length ≤ inliers.length := by
  simp only [refinementSet, List.length_map]
  exact List.length_filter_le _ _

/-- C8 as amended: when fewer than 4 inliers of a candidate yield a pair for the refinement,
`update_candidate_pose` returns false and leaves the candidate as it is if every inlier has a
valid best mode, and raises "best mode idx invalid." if some inlier has none; it never returns
true. A candidate with exactly 3 inliers is such a candidate. -/
theorem update_candidate_pose_below_four (L : Library) (self : SLAMComponentWithScoreForest)
    (poseCandidate : PoseCandidate) :
    ((refinementSet L self (L.SE3PoseOfMatrix poseCandidate.cameraPose)
          poseCandidate.inliers).length < 4 →
      ((∀ i ∈ poseCandidate.inliers,
          ¬ NoBestMode L self (L.SE3PoseOfMatrix poseCandidate.cameraPose) i) →
        update_candidate_pose L self poseCandidate = .ok (false, poseCandidate))
      ∧ ((∃ i ∈ poseCandidate.inliers,
          NoBestMode L self (L.SE3PoseOfMatrix poseCandidate.cameraPose) i) →
        update_candidate_pose L self poseCandidate = .error "best mode idx invalid."))
    ∧ (poseCandidate.inliers.length = 3 →
        (refinementSet L self (L.SE3PoseOfMatrix poseCandidate.cameraPose)
          poseCandidate.inliers).length < 4
        ∧ (update_candidate_pose L self poseCandidate = .ok (false, poseCandidate)
          ∨ update_candidate_pose L self poseCandidate = .error "best mode idx invalid.")) := by
  have hmain : (refinementSet L self (L.SE3PoseOfMatrix poseCandidate.cameraPose)
        poseCandidate.inliers).length < 4 →
      ((∀ i ∈ poseCandidate.inliers,
          ¬ NoBestMode L self (L.SE3PoseOfMatrix poseCandidate.cameraPose) i) →
        update_candidate_pose L self poseCandidate = .ok (false, poseCandidate))
      ∧ ((∃ i ∈ poseCandidate.inliers,
          NoBestMode L self (L.SE3PoseOfMatrix poseCandidate.cameraPose) i) →
        update_candidate_pose L self poseCandidate = .error "best mode idx invalid.") := by
    intro hlt
    constructor
    · intro hall
      have hc := collect_ptsForLM_ok L self _ _ hall
      have hnot : ¬ (refinementSet L self (L.SE3PoseOfMatrix poseCandidate.cameraPose)
          poseCandidate.inliers).length > 3 := by omega
      simp only [update_candidate_pose, hc, hnot, if_false]
    · intro hex
      have hc := collect_ptsForLM_error L self _ _ hex
      simp only [update_candidate_pose, hc]
  refine ⟨hmain, fun h3 => ?_⟩
  have hlt : (refinementSet L self (L.SE3PoseOfMatrix poseCandidate.cameraPose)
      poseCandidate.inliers).length < 4 := by
    have := refinementSet_length_le L self (L.SE3PoseOfMatrix poseCandidate.cameraPose)
      poseCandidate.inliers
    omega
  refine ⟨hlt, ?_⟩
  by_cases hex : ∃ i ∈ poseCandidate.inliers,
      NoBestMode L self (L.SE3PoseOfMatrix poseCandidate.cameraPose) i
  · exact Or.inr ((hmain hlt).2 hex)
  · refine Or.inl ((hmain hlt).1 ?_)
    intro i hi hn
    exact hex ⟨i, hi, hn⟩

/-- Witness of the amended C8: the candidate with the inliers 0, 1, 2 on the example scene is
returned unchanged with the flag false. -/
theorem update_candidate_pose_below_four_witness :
    update_candidate_pose exampleLibrary exampleComponent (candidateOn012 Matrix4f.identity 0)
      = .ok (false, candidateOn012 Matrix4f.identity 0) :=
  ((update_candidate_pose_below_four exampleLibrary exampleComponent
      (candidateOn012 Matrix4f.identity 0)).1 (by decide!)).1 (by decide!)

/-- C8 fails as stated. The candidate has exactly 3 inliers, so fewer than 4 of them yield a
pair; its third inlier lies on a pixel whose prediction has no mode, and
`update_candidate_pose` raises instead of returning false. -/
theorem update_candidate_pose_three_inliers_raises :
    threeInliersOneWithoutMode.inliers.length = 3
    ∧ (refinementSet exampleLibrary mixedComponent
        (exampleLibrary.SE3PoseOfMatrix threeInliersOneWithoutMode.cameraPose)
        threeInliersOneWithoutMode.inliers).length < 4
    ∧ update_candidate_pose exampleLibrary mixedComponent threeInliersOneWithoutMode
        = .error "best mode idx invalid."
    ∧ update_candidate_pose exampleLibrary mixedComponent threeInliersOneWithoutMode
        ≠ .ok (false, threeInliersOneWithoutMode) := by
  decide!

/-- C9 as amended: whatever the Levenberg-Marquardt run returns, `update_candidate_pose`
returns true exactly when its first loop completes (no inlier trips the best-mode guard) with a
refinement set of at least 4 pairs, `m_usePredictionCovarianceForPoseOptimization` is enabled
and the Mahalanobis energy of the optimised pose on that set is strictly lower than the energy
of the original pose on the same set; the candidate then differs from the given one in its pose
only. It returns false exactly when the loop completes and the set has fewer than 4 pairs or
the optimised pose is not strictly better, and the candidate is then exactly the given one. The
inlier list is the given one whenever the function returns. -/
theorem update_candidate_pose_true_iff (L : Library) (self : SLAMComponentWithScoreForest)
    (poseCandidate : PoseCandidate) :
    (∀ c1 : PoseCandidate,
      update_candidate_pose L self poseCandidate = .ok (true, c1) ↔
        ∃ ptsForLM : List PointForLM,
          collect_ptsForLM L self (L.SE3PoseOfMatrix poseCandidate.cameraPose)
            poseCandidate.inliers = .ok ptsForLM
          ∧ 4 ≤ ptsForLM.length
          ∧ self.m_usePredictionCovarianceForPoseOptimization = true
          ∧ EnergyForContinuous3DOptimizationUsingFullCovariance ptsForLM
              (optimisedPose L ptsForLM (L.SE3PoseOfMatrix poseCandidate.cameraPose))
            < EnergyForContinuous3DOptimizationUsingFullCovariance ptsForLM
              (L.SE3PoseOfMatrix poseCandidate.cameraPose)
          ∧ c1 = { poseCandidate with
              cameraPose :=
                (optimisedPose L ptsForLM (L.SE3PoseOfMatrix poseCandidate.cameraPose)).GetM })
    ∧ (∀ c1 : PoseCandidate,
      update_candidate_pose L self poseCandidate = .ok (false, c1) ↔
        c1 = poseCandidate
        ∧ ∃ ptsForLM : List PointForLM,
          collect_ptsForLM L self (L.SE3PoseOfMatrix poseCandidate.cameraPose)
            poseCandidate.inliers = .ok ptsForLM
          ∧ (ptsForLM.length < 4
            ∨ (self.m_usePredictionCovarianceForPoseOptimization = true
              ∧ ¬ EnergyForContinuous3DOptimizationUsingFullCovariance ptsForLM
                  (optimisedPose L ptsForLM (L.SE3PoseOfMatrix poseCandidate.cameraPose))
                < EnergyForContinuous3DOptimizationUsingFullCovariance ptsForLM
                  (L.SE3PoseOfMatrix poseCandidate.cameraPose))))
    ∧ (∀ (b : Bool) (c1 : PoseCandidate),
      update_candidate_pose L self poseCandidate = .ok (b, c1) →
        c1.inliers = poseCandidate.inliers) := by
  cases hc : collect_ptsForLM L self (L.SE3PoseOfMatrix poseCandidate.cameraPose)
      poseCandidate.inliers with
  | error e => simp [update_candidate_pose, hc]
  | ok pts =>
    have hres : update_candidate_pose L self poseCandidate
        = if pts.length > 3 then
            if self.m_usePredictionCovarianceForPoseOptimization = true then
              if EnergyForContinuous3DOptimizationUsingFullCovariance pts
                  (optimisedPose L pts (L.SE3PoseOfMatrix poseCandidate.cameraPose))
                < EnergyForContinuous3DOptimizationUsingFullCovariance pts
                  (L.SE3PoseOfMatrix poseCandidate.cameraPose) then
                .ok (true, { poseCandidate with
                  cameraPose :=
                    (optimisedPose L pts (L.SE3PoseOfMatrix poseCandidate.cameraPose)).GetM })
              else .ok (false, poseCandidate)
            else .error "Not updated yet"
          else .ok (false, poseCandidate) := by
      simp only [update_candidate_pose, hc]
    have hpts : ∀ pts1 : List PointForLM, Except.ok pts = (Except.ok pts1 : Except String _) →
        pts1 = pts := by
      intro pts1 h
      injection h with h
      exact h.symm
    rw [hres]
    by_cases h4 : pts.length > 3
    · have h4b : 4 ≤ pts.length := h4
      have h4c : ¬ pts.length < 4 := by omega
      rw [if_pos h4]
      by_cases hflag : self.m_usePredictionCovarianceForPoseOptimization = true
      · rw [if_pos hflag]
        by_cases hlt : EnergyForContinuous3DOptimizationUsingFullCovariance pts
            (optimisedPose L pts (L.SE3PoseOfMatrix poseCandidate.cameraPose))
          < EnergyForContinuous3DOptimizationUsingFullCovariance pts
            (L.SE3PoseOfMatrix poseCandidate.cameraPose)
        · rw [if_pos hlt]
          refine ⟨fun c1 => ?_, fun c1 => ?_, fun b c1 h => ?_⟩
          · constructor
            · intro h
              injection h with h
              injection h with _ h
              exact ⟨pts, rfl, h4b, hflag, hlt, h.symm⟩
            · rintro ⟨pts1, hp, _, _, _, rfl⟩
              rw [hpts pts1 hp]
          · constructor
            · intro h
              injection h with h
              injection h with h _
              exact absurd h (by simp)
            · rintro ⟨_, pts1, hp, hor⟩
              rw [hpts pts1 hp] at hor
              rcases hor with h | h
              · exact absurd h h4c
              · exact absurd hlt h.2
          · injection h with h
            injection h with _ h
            rw [← h]
        · rw [if_neg hlt]
          refine ⟨fun c1 => ?_, fun c1 => ?_, fun b c1 h => ?_⟩
          · constructor
            · intro h
              injection h with h
              injection h with h _
              exact absurd h (by simp)
            · rintro ⟨pts1, hp, _, _, hlt1, _⟩
              rw [hpts pts1 hp] at hlt1
              exact absurd hlt1 hlt
          · constructor
            · intro h
              injection h with h
              injection h with _ h
              exact ⟨h.symm, pts, rfl, Or.inr ⟨hflag, hlt⟩⟩
            · rintro ⟨rfl, _⟩
              rfl
          · injection h with h
            injection h with _ h
            rw [← h]
      · rw [if_neg hflag]
        refine ⟨fun c1 => ?_, fun c1 => ?_, fun b c1 h => ?_⟩
        · constructor
          · intro h
            exact absurd h (by simp)
          · rintro ⟨pts1, _, _, hf, _⟩
            exact absurd hf hflag
        · constructor
          · intro h
            exact absurd h (by simp)
          · rintro ⟨_, pts1, hp, hor⟩
            rw [hpts pts1 hp] at hor
            rcases hor with h | h
            · exact absurd h h4c
            · exact absurd h.1 hflag
        · exact absurd h (by simp)
    · have h4b : ¬ 4 ≤ pts.length := by omega
      have h4c : pts.length < 4 := by omega
      rw [if_neg h4]
      refine ⟨fun c1 => ?_, fun c1 => ?_, fun b c1 h => ?_⟩
      · constructor
        · intro h
          injection h with h
          injection h with h _
          exact absurd h (by simp)
        · rintro ⟨pts1, hp, h41, _⟩
          rw [hpts pts1 hp] at h41
          exact absurd h41 h4b
      · constructor
        · intro h
          injection h with h
          injection h with _ h
          exact ⟨h.symm, pts, rfl, Or.inl h4c⟩
        · rintro ⟨rfl, _⟩
          rfl
      · injection h with h
        injection h with _ h
        rw [← h]

/-- Witness of the amended C9 on the mixed scene: with the optimiser that stays at its start a candidate
that fits is returned unchanged with the flag false, and with the optimiser that ends on the
identity a candidate that is slightly off gets the identity as pose with the flag true. -/
theorem update_candidate_pose_true_iff_witness :
    (update_candidate_pose exampleLibrary mixedComponent fourFittingInliers
        = .ok (false, fourFittingInliers)
      ∧ ∃ ptsForLM : List PointForLM,
          collect_ptsForLM exampleLibrary mixedComponent
            (exampleLibrary.SE3PoseOfMatrix fourFittingInliers.cameraPose)
            fourFittingInliers.inliers = .ok ptsForLM
          ∧ (ptsForLM.length < 4
            ∨ (mixedComponent.m_usePredictionCovarianceForPoseOptimization = true
              ∧ ¬ EnergyForContinuous3DOptimizationUsingFullCovariance ptsForLM
                  (optimisedPose exampleLibrary ptsForLM
                    (exampleLibrary.SE3PoseOfMatrix fourFittingInliers.cameraPose))
                < EnergyForContinuous3DOptimizationUsingFullCovariance ptsForLM
                  (exampleLibrary.SE3PoseOfMatrix fourFittingInliers.cameraPose))))
    ∧ (update_candidate_pose improvingLibrary mixedComponent slightlyOffCandidate
        = .ok (true, { slightlyOffCandidate with cameraPose := Matrix4f.identity })
      ∧ ({ slightlyOffCandidate with cameraPose := Matrix4f.identity } : PoseCandidate).inliers
        = slightlyOffCandidate.inliers) :=
  have h1 : update_candidate_pose exampleLibrary mixedComponent fourFittingInliers
      = .ok (false, fourFittingInliers) := by decide!
  have h2 : update_candidate_pose improvingLibrary mixedComponent slightlyOffCandidate
      = .ok (true, { slightlyOffCandidate with cameraPose := Matrix4f.identity }) := by decide!
  ⟨⟨h1, (((update_candidate_pose_true_iff exampleLibrary mixedComponent
      fourFittingInliers).2.1 _).mp h1).2⟩,
    h2, (update_candidate_pose_true_iff improvingLibrary mixedComponent
      slightlyOffCandidate).2.2 _ _ h2⟩

/-- C9 fails as stated. Four inliers of the candidate yield a pair for the refinement and the
optimised pose has a strictly lower energy on these four pairs than the original pose, with
`m_usePredictionCovarianceForPoseOptimization` enabled; the fifth inlier lies on a pixel whose
prediction has no mode, and `update_candidate_pose` raises instead of returning true. -/
theorem update_candidate_pose_improvable_raises :
    4 ≤ (refinementSet improvingLibrary mixedComponent
        (improvingLibrary.SE3PoseOfMatrix slightlyOffWithoutMode.cameraPose)
        slightlyOffWithoutMode.inliers).length
    ∧ EnergyForContinuous3DOptimizationUsingFullCovariance
        (refinementSet improvingLibrary mixedComponent
          (improvingLibrary.SE3PoseOfMatrix slightlyOffWithoutMode.cameraPose)
          slightlyOffWithoutMode.inliers)
        (optimisedPose improvingLibrary
          (refinementSet improvingLibrary mixedComponent
            (improvingLibrary.SE3PoseOfMatrix slightlyOffWithoutMode.cameraPose)
            slightlyOffWithoutMode.inliers)
          (improvingLibrary.SE3PoseOfMatrix slightlyOffWithoutMode.cameraPose))
      < EnergyForContinuous3DOptimizationUsingFullCovariance
        (refinementSet improvingLibrary mixedComponent
          (improvingLibrary.SE3PoseOfMatrix slightlyOffWithoutMode.cameraPose)
          slightlyOffWithoutMode.inliers)
        (improvingLibrary.SE3PoseOfMatrix slightlyOffWithoutMode.cameraPose)
    ∧ mixedComponent.m_usePredictionCovarianceForPoseOptimization = true
    ∧ update_candidate_pose improvingLibrary mixedComponent slightlyOffWithoutMode
        = .error "best mode idx invalid." := by
  decide!

/-! ## Properties of process_relocalisation -/

/-- C10: called with `TRACKING_FAILED` when fewer valid depth pixels are counted than the
RANSAC stage requires, `process_relocalisation` returns `TRACKING_FAILED`; its only calls are
the count and, when there is a path generator, the increment of its index, so no features are
computed, the forest is not evaluated, no pose is estimated and the tracker is not invoked;
the pose, the tracker result, the images and the forest are unchanged. -/
theorem process_relocalisation_too_few_depths (K : Collaborators) (view : View)
    (st : ComponentState)
    (h : K.CountValidDepths view.depth < K.get_min_nb_required_points) :
    (process_relocalisation K view st .TRACKING_FAILED).1 = .TRACKING_FAILED
    ∧ (process_relocalisation K view st .TRACKING_FAILED).2.pose_d_InvM = st.pose_d_InvM
    ∧ (process_relocalisation K view st .TRACKING_FAILED).2.calls
        = st.calls ++ [Call.CountValidDepths]
          ++ (if st.m_sequentialPathGenerator.isSome then [Call.increment_index] else [])
    ∧ (process_relocalisation K view st .TRACKING_FAILED).2.trackerResult = st.trackerResult
    ∧ (process_relocalisation K view st .TRACKING_FAILED).2.m_featureImage = st.m_featureImage
    ∧ (process_relocalisation K view st .TRACKING_FAILED).2.m_predictionsImage
        = st.m_predictionsImage
    ∧ (process_relocalisation K view st .TRACKING_FAILED).2.forest = st.forest := by
  simp only [process_relocalisation, h, if_true]
  cases hg : st.m_sequentialPathGenerator <;>
    simp [increment_index_if_present, ComponentState.call, hg]

/-- Witness of C10: one valid depth where three are required. -/
theorem process_relocalisation_too_few_depths_witness :
    exampleCollaborators.CountValidDepths sparseView.depth
      < exampleCollaborators.get_min_nb_required_points
    ∧ (process_relocalisation exampleCollaborators sparseView exampleState
        .TRACKING_FAILED).1 = .TRACKING_FAILED
    ∧ (process_relocalisation exampleCollaborators sparseView exampleState
        .TRACKING_FAILED).2.pose_d_InvM = exampleState.pose_d_InvM
    ∧ (process_relocalisation exampleCollaborators sparseView exampleState
        .TRACKING_FAILED).2.calls = [Call.CountValidDepths, Call.increment_index] :=
  have h := process_relocalisation_too_few_depths exampleCollaborators sparseView exampleState
    (by decide!)
  ⟨by decide!, h.1, h.2.1, h.2.2.1⟩

/-- The state and result of `process_relocalisation` when a candidate is found. -/
theorem process_relocalisation_found_eq (K : Collaborators) (view : View) (st : ComponentState)
    (cand : PoseCandidate)
    (hcount : ¬ K.CountValidDepths view.depth < K.get_min_nb_required_points)
    (hfound : K.estimate_pose
        (K.ComputeFeature view.rgb view.depth view.intrinsics_d Matrix4f.identity)
        (K.evaluate_forest st.forest
          (K.ComputeFeature view.rgb view.depth view.intrinsics_d Matrix4f.identity))
      = some cand) :
    (process_relocalisation K view st .TRACKING_FAILED).1 = .TRACKING_POOR
    ∧ (process_relocalisation K view st .TRACKING_FAILED).2.calls
        = st.calls
          ++ [Call.CountValidDepths, Call.compute_features Matrix4f.identity,
              Call.evaluate_forest, Call.estimate_pose, Call.SetInvM cand.cameraPose,
              Call.UpdateVisibleList, Call.prepare_for_tracking, Call.TrackCamera]
          ++ persistCalls st.m_sequentialPathGenerator (some cand.cameraPose)
              (some (K.TrackCamera cand.cameraPose view).1)
              (some (if (K.TrackCamera cand.cameraPose view).2 = .TRACKING_GOOD then
                  (K.TrackCamera cand.cameraPose view).1 else cand.cameraPose))
    ∧ (process_relocalisation K view st .TRACKING_FAILED).2.pose_d_InvM
        = (K.TrackCamera cand.cameraPose view).1
    ∧ (process_relocalisation K view st .TRACKING_FAILED).2.trackerResult
        = (K.TrackCamera cand.cameraPose view).2
    ∧ (process_relocalisation K view st .TRACKING_FAILED).2.m_sequentialPathGenerator
        = st.m_sequentialPathGenerator.map (· + 1)
    ∧ (process_relocalisation K view st .TRACKING_FAILED).2.forest = st.forest := by
  simp only [process_relocalisation, hcount, if_true, if_false, compute_features,
    evaluate_forest, ComponentState.call, hfound]
  cases hg : st.m_sequentialPathGenerator <;>
    simp [increment_index_if_present, save_poses_if_present, ComponentState.call, hg,
      persistCalls]

/-- C11: called with `TRACKING_FAILED` when enough valid depth pixels are counted and
`estimate_pose` returns a candidate, `process_relocalisation` installs the candidate's pose
(`SetInvM`) before it runs the refinement tracker, which it runs exactly once and on that
pose, and it returns `TRACKING_POOR` whatever result the tracker reports. -/
theorem process_relocalisation_candidate_found (K : Collaborators) (view : View)
    (st : ComponentState) (cand : PoseCandidate)
    (hcount : ¬ K.CountValidDepths view.depth < K.get_min_nb_required_points)
    (hfound : K.estimate_pose
        (K.ComputeFeature view.rgb view.depth view.intrinsics_d Matrix4f.identity)
        (K.evaluate_forest st.forest
          (K.ComputeFeature view.rgb view.depth view.intrinsics_d Matrix4f.identity))
      = some cand) :
    (process_relocalisation K view st .TRACKING_FAILED).1 = .TRACKING_POOR
    ∧ (∃ later : List Call,
        newCalls K view st .TRACKING_FAILED
          = [Call.CountValidDepths, Call.compute_features Matrix4f.identity,
              Call.evaluate_forest, Call.estimate_pose, Call.SetInvM cand.cameraPose,
              Call.UpdateVisibleList, Call.prepare_for_tracking, Call.TrackCamera] ++ later
        ∧ Call.TrackCamera ∉ later ∧ ∀ pose : Matrix4f, Call.SetInvM pose ∉ later)
    ∧ (process_relocalisation K view st .TRACKING_FAILED).2.pose_d_InvM
        = (K.TrackCamera cand.cameraPose view).1
    ∧ (process_relocalisation K view st .TRACKING_FAILED).2.trackerResult
        = (K.TrackCamera cand.cameraPose view).2 := by
  obtain ⟨h1, h2, h3, h4, _⟩ := process_relocalisation_found_eq K view st cand hcount hfound
  refine ⟨h1, ⟨persistCalls st.m_sequentialPathGenerator (some cand.cameraPose)
      (some (K.TrackCamera cand.cameraPose view).1)
      (some (if (K.TrackCamera cand.cameraPose view).2 = .TRACKING_GOOD then
        (K.TrackCamera cand.cameraPose view).1 else cand.cameraPose)), ?_, ?_, ?_⟩, h3, h4⟩
  · simp only [newCalls, h2, List.append_assoc, List.drop_left]
  · cases st.m_sequentialPathGenerator <;> simp [persistCalls]
  · intro pose
    cases st.m_sequentialPathGenerator <;> simp [persistCalls]

/-- Witness of C11: the tracker reports good tracking and the result is still
`TRACKING_POOR`. -/
theorem process_relocalisation_candidate_found_witness :
    (findingCollaborators.TrackCamera smallComponentResult.cameraPose sparseView).2
      = .TRACKING_GOOD
    ∧ (process_relocalisation findingCollaborators sparseView exampleState
        .TRACKING_FAILED).1 = .TRACKING_POOR
    ∧ (process_relocalisation findingCollaborators sparseView exampleState
        .TRACKING_FAILED).2.pose_d_InvM
        = (findingCollaborators.TrackCamera smallComponentResult.cameraPose sparseView).1 :=
  have h := process_relocalisation_candidate_found findingCollaborators sparseView exampleState
    smallComponentResult (by decide!) rfl
  ⟨rfl, h.1, h.2.2.1⟩

/-- The state and result of `process_relocalisation` when no candidate is found. -/
theorem process_relocalisation_not_found_eq (K : Collaborators) (view : View)
    (st : ComponentState)
    (hcount : ¬ K.CountValidDepths view.depth < K.get_min_nb_required_points)
    (hnone : K.estimate_pose
        (K.ComputeFeature view.rgb view.depth view.intrinsics_d Matrix4f.identity)
        (K.evaluate_forest st.forest
          (K.ComputeFeature view.rgb view.depth view.intrinsics_d Matrix4f.identity))
      = none) :
    (process_relocalisation K view st .TRACKING_FAILED).1 = .TRACKING_FAILED
    ∧ (process_relocalisation K view st .TRACKING_FAILED).2.calls
        = st.calls
          ++ [Call.CountValidDepths, Call.compute_features Matrix4f.identity,
              Call.evaluate_forest, Call.estimate_pose]
          ++ persistCalls st.m_sequentialPathGenerator none none none
    ∧ (process_relocalisation K view st .TRACKING_FAILED).2.pose_d_InvM = st.pose_d_InvM
    ∧ (process_relocalisation K view st .TRACKING_FAILED).2.trackerResult = st.trackerResult
    ∧ (process_relocalisation K view st .TRACKING_FAILED).2.m_sequentialPathGenerator
        = st.m_sequentialPathGenerator.map (· + 1)
    ∧ (process_relocalisation K view st .TRACKING_FAILED).2.forest = st.forest := by
  simp only [process_relocalisation, hcount, if_true, if_false, compute_features,
    evaluate_forest, ComponentState.call, hnone]
  cases hg : st.m_sequentialPathGenerator <;>
    simp [increment_index_if_present, save_poses_if_present, ComponentState.call, hg,
      persistCalls]

/-- The state and result of `process_relocalisation` when too few valid depths are counted. -/
theorem process_relocalisation_too_few_eq (K : Collaborators) (view : View)
    (st : ComponentState)
    (hcount : K.CountValidDepths view.depth < K.get_min_nb_required_points) :
    (process_relocalisation K view st .TRACKING_FAILED).1 = .TRACKING_FAILED
    ∧ (process_relocalisation K view st .TRACKING_FAILED).2.calls
        = st.calls ++ [Call.CountValidDepths]
          ++ (if st.m_sequentialPathGenerator.isSome then [Call.increment_index] else [])
    ∧ (process_relocalisation K view st .TRACKING_FAILED).2.m_sequentialPathGenerator
        = st.m_sequentialPathGenerator.map (· + 1)
    ∧ (process_relocalisation K view st .TRACKING_FAILED).2.forest = st.forest := by
  simp only [process_relocalisation, hcount, if_true]
  cases hg : st.m_sequentialPathGenerator <;>
    simp [increment_index_if_present, ComponentState.call, hg]

/-- The state and result of `process_relocalisation` on `TRACKING_GOOD`. -/
theorem process_relocalisation_good_eq (K : Collaborators) (view : View)
    (st : ComponentState) :
    (process_relocalisation K view st .TRACKING_GOOD).1 = .TRACKING_GOOD
    ∧ (process_relocalisation K view st .TRACKING_GOOD).2.calls
        = st.calls ++ [Call.compute_features st.pose_d_InvM, Call.add_features_to_forest]
    ∧ (process_relocalisation K view st .TRACKING_GOOD).2.forest
        = st.forest
          ++ [K.ComputeFeature view.rgb view.depth view.intrinsics_d st.pose_d_InvM]
    ∧ (process_relocalisation K view st .TRACKING_GOOD).2.m_sequentialPathGenerator
        = st.m_sequentialPathGenerator
    ∧ (process_relocalisation K view st .TRACKING_GOOD).2.pose_d_InvM = st.pose_d_InvM := by
  simp [process_relocalisation, compute_features, ComponentState.call]

/-- The state and result of `process_relocalisation` on `TRACKING_POOR`. -/
theorem process_relocalisation_poor_eq (K : Collaborators) (view : View)
    (st : ComponentState) :
    process_relocalisation K view st .TRACKING_POOR = (.TRACKING_POOR, st) := by
  simp [process_relocalisation]

/-- C12: called with `TRACKING_FAILED` when enough valid depth pixels are counted and
`estimate_pose` returns no candidate, `process_relocalisation` returns `TRACKING_FAILED`,
leaves the pose and the tracker result of the tracking state as they were and does not invoke
the refinement tracker. -/
theorem process_relocalisation_no_candidate (K : Collaborators) (view : View)
    (st : ComponentState)
    (hcount : ¬ K.CountValidDepths view.depth < K.get_min_nb_required_points)
    (hnone : K.estimate_pose
        (K.ComputeFeature view.rgb view.depth view.intrinsics_d Matrix4f.identity)
        (K.evaluate_forest st.forest
          (K.ComputeFeature view.rgb view.depth view.intrinsics_d Matrix4f.identity))
      = none) :
    (process_relocalisation K view st .TRACKING_FAILED).1 = .TRACKING_FAILED
    ∧ (process_relocalisation K view st .TRACKING_FAILED).2.pose_d_InvM = st.pose_d_InvM
    ∧ (process_relocalisation K view st .TRACKING_FAILED).2.trackerResult = st.trackerResult
    ∧ newCalls K view st .TRACKING_FAILED
        = [Call.CountValidDepths, Call.compute_features Matrix4f.identity,
            Call.evaluate_forest, Call.estimate_pose]
          ++ persistCalls st.m_sequentialPathGenerator none none none
    ∧ Call.TrackCamera ∉ newCalls K view st .TRACKING_FAILED
    ∧ ∀ pose : Matrix4f, Call.SetInvM pose ∉ newCalls K view st .TRACKING_FAILED := by
  obtain ⟨h1, h2, h3, h4, _⟩ := process_relocalisation_not_found_eq K view st hcount hnone
  have hnew : newCalls K view st .TRACKING_FAILED
      = [Call.CountValidDepths, Call.compute_features Matrix4f.identity,
          Call.evaluate_forest, Call.estimate_pose]
        ++ persistCalls st.m_sequentialPathGenerator none none none := by
    simp only [newCalls, h2, List.append_assoc, List.drop_left]
  refine ⟨h1, h3, h4, hnew, ?_, ?_⟩
  · rw [hnew]
    cases st.m_sequentialPathGenerator <;> simp [persistCalls]
  · intro pose
    rw [hnew]
    cases st.m_sequentialPathGenerator <;> simp [persistCalls]

/-- Witness of C12: no candidate is found on a view with enough valid depths. -/
theorem process_relocalisation_no_candidate_witness :
    (process_relocalisation notFindingCollaborators sparseView exampleState
        .TRACKING_FAILED).1 = .TRACKING_FAILED
    ∧ (process_relocalisation notFindingCollaborators sparseView exampleState
        .TRACKING_FAILED).2.pose_d_InvM = exampleState.pose_d_InvM
    ∧ Call.TrackCamera ∉ newCalls notFindingCollaborators sparseView exampleState
        .TRACKING_FAILED :=
  have h := process_relocalisation_no_candidate notFindingCollaborators sparseView exampleState
    (by decide!) rfl
  ⟨h.1, h.2.1, h.2.2.2.2.1⟩

/-- C13: called with `TRACKING_POOR`, `process_relocalisation` returns `TRACKING_POOR` and
leaves the whole state as it was: it makes no call, so it computes no features, neither
evaluates nor updates the forest and estimates no pose, and the pose of the tracking state is
unchanged. -/
theorem process_relocalisation_poor_passes_through (K : Collaborators) (view : View)
    (st : ComponentState) :
    process_relocalisation K view st .TRACKING_POOR = (.TRACKING_POOR, st)
    ∧ newCalls K view st .TRACKING_POOR = []
    ∧ (process_relocalisation K view st .TRACKING_POOR).2.pose_d_InvM = st.pose_d_InvM
    ∧ (process_relocalisation K view st .TRACKING_POOR).2.forest = st.forest := by
  have h := process_relocalisation_poor_eq K view st
  simp [newCalls, h]

/-- The calls of an invocation on `TRACKING_FAILED` do not include
`add_features_to_forest`. -/
theorem newCalls_failed_no_add (K : Collaborators) (view : View) (st : ComponentState) :
    Call.add_features_to_forest ∉ newCalls K view st .TRACKING_FAILED
    ∧ (process_relocalisation K view st .TRACKING_FAILED).2.forest = st.forest := by
  by_cases hcount : K.CountValidDepths view.depth < K.get_min_nb_required_points
  · obtain ⟨_, h2, _, h4⟩ := process_relocalisation_too_few_eq K view st hcount
    refine ⟨?_, h4⟩
    simp only [newCalls, h2, List.append_assoc, List.drop_left]
    cases st.m_sequentialPathGenerator <;> simp
  · cases hfound : K.estimate_pose
        (K.ComputeFeature view.rgb view.depth view.intrinsics_d Matrix4f.identity)
        (K.evaluate_forest st.forest
          (K.ComputeFeature view.rgb view.depth view.intrinsics_d Matrix4f.identity)) with
    | none =>
      obtain ⟨_, h2, _, _, _, h6⟩ := process_relocalisation_not_found_eq K view st hcount hfound
      refine ⟨?_, h6⟩
      simp only [newCalls, h2, List.append_assoc, List.drop_left]
      cases st.m_sequentialPathGenerator <;> simp [persistCalls]
    | some cand =>
      obtain ⟨_, h2, _, _, _, h6⟩ :=
        process_relocalisation_found_eq K view st cand hcount hfound
      refine ⟨?_, h6⟩
      simp only [newCalls, h2, List.append_assoc, List.drop_left]
      cases st.m_sequentialPathGenerator <;> simp [persistCalls]

/-- C14: `process_relocalisation` calls `add_features_to_forest` if and only if its input is
`TRACKING_GOOD`. In that case it returns `TRACKING_GOOD`, its calls are one `compute_features`
under the current pose of the tracking state followed by one `add_features_to_forest`, and
the features folded into the forest are the ones just computed; for any other input the forest
is unchanged. No invocation calls both `evaluate_forest` and `add_features_to_forest`. -/
theorem process_relocalisation_updates_forest_iff_good (K : Collaborators) (view : View)
    (st : ComponentState) (trackingResult : TrackingResult) :
    (Call.add_features_to_forest ∈ newCalls K view st trackingResult
        ↔ trackingResult = .TRACKING_GOOD)
    ∧ (trackingResult = .TRACKING_GOOD →
        (process_relocalisation K view st trackingResult).1 = .TRACKING_GOOD
        ∧ newCalls K view st trackingResult
            = [Call.compute_features st.pose_d_InvM, Call.add_features_to_forest]
        ∧ (newCalls K view st trackingResult).count Call.add_features_to_forest = 1
        ∧ (process_relocalisation K view st trackingResult).2.forest
            = st.forest
              ++ [K.ComputeFeature view.rgb view.depth view.intrinsics_d st.pose_d_InvM])
    ∧ (trackingResult ≠ .TRACKING_GOOD →
        (process_relocalisation K view st trackingResult).2.forest = st.forest)
    ∧ ¬ (Call.evaluate_forest ∈ newCalls K view st trackingResult
        ∧ Call.add_features_to_forest ∈ newCalls K view st trackingResult) := by
  have hgood : newCalls K view st .TRACKING_GOOD
      = [Call.compute_features st.pose_d_InvM, Call.add_features_to_forest] := by
    simp only [newCalls, (process_relocalisation_good_eq K view st).2.1, List.drop_left]
  have hpoor : newCalls K view st .TRACKING_POOR = [] := by
    simp [newCalls, process_relocalisation_poor_eq K view st]
  cases trackingResult with
  | TRACKING_GOOD =>
    obtain ⟨h1, _, h3, _⟩ := process_relocalisation_good_eq K view st
    refine ⟨by simp [hgood], fun _ => ⟨h1, hgood, by simp [hgood], h3⟩,
      fun h => absurd rfl h, by simp [hgood]⟩
  | TRACKING_POOR =>
    refine ⟨by simp [hpoor], fun h => absurd h (by decide), fun _ => ?_, by simp [hpoor]⟩
    rw [process_relocalisation_poor_eq K view st]
  | TRACKING_FAILED =>
    obtain ⟨hno, hforest⟩ := newCalls_failed_no_add K view st
    exact ⟨⟨fun h => absurd h hno, fun h => absurd h (by decide)⟩,
      fun h => absurd h (by decide), fun _ => hforest, fun h => hno h.2⟩

/-- Witness of C14 on the example state with good tracking. -/
theorem process_relocalisation_updates_forest_iff_good_witness :
    (process_relocalisation exampleCollaborators sparseView exampleState .TRACKING_GOOD).1
      = .TRACKING_GOOD
    ∧ newCalls exampleCollaborators sparseView exampleState .TRACKING_GOOD
      = [Call.compute_features exampleState.pose_d_InvM, Call.add_features_to_forest] :=
  have h := (process_relocalisation_updates_forest_iff_good exampleCollaborators sparseView
    exampleState .TRACKING_GOOD).2.1 rfl
  ⟨h.1, h.2.1⟩

/-! ## Properties of the shared image-processing helpers -/

/-- An `int` holds every value of its range as it is. -/
theorem wrapInt_eq (z : Int) (h1 : -2147483648 ≤ z) (h2 : z ≤ 2147483647) : wrapInt z = z := by
  unfold wrapInt
  omega

/-- The row, the column and the column-major index of a pixel of a `width` x `height` image:
all are non-negative and the index lies in the image. -/
theorem columnMajorIndex_bounds (i width height : Int) (hw : 0 < width) (hi0 : 0 ≤ i)
    (hi : i < width * height) :
    0 ≤ i / width ∧ i / width < height ∧ 0 ≤ i % width ∧ i % width < width
    ∧ 0 ≤ (i % width) * height
    ∧ (i % width) * height + i / width < width * height := by
  have h1 : 0 ≤ i / width := Int.ediv_nonneg hi0 (le_of_lt hw)
  have h2 : i / width < height := Int.ediv_lt_of_lt_mul hw (by rw [mul_comm] at hi; exact hi)
  have h3 : 0 ≤ i % width := Int.emod_nonneg i (ne_of_gt hw)
  have h4 : i % width < width := Int.emod_lt_of_pos i hw
  have hh : 0 ≤ height := by omega
  have h5 : 0 ≤ (i % width) * height := mul_nonneg h3 hh
  have h6 : (i % width) * height ≤ (width - 1) * height :=
    mul_le_mul_of_nonneg_right (by omega) hh
  refine ⟨h1, h2, h3, h4, h5, ?_⟩
  have h7 : (width - 1) * height = width * height - height := by ring
  omega

/-- The index `calculate_pixel_depth_difference` computes for a pixel of an image whose number
of pixels fits in an `int`: no operation overflows. -/
theorem columnMajorIndex_fits (i width height : Int) (hw : 0 < width) (hh : 0 < height)
    (hfit : width * height ≤ 2147483647) (hi0 : 0 ≤ i) (hi : i < width * height) :
    wrapInt (wrapInt (wrapInt (i.tmod width) * height) + wrapInt (i.tdiv width))
      = (i % width) * height + i / width := by
  obtain ⟨h1, h2, h3, h4, h5, h6⟩ := columnMajorIndex_bounds i width height hw hi0 hi
  have hrowle : i / width ≤ i := Int.ediv_le_self width hi0
  have hcolle : i % width ≤ (i % width) * height := le_mul_of_one_le_right h3 (by omega)
  rw [Int.tdiv_eq_ediv hi0 (le_of_lt hw), Int.tmod_eq_emod hi0 (le_of_lt hw),
    wrapInt_eq (i % width) (by omega) (by omega),
    wrapInt_eq (i / width) (by omega) (by omega),
    wrapInt_eq ((i % width) * height) (by omega) (by omega),
    wrapInt_eq ((i % width) * height + i / width) (by omega) (by omega)]

/-- C15 as amended: for `width > 0` and `height > 0` with `width * height <= 2147483647` (the
number of pixels fits in an `int`) and a row-major index `0 <= i < width * height`,
`calculate_pixel_depth_difference` writes the output element at the column-major index
`(i mod width) * height + (i div width)`, which lies in `[0, width * height)`; the value
written is `|first[i] - second[i]|` when both input pixels are at least 0 and `-1` when either
is negative; every other output element is unchanged. -/
theorem calculate_pixel_depth_difference_spec (i width height : Int)
    (first second output : Int → ℚ) (hw : 0 < width) (hh : 0 < height)
    (hfit : width * height ≤ 2147483647) (hi0 : 0 ≤ i) (hi : i < width * height) :
    0 ≤ (i % width) * height + i / width
    ∧ (i % width) * height + i / width < width * height
    ∧ (0 ≤ first i → 0 ≤ second i →
        calculate_pixel_depth_difference i first second width height output
            ((i % width) * height + i / width) = |first i - second i|)
    ∧ (first i < 0 ∨ second i < 0 →
        calculate_pixel_depth_difference i first second width height output
            ((i % width) * height + i / width) = -1)
    ∧ ∀ k : Int, k ≠ (i % width) * height + i / width →
        calculate_pixel_depth_difference i first second width height output k = output k := by
  obtain ⟨h1, _, _, _, h5, h6⟩ := columnMajorIndex_bounds i width height hw hi0 hi
  have hidx := columnMajorIndex_fits i width height hw hh hfit hi0 hi
  refine ⟨by omega, h6, ?_, ?_, ?_⟩
  · intro a1 a2
    simp only [calculate_pixel_depth_difference, hidx, Function.update_same]
    rw [if_pos ⟨a1, a2⟩]
  · intro h
    have hn : ¬ (first i ≥ 0 ∧ second i ≥ 0) := by
      rintro ⟨a1, a2⟩
      rcases h with h | h
      · exact absurd a1 (not_le.mpr h)
      · exact absurd a2 (not_le.mpr h)
    simp only [calculate_pixel_depth_difference, hidx, Function.update_same, if_neg hn]
  · intro k hk
    simp only [calculate_pixel_depth_difference, hidx]
    exact Function.update_noteq hk _ _

/-- Witness of the amended C15 on a 3 x 2 image at the row-major index 4, whose column-major
index is 3: the depths 5 and 2 give 3 there, and the element 0 keeps its value 7. -/
theorem calculate_pixel_depth_difference_spec_witness :
    ((4 : Int) % 3) * 2 + 4 / 3 = 3
    ∧ calculate_pixel_depth_difference 4 (fun _ => 5) (fun _ => 2) 3 2 (fun _ => 7)
        (((4 : Int) % 3) * 2 + 4 / 3) = |(5 : ℚ) - 2|
    ∧ calculate_pixel_depth_difference 4 (fun _ => 5) (fun _ => 2) 3 2 (fun _ => 7) 0 = 7 :=
  have h := calculate_pixel_depth_difference_spec 4 3 2 (fun _ => 5) (fun _ => 2) (fun _ => 7)
    (by decide) (by decide) (by decide) (by decide) (by decide)
  ⟨by decide, h.2.2.1 (by norm_num) (by norm_num), h.2.2.2.2 0 (by decide)⟩

/-- C15 fails as stated. For `width = height = 65536` and the row-major index 65535 (row 0,
column 65535) the hypotheses of the claim hold, but the product `col * height = 4294901760`
does not fit in an `int`: the index computed is -65536, so the element written lies before
the output buffer, and the element at the column-major index of the claim keeps its value. -/
theorem calculate_pixel_depth_difference_overflows :
    (0 : Int) < 65536 ∧ (0 : Int) ≤ 65535 ∧ (65535 : Int) < 65536 * 65536
    ∧ ((65535 : Int) % 65536) * 65536 + 65535 / 65536 = 4294901760
    ∧ wrapInt (wrapInt (wrapInt ((65535 : Int).tmod 65536) * 65536)
        + wrapInt ((65535 : Int).tdiv 65536)) = -65536
    ∧ calculate_pixel_depth_difference 65535 (fun _ => 5) (fun _ => 2) 65536 65536 (fun _ => 7)
        4294901760 = 7
    ∧ calculate_pixel_depth_difference 65535 (fun _ => 5) (fun _ => 2) 65536 65536 (fun _ => 7)
        (-65536) = 3 := by
  decide!

/-- C16: `set_pixel_on_threshold` with `CO_GREATER` sets the output pixel at `pixelIndex` to
`value` when the input pixel is strictly greater than the threshold and to the input pixel
otherwise; with `CO_LESS` it does the same for strictly less. In both cases every other output
pixel and the whole input buffer are unchanged. -/
theorem set_pixel_on_threshold_spec (pixelIndex : Nat) (threshold value : ℚ)
    (buffers : PixelBuffers) :
    ((set_pixel_on_threshold pixelIndex .CO_GREATER threshold value buffers).outputData
        pixelIndex
      = if buffers.inputData pixelIndex > threshold then value
        else buffers.inputData pixelIndex)
    ∧ ((set_pixel_on_threshold pixelIndex .CO_LESS threshold value buffers).outputData
        pixelIndex
      = if buffers.inputData pixelIndex < threshold then value
        else buffers.inputData pixelIndex)
    ∧ (∀ op : ComparisonOperator, op = .CO_GREATER ∨ op = .CO_LESS →
        (∀ k : Nat, k ≠ pixelIndex →
          (set_pixel_on_threshold pixelIndex op threshold value buffers).outputData k
            = buffers.outputData k)
        ∧ (set_pixel_on_threshold pixelIndex op threshold value buffers).inputData
            = buffers.inputData) := by
  refine ⟨by simp [set_pixel_on_threshold], by simp [set_pixel_on_threshold], ?_⟩
  intro op hop
  rcases hop with rfl | rfl
  · exact ⟨fun k hk => by simp [set_pixel_on_threshold, Function.update_noteq hk], rfl⟩
  · exact ⟨fun k hk => by simp [set_pixel_on_threshold, Function.update_noteq hk], rfl⟩

/-- Witness of C16: with threshold 3 and value 9, an input pixel 5 gives 9 under `CO_GREATER`
and is copied under `CO_LESS`. -/
theorem set_pixel_on_threshold_spec_witness :
    (set_pixel_on_threshold 2 .CO_GREATER 3 9 ⟨fun _ => 5, fun _ => 0⟩).outputData 2 = 9
    ∧ (set_pixel_on_threshold 2 .CO_LESS 3 9 ⟨fun _ => 5, fun _ => 0⟩).outputData 2 = 5
    ∧ (set_pixel_on_threshold 2 .CO_LESS 3 9 ⟨fun _ => 5, fun _ => 0⟩).outputData 1 = 0 :=
  have h := set_pixel_on_threshold_spec 2 3 9 ⟨fun _ => 5, fun _ => 0⟩
  ⟨by rw [h.1]; norm_num, by rw [h.2.1]; norm_num,
    (h.2.2 .CO_LESS (Or.inr rfl)).1 1 (by decide)⟩

/-! ## The retries and the colour check of hypothesize_pose -/

/-- The whole of `hypothesize_pose`: the inner loop is run once from an empty selection; when
it ends short of `m_nbPointsForKabschBoostrap` pixels the function returns false at once,
otherwise it returns true with the populated candidate. -/
theorem hypothesize_pose_eq (L : Library) (self : SLAMComponentWithScoreForest)
    (res : PoseCandidate) (eng : mt19937) :
    hypothesize_pose L self res eng
      = if (hypothesize_pose_inner L self maxIterationsInner [] eng).1.length
            ≠ self.m_nbPointsForKabschBoostrap then
          (false, res, (hypothesize_pose_inner L self maxIterationsInner [] eng).2)
        else
          (true, populate L self (hypothesize_pose_inner L self maxIterationsInner [] eng).1,
            (hypothesize_pose_inner L self maxIterationsInner [] eng).2) := by
  by_cases hl : (hypothesize_pose_inner L self maxIterationsInner [] eng).1.length
      = self.m_nbPointsForKabschBoostrap
  · simp [hypothesize_pose, hypothesize_pose_outer, maxIterationsOuter, hl]
  · simp [hypothesize_pose, hypothesize_pose_outer, maxIterationsOuter, hl]

/-- When the colour check fails for every pixel and mode, the inner loop started from an empty
selection never selects a pixel. -/
theorem hypothesize_pose_inner_nil_of_colour (L : Library) (self : SLAMComponentWithScoreForest)
    (hcol : ∀ (i m : Nat),
      consistentColour (self.m_featureImage.data i)
        ((self.m_predictionsImage.data i).modes m) = false) :
    ∀ (left : Nat) (eng : mt19937), (hypothesize_pose_inner L self left [] eng).1 = [] := by
  intro left
  induction left with
  | zero => intro eng; rfl
  | succ n ih =>
    intro eng
    rw [hypothesize_pose_inner]
    dsimp only
    split_ifs <;> first
      | rfl
      | exact ih _
      | (exfalso
         simp_all)

/-- The colour check on one channel, for channel values `a` (pixel) and `b` (mode) in 0..255:
the wrapped difference is at most 30 exactly when the pixel is brighter by at most 30 or
darker by at least 226. -/
theorem subUChar_le_30_iff (a b : Nat) (ha : a < 256) (hb : b < 256) :
    subUChar a b ≤ 30 ↔ (b ≤ a ∧ a - b ≤ 30) ∨ (a < b ∧ 226 ≤ b - a) := by
  unfold subUChar
  rw [Nat.mod_eq_of_lt ha, Nat.mod_eq_of_lt hb]
  omega

/-- C17, the code at two failing inputs. On the component with brighter modes every pixel has
the colour (10, 10, 10) and its mode the colour (20, 20, 20), within 30 on each channel, yet
the colour check rejects it, so that `hypothesize_pose` returns false whatever is drawn.
Conversely the check accepts a black pixel for a white mode, which differ by 255 on each
channel. -/
theorem colour_check_wraps_around (eng : mt19937) :
    (exampleFeatures.data 0).colour.toVector3.toUChar = ⟨10, 10, 10⟩
    ∧ ((brighterModePredictions.data 0).modes 0).colour = ⟨20, 20, 20⟩
    ∧ consistentColour (exampleFeatures.data 0) ((brighterModePredictions.data 0).modes 0)
        = false
    ∧ (hypothesize_pose exampleLibrary brighterModeComponent emptyCandidate eng).1 = false
    ∧ blackFeature.colour.toVector3.toUChar = ⟨0, 0, 0⟩
    ∧ whiteMode.colour = ⟨255, 255, 255⟩
    ∧ consistentColour blackFeature whiteMode = true := by
  have h0 : consistentColour (exampleFeatures.data 0)
      ((brighterModePredictions.data 0).modes 0) = false := by decide!
  have hcol : ∀ (i m : Nat),
      consistentColour (brighterModeComponent.m_featureImage.data i)
        ((brighterModeComponent.m_predictionsImage.data i).modes m) = false := by
    intro i m
    exact h0
  have hnil := hypothesize_pose_inner_nil_of_colour exampleLibrary brighterModeComponent hcol
    maxIterationsInner eng
  refine ⟨by decide!, rfl, h0, ?_, by decide!, rfl, by decide!⟩
  rw [hypothesize_pose_eq, hnil]
  rfl

/-- While the inner loop draws invalid pixels only, it selects nothing and uses two raw values
per iteration. -/
theorem hypothesize_pose_inner_skips_invalid (L : Library) (self : SLAMComponentWithScoreForest)
    (sel : List SelectedPixelAndMode) (hsel : sel.length ≠ self.m_nbPointsForKabschBoostrap) :
    ∀ (left : Nat) (eng : mt19937),
      (∀ j < left, (self.m_featureImage.data (drawnPixel self eng j)).position.w < 0) →
      hypothesize_pose_inner L self left sel eng = (sel, dropDraws (2 * left) eng) := by
  intro left
  induction left with
  | zero => intro eng _; rfl
  | succ n ih =>
    intro eng h
    have h0 := h 0 (Nat.succ_pos n)
    have h0a : (self.m_featureImage.data
        ((uniform_int_distribution 0 (self.m_featureImage.height - 1)
            (uniform_int_distribution 0 (self.m_featureImage.width - 1) eng).2).1
          * self.m_featureImage.width
          + (uniform_int_distribution 0 (self.m_featureImage.width - 1) eng).1)).position.w
        < 0 := h0
    rw [hypothesize_pose_inner]
    dsimp only
    rw [if_neg hsel, if_pos h0a]
    have hrest : ∀ j < n, (self.m_featureImage.data (drawnPixel self
        (uniform_int_distribution 0 (self.m_featureImage.height - 1)
          (uniform_int_distribution 0 (self.m_featureImage.width - 1) eng).2).2
        j)).position.w < 0 := by
      intro j hj
      have hj1 := h (j + 1) (Nat.succ_lt_succ hj)
      have e1 : drawnPixel self
          (uniform_int_distribution 0 (self.m_featureImage.height - 1)
            (uniform_int_distribution 0 (self.m_featureImage.width - 1) eng).2).2 j
          = drawnPixel self eng (j + 1) := by
        simp only [drawnPixel, uniform_int_distribution, dropDraws]
        have a1 : 0 + (2 * j + 1) + 1 + 1 = 0 + (2 * (j + 1) + 1) := by omega
        have a2 : 0 + 2 * j + 1 + 1 = 0 + 2 * (j + 1) := by omega
        rw [a1, a2]
      rw [e1]
      exact hj1
    rw [ih _ hrest]
    congr 1

/-- When the first run of the inner loop ends short of the required number of pixels,
`hypothesize_pose` returns false with the engine as that run left it. -/
theorem hypothesize_pose_false_of_short (L : Library) (self : SLAMComponentWithScoreForest)
    (res : PoseCandidate) (eng : mt19937)
    (h : (hypothesize_pose_inner L self maxIterationsInner [] eng).1.length
      ≠ self.m_nbPointsForKabschBoostrap) :
    hypothesize_pose L self res eng
      = (false, res, (hypothesize_pose_inner L self maxIterationsInner [] eng).2) := by
  rw [hypothesize_pose_eq, if_pos h]

/-- The first run of the inner loop on the retry scene with the late engine: its 6000
iterations draw the invalid pixel, select nothing and use 12000 raw values. -/
theorem retry_first_run :
    hypothesize_pose_inner exampleLibrary retryComponent maxIterationsInner [] lateEngine
      = ([], dropDraws 12000 lateEngine) := by
  have hinv : ∀ j < maxIterationsInner,
      (retryComponent.m_featureImage.data (drawnPixel retryComponent lateEngine j)).position.w
        < 0 := by
    intro j hj
    have hj2 : j < 6000 := hj
    have e : drawnPixel retryComponent lateEngine j = 0 := by
      have l1 : lateEngine (0 + (2 * j + 1)) = 0 := by
        simp only [lateEngine]
        rw [if_pos (by omega)]
      have l2 : lateEngine (0 + 2 * j) = 0 := by
        simp only [lateEngine]
        rw [if_pos (by omega)]
      simp only [drawnPixel, uniform_int_distribution, dropDraws, l1, l2]
      rfl
    rw [e]
    decide!
  have hrun := hypothesize_pose_inner_skips_invalid exampleLibrary retryComponent []
    (by decide) maxIterationsInner lateEngine hinv
  have e12 : 2 * maxIterationsInner = 12000 := by norm_num [maxIterationsInner]
  rw [e12] at hrun
  exact hrun

/-- C18 fails as stated. On the retry scene with an engine whose first 6000 draws give the
invalid pixel, `hypothesize_pose` returns false after the first run of the inner loop, having
used the 12000 raw values of that run only: no second attempt is made, although a second run
of the inner loop on the values that follow would not have exhausted its budget. It would have
selected three pixels: `hypothesize_pose` returns true from there. -/
theorem hypothesize_pose_gives_up_after_first_run :
    hypothesize_pose exampleLibrary retryComponent emptyCandidate lateEngine
      = (false, emptyCandidate, dropDraws 12000 lateEngine)
    ∧ (hypothesize_pose_inner exampleLibrary retryComponent maxIterationsInner []
        (dropDraws 12000 lateEngine)).1.length = 3
    ∧ (hypothesize_pose exampleLibrary retryComponent emptyCandidate
        (dropDraws 12000 lateEngine)).1 = true := by
  have hrun := retry_first_run
  have hc : (hypothesize_pose_inner exampleLibrary retryComponent maxIterationsInner []
      lateEngine).1.length ≠ retryComponent.m_nbPointsForKabschBoostrap := by
    rw [hrun]
    decide
  have h2 : (hypothesize_pose_inner exampleLibrary retryComponent maxIterationsInner []
      (dropDraws 12000 lateEngine)).1.length = 3 := by decide!
  have h3 : (hypothesize_pose exampleLibrary retryComponent emptyCandidate
      (dropDraws 12000 lateEngine)).1 = true := by decide!
  refine ⟨?_, h2, h3⟩
  rw [hypothesize_pose_false_of_short _ _ _ _ hc, hrun]

/-- C18 as amended: `hypothesize_pose` makes a single attempt. It runs the inner loop once,
from an empty correspondence set and for at most `maxIterationsInner` = 6000 iterations. When
that run ends with a number of accepted correspondences other than
`m_nbPointsForKabschBoostrap`, the function returns false at once, with the candidate as it was
given and the engine as the run left it; otherwise it returns true with the candidate
populated from the correspondences of that run. Nothing is retried, whatever
`maxIterationsOuter` is. -/
theorem hypothesize_pose_single_attempt (L : Library) (self : SLAMComponentWithScoreForest)
    (res : PoseCandidate) (eng : mt19937) :
    ((hypothesize_pose_inner L self maxIterationsInner [] eng).1.length
        ≠ self.m_nbPointsForKabschBoostrap →
      hypothesize_pose L self res eng
        = (false, res, (hypothesize_pose_inner L self maxIterationsInner [] eng).2))
    ∧ ((hypothesize_pose_inner L self maxIterationsInner [] eng).1.length
        = self.m_nbPointsForKabschBoostrap →
      hypothesize_pose L self res eng
        = (true, populate L self (hypothesize_pose_inner L self maxIterationsInner [] eng).1,
            (hypothesize_pose_inner L self maxIterationsInner [] eng).2)) := by
  constructor
  · intro h
    rw [hypothesize_pose_eq, if_pos h]
  · intro h
    rw [hypothesize_pose_eq, if_neg (fun hne => hne h)]

/-- Witness of the amended C18. On the retry scene with the late engine the single run selects
nothing and the function returns false with the candidate untouched; on the example scene the
single run selects the pixels 0, 1, 2 and the function returns true with the candidate
populated from them. -/
theorem hypothesize_pose_single_attempt_witness :
    ((hypothesize_pose exampleLibrary retryComponent emptyCandidate lateEngine).1 = false
      ∧ (hypothesize_pose exampleLibrary retryComponent emptyCandidate lateEngine).2.1
          = emptyCandidate)
    ∧ ((hypothesize_pose exampleLibrary exampleComponent emptyCandidate exampleEngine).1 = true
      ∧ (hypothesize_pose exampleLibrary exampleComponent emptyCandidate exampleEngine).2.1
          = populate exampleLibrary exampleComponent [(0, 0, 0), (1, 0, 0), (2, 0, 0)]) :=
  have h1 := (hypothesize_pose_single_attempt exampleLibrary retryComponent emptyCandidate
    lateEngine).1 (by rw [retry_first_run]; decide)
  have h2 := (hypothesize_pose_single_attempt exampleLibrary exampleComponent emptyCandidate
    exampleEngine).2 (by decide!)
  have hsel : (hypothesize_pose_inner exampleLibrary exampleComponent maxIterationsInner []
      exampleEngine).1 = [(0, 0, 0), (1, 0, 0), (2, 0, 0)] := by decide!
  ⟨⟨congrArg Prod.fst h1, congrArg (fun r => r.2.1) h1⟩,
    ⟨congrArg Prod.fst h2, by rw [h2, hsel]⟩⟩

/-! ## The inlier lists during the elimination loop and the first trim -/

/-- What `update_candidate_pose` leaves untouched in a candidate. -/
theorem update_candidate_pose_frame (L : Library) (self : SLAMComponentWithScoreForest)
    (c : PoseCandidate) (r : Bool × PoseCandidate)
    (h : update_candidate_pose L self c = .ok r) :
    r.2.inliers = c.inliers ∧ r.2.cameraId = c.cameraId := by
  simp only [update_candidate_pose] at h
  split at h
  · exact absurd h (by simp)
  · split_ifs at h <;>
      (injection h with h
       subst h
       exact ⟨rfl, rfl⟩)

theorem update_candidate_poses_mem (L : Library) (self : SLAMComponentWithScoreForest) :
    ∀ (cs cs1 : List PoseCandidate), update_candidate_poses L self cs = .ok cs1 →
      ∀ c ∈ cs1, ∃ c0 ∈ cs, c.inliers = c0.inliers ∧ c.cameraId = c0.cameraId := by
  intro cs
  induction cs with
  | nil =>
    intro cs1 h c hc
    simp only [update_candidate_poses] at h
    injection h with h
    subst h
    simp at hc
  | cons c0 rest ih =>
    intro cs1 h c hc
    simp only [update_candidate_poses] at h
    split at h
    · exact absurd h (by simp)
    · rename_i r hr
      split at h
      · exact absurd h (by simp)
      · rename_i rest1 hrest
        injection h with h
        subst h
        rcases List.mem_cons.mp hc with rfl | hmem
        · exact ⟨c0, List.mem_cons_self _ _, update_candidate_pose_frame L self c0 r hr⟩
        · obtain ⟨c1, hc1, hp⟩ := ih rest1 hrest c hmem
          exact ⟨c1, List.mem_cons_of_mem _ hc1, hp⟩

/-- The pixels of the rewritten inliers are the pixels of the given ones. -/
theorem map_linearIdx_rescored (L : Library) (self : SLAMComponentWithScoreForest)
    (pose : Matrix4f) (inliers : List Inlier) :
    (inliers.map (rescored L self pose)).map (fun i => i.linearIdx)
      = inliers.map (fun i => i.linearIdx) := by
  rw [List.map_map]
  rfl

/-- A candidate scored in an iteration is a candidate of the state the iteration started in,
with the pixels of the batch added after the pixels of its inliers. -/
theorem ransac_score_round_inliers (L : Library) (self : SLAMComponentWithScoreForest)
    (st scored : RansacState) (h : ransac_score_round L self st = .ok scored) :
    ∀ c ∈ scored.candidates, ∃ c0 ∈ st.candidates, c.cameraId = c0.cameraId
      ∧ c.inliers.map (fun i => i.linearIdx)
          = c0.inliers.map (fun i => i.linearIdx)
            ++ (nextBatch self st).map (fun i => i.linearIdx) := by
  simp only [ransac_score_round] at h
  split at h
  · exact absurd h (by simp)
  · rename_i cs2 h2
    split at h
    · exact absurd h (by simp)
    · rename_i cs3 h3
      injection h with h
      subst h
      intro c hc
      obtain ⟨c2, hc2, _, hid, he⟩ := (compute_and_sort_energies_sorted L self _ _ h3).2 c hc
      obtain ⟨_, hi⟩ := compute_pose_energy_ok L self _ _ _ _ he
      have hc1 : ∃ c1 ∈ update_inliers_for_optimization self
          (sample_pixels_for_ransac self ⟨st.maskSampledPixels, [], st.random_engine⟩
            self.m_batchSizeRansac).sampledPixelIdx st.candidates,
          c2.inliers = c1.inliers ∧ c2.cameraId = c1.cameraId := by
        split_ifs at h2
        · exact update_candidate_poses_mem L self _ _ h2 c2 hc2
        · injection h2 with h2
          subst h2
          exact ⟨c2, hc2, rfl, rfl⟩
      obtain ⟨c1, hc1m, hi1, hid1⟩ := hc1
      simp only [update_inliers_for_optimization, List.mem_map] at hc1m
      obtain ⟨c0, hc0, rfl⟩ := hc1m
      refine ⟨c0, hc0, by rw [hid, hid1], ?_⟩
      rw [hi, map_linearIdx_rescored, hi1]
      simp [nextBatch]

/-- C19 as amended: an iteration of the elimination loop leaves every remaining candidate
with the pixels of the inliers it had when the iteration started, followed by the pixels of
the batch sampled in the iteration; nothing is capped, so its inlier list grows by the size
of the batch. -/
theorem elimination_round_appends_batch (L : Library) (self : SLAMComponentWithScoreForest)
    (st st1 : RansacState) (h : ransac_round L self st = .ok st1) :
    ∀ c ∈ st1.candidates, ∃ c0 ∈ st.candidates, c.cameraId = c0.cameraId
      ∧ c.inliers.map (fun i => i.linearIdx)
          = c0.inliers.map (fun i => i.linearIdx)
            ++ (nextBatch self st).map (fun i => i.linearIdx)
      ∧ c.inliers.length = c0.inliers.length + (nextBatch self st).length := by
  simp only [ransac_round] at h
  split at h
  · exact absurd h (by simp)
  · rename_i scored hs
    injection h with h
    subst h
    intro c hc
    have hmem : c ∈ scored.candidates := List.mem_of_mem_take hc
    obtain ⟨c0, hc0, hid, hmap⟩ := ransac_score_round_inliers L self st scored hs c hmem
    refine ⟨c0, hc0, hid, hmap, ?_⟩
    have := congrArg List.length hmap
    simpa using this

/-- Witness of the amended C19 on the mixed scene: one iteration from four candidates. -/
theorem elimination_round_appends_batch_witness :
    ∃ st1 : RansacState, ransac_round exampleLibrary mixedComponent fourGood = .ok st1
      ∧ ∀ c ∈ st1.candidates, ∃ c0 ∈ fourGood.candidates, c.cameraId = c0.cameraId
        ∧ c.inliers.map (fun i => i.linearIdx)
            = c0.inliers.map (fun i => i.linearIdx)
              ++ (nextBatch mixedComponent fourGood).map (fun i => i.linearIdx)
        ∧ c.inliers.length = c0.inliers.length + (nextBatch mixedComponent fourGood).length :=
  have hm : (ransac_round exampleLibrary mixedComponent fourGood).map
      (fun s => s.candidates.length) = .ok 2 := by decide!
  have ⟨st1, hs1, _⟩ := map_eq_ok hm
  ⟨st1, hs1, elimination_round_appends_batch exampleLibrary mixedComponent fourGood st1 hs1⟩

/-- C19 fails as stated. On the mixed scene every candidate starts with 3 inliers; the two
candidates left by the first iteration have 4 inliers and the one left by the second has 5:
nothing caps the lists, which grow from one iteration to the next. -/
theorem inlier_lists_grow_in_the_loop :
    fourGood.candidates.map (fun c => c.inliers.length) = [3, 3, 3, 3]
    ∧ ∃ st1 st2 : RansacState,
        ransac_round exampleLibrary mixedComponent fourGood = .ok st1
        ∧ ransac_round exampleLibrary mixedComponent st1 = .ok st2
        ∧ st1.candidates.map (fun c => (c.cameraId, c.inliers.length)) = [(0, 4), (1, 4)]
        ∧ st2.candidates.map (fun c => (c.cameraId, c.inliers.length)) = [(0, 5)] := by
  refine ⟨by decide, ?_⟩
  have hm1 : (ransac_round exampleLibrary mixedComponent fourGood).map
      (fun s => s.candidates.map (fun c => (c.cameraId, c.inliers.length)))
      = .ok [(0, 4), (1, 4)] := by decide!
  obtain ⟨st1, hs1, hl1⟩ := map_eq_ok hm1
  have hm2 : ((ransac_round exampleLibrary mixedComponent fourGood).bind
      (ransac_round exampleLibrary mixedComponent)).map
      (fun s => s.candidates.map (fun c => (c.cameraId, c.inliers.length)))
      = .ok [(0, 5)] := by decide!
  obtain ⟨st2, hs2, hl2⟩ := map_eq_ok hm2
  rw [bind_ok hs1] at hs2
  exact ⟨st1, st2, hs1, hs2, hl1, hl2⟩

/-- Truncating an inlier list that is longer than `n`, as the first trim does, is taking its
first `n` entries in every case. -/
theorem truncate_eq_take (n : Nat) (c : PoseCandidate) :
    (if c.inliers.length > n then { c with inliers := c.inliers.take n } else c)
      = { c with inliers := c.inliers.take n } := by
  split_ifs with h
  · rfl
  · rw [List.take_of_length_le (by omega)]

/-- C20: when more candidates were generated than `m_trimKinitAfterFirstEnergyComputation`
(T) and the single scoring pass raises no error, the scored list is a rearrangement of the
pool (every generated candidate is in it once, extended by the batch and with the energy
`compute_pose_energy` returned for it), and the first trim leaves exactly T candidates: the
first T of that list, each with an energy at most the energy of every removed candidate; for
T > 1 each kept candidate's inlier list is cut to the length the first candidate's list had
before the pass, and for T <= 1 the lists are kept. When at most T candidates were generated
the trim changes neither the pool nor the engine. -/
theorem first_trim_spec (L : Library) (self : SLAMComponentWithScoreForest)
    (candidates : List PoseCandidate) (random_engine : mt19937) :
    (self.m_trimKinitAfterFirstEnergyComputation < candidates.length →
      ∀ trimmed : List PoseCandidate × mt19937,
        first_trim L self candidates random_engine = .ok trimmed →
        ∃ scored : List PoseCandidate,
          compute_and_sort_energies L self
              (update_inliers_for_optimization self
                (sample_pixels_for_ransac self ⟨[], [], random_engine⟩
                  self.m_batchSizeRansac).sampledPixelIdx candidates) = .ok scored
          ∧ scored.length = candidates.length
          ∧ trimmed.1.length = self.m_trimKinitAfterFirstEnergyComputation
          ∧ trimmed.1.map (fun c => (c.cameraId, c.cameraPose, c.energy))
              = (scored.take self.m_trimKinitAfterFirstEnergyComputation).map
                  (fun c => (c.cameraId, c.cameraPose, c.energy))
          ∧ (∀ a ∈ trimmed.1,
              ∀ b ∈ scored.drop self.m_trimKinitAfterFirstEnergyComputation,
                a.energy ≤ b.energy)
          ∧ (1 < self.m_trimKinitAfterFirstEnergyComputation →
              ∀ (c0 : PoseCandidate) (rest : List PoseCandidate), candidates = c0 :: rest →
                trimmed.1
                  = (scored.take self.m_trimKinitAfterFirstEnergyComputation).map
                      (fun c => { c with inliers := c.inliers.take c0.inliers.length }))
          ∧ (self.m_trimKinitAfterFirstEnergyComputation ≤ 1 →
              trimmed.1 = scored.take self.m_trimKinitAfterFirstEnergyComputation)
          ∧ ∃ pool : List PoseCandidate,
              List.Forall₂
                (fun c0 c => ScoredAs L self
                  { c0 with
                    inliers := c0.inliers
                      ++ (sample_pixels_for_ransac self ⟨[], [], random_engine⟩
                          self.m_batchSizeRansac).sampledPixelIdx.map (sampleInlier self) } c)
                candidates pool
              ∧ scored.Perm pool
              ∧ (scored.take self.m_trimKinitAfterFirstEnergyComputation
                  ++ scored.drop self.m_trimKinitAfterFirstEnergyComputation).Perm pool)
    ∧ (candidates.length ≤ self.m_trimKinitAfterFirstEnergyComputation →
        first_trim L self candidates random_engine = .ok (candidates, random_engine)) := by
  constructor
  · intro hlt trimmed h
    simp only [first_trim, hlt, if_true] at h
    split at h
    · exact absurd h (by simp)
    · rename_i scored hs
      have hlen := compute_and_sort_energies_length L self _ _ hs
      simp only [update_inliers_for_optimization, List.length_map] at hlen
      have hsorted := (compute_and_sort_energies_sorted L self _ _ hs).1
      have hle := sorted_take_le_drop scored self.m_trimKinitAfterFirstEnergyComputation hsorted
      have hpool : ∃ pool : List PoseCandidate,
          List.Forall₂
            (fun c0 c => ScoredAs L self
              { c0 with
                inliers := c0.inliers
                  ++ (sample_pixels_for_ransac self ⟨[], [], random_engine⟩
                      self.m_batchSizeRansac).sampledPixelIdx.map (sampleInlier self) } c)
            candidates pool
          ∧ scored.Perm pool
          ∧ (scored.take self.m_trimKinitAfterFirstEnergyComputation
              ++ scored.drop self.m_trimKinitAfterFirstEnergyComputation).Perm pool := by
        obtain ⟨pool, hp1, hp2⟩ := compute_and_sort_energies_perm L self _ _ hs
        simp only [update_inliers_for_optimization, List.forall₂_map_left_iff] at hp1
        exact ⟨pool, hp1, hp2, by rw [List.take_append_drop]; exact hp2⟩
      refine ⟨scored, hs, hlen, ?_⟩
      by_cases hT : self.m_trimKinitAfterFirstEnergyComputation > 1
      · simp only [hT, if_true] at h
        injection h with h
        subst h
        refine ⟨?_, ?_, ?_, ?_, ?_, hpool⟩
        · simp only [List.length_map, List.length_take]
          omega
        · simp only [List.map_map]
          apply List.map_congr_left
          intro c _
          simp only [Function.comp]
          split_ifs <;> rfl
        · intro a ha b hb
          simp only [List.mem_map] at ha
          obtain ⟨a0, ha0, rfl⟩ := ha
          have := hle a0 ha0 b hb
          split_ifs <;> exact this
        · intro _ c0 rest hc
          subst hc
          apply List.map_congr_left
          intro c _
          exact truncate_eq_take _ c
        · intro h1
          omega
      · simp only [hT, if_false] at h
        injection h with h
        subst h
        refine ⟨?_, rfl, hle, ?_, fun _ => rfl, hpool⟩
        · simp only [List.length_take]
          omega
        · intro h1
          exact absurd h1 hT
  · intro hle
    have hn : ¬ self.m_trimKinitAfterFirstEnergyComputation < candidates.length := by omega
    simp only [first_trim, hn, if_false]

/-- Witness of C20 on `smallComponent`, where four candidates are generated and the trim
threshold is 2. -/
theorem first_trim_spec_witness :
    ∃ trimmed : List PoseCandidate × mt19937,
      first_trim exampleLibrary smallComponent
          (generate_pose_candidates exampleLibrary smallComponent exampleThreadOf
            emptyCandidate (fun _ => exampleEngine) []) exampleSamplingEngine = .ok trimmed
      ∧ trimmed.1.length = smallComponent.m_trimKinitAfterFirstEnergyComputation
      ∧ trimmed.1.map (fun c => c.inliers.length) = [3, 3] :=
  have hm : (first_trim exampleLibrary smallComponent
      (generate_pose_candidates exampleLibrary smallComponent exampleThreadOf
        emptyCandidate (fun _ => exampleEngine) []) exampleSamplingEngine).map
      (fun t => t.1.map (fun c => c.inliers.length)) = .ok [3, 3] := by decide!
  have ⟨trimmed, ht, hl⟩ := map_eq_ok hm
  have ⟨_, _, _, h3, _⟩ := (first_trim_spec exampleLibrary smallComponent
      (generate_pose_candidates exampleLibrary smallComponent exampleThreadOf
        emptyCandidate (fun _ => exampleEngine) []) exampleSamplingEngine).1
      (by decide!) trimmed ht
  ⟨trimmed, ht, h3, hl⟩

/-! ## The mask of sampled pixels -/

/-- Reading a mask after one entry was set. -/
theorem getD_set_true (l : List Bool) (i j : Nat) :
    (l.set i true).getD j false = (if i = j ∧ i < l.length then true else l.getD j false) := by
  rw [List.getD_eq_getElem?_getD, List.getD_eq_getElem?_getD, List.getElem?_set]
  by_cases hij : i = j
  · subst hij
    by_cases hlt : i < l.length
    · simp [hlt]
    · simp [hlt, List.getElem?_eq_none (Nat.le_of_not_lt hlt)]
  · simp [hij]

/-- A draw of `std::uniform_int_distribution<int>(0, b)` is at most `b`. -/
theorem uniform_int_distribution_le (b : Nat) (eng : mt19937) :
    (uniform_int_distribution 0 b eng).1 ≤ b := by
  simp only [uniform_int_distribution, Nat.sub_zero, Nat.zero_add]
  exact Nat.lt_succ_iff.mp (Nat.mod_lt _ (Nat.succ_pos b))

/-- The linear index of a pixel inside the image lies in the image. -/
theorem linearIdx_lt (self : SLAMComponentWithScoreForest) (s : Vector2i)
    (hx : s.x < self.m_featureImage.width) (hy : s.y < self.m_featureImage.height) :
    (sampleInlier self s).linearIdx < self.m_featureImage.dataSize := by
  simp only [sampleInlier, Image.dataSize]
  calc s.y * self.m_featureImage.width + s.x
      < s.y * self.m_featureImage.width + self.m_featureImage.width := by omega
    _ = (s.y + 1) * self.m_featureImage.width := by ring
    _ ≤ self.m_featureImage.height * self.m_featureImage.width :=
        Nat.mul_le_mul_right _ hy
    _ = self.m_featureImage.width * self.m_featureImage.height := Nat.mul_comm _ _

/-- What the attempts to draw one pixel do to a non-empty mask: on failure nothing; on success
one pixel of the image, unmarked so far, is appended and marked. -/
theorem sample_pixel_attempts_mask (self : SLAMComponentWithScoreForest)
    (hW : 0 < self.m_featureImage.width) (hH : 0 < self.m_featureImage.height) :
    ∀ (left : Nat) (st : SamplingState), st.maskSampledPixels ≠ [] →
      ((sample_pixel_attempts self left st).1 = false →
        (sample_pixel_attempts self left st).2.sampledPixelIdx = st.sampledPixelIdx
        ∧ (sample_pixel_attempts self left st).2.maskSampledPixels = st.maskSampledPixels)
      ∧ ((sample_pixel_attempts self left st).1 = true →
        ∃ s : Vector2i,
          (sample_pixel_attempts self left st).2.sampledPixelIdx = st.sampledPixelIdx ++ [s]
          ∧ s.x < self.m_featureImage.width ∧ s.y < self.m_featureImage.height
          ∧ st.maskSampledPixels.getD (sampleInlier self s).linearIdx false = false
          ∧ (sample_pixel_attempts self left st).2.maskSampledPixels
              = st.maskSampledPixels.set (sampleInlier self s).linearIdx true) := by
  intro left
  induction left with
  | zero =>
    intro st _
    simp [sample_pixel_attempts]
  | succ n ih =>
    intro st hne
    have hemp : st.maskSampledPixels.isEmpty = false := by
      cases hm : st.maskSampledPixels with
      | nil => exact absurd hm hne
      | cons _ _ => rfl
    have hrec := ih { st with eng := (uniform_int_distribution 0 (self.m_featureImage.height - 1)
      (uniform_int_distribution 0 (self.m_featureImage.width - 1) st.eng).2).2 } hne
    have hx := uniform_int_distribution_le (self.m_featureImage.width - 1) st.eng
    have hy := uniform_int_distribution_le (self.m_featureImage.height - 1)
      (uniform_int_distribution 0 (self.m_featureImage.width - 1) st.eng).2
    rw [sample_pixel_attempts]
    dsimp only
    rw [hemp]
    simp only [show ∀ (a b : List Bool), (if false = false then a else b) = a from
      fun a b => if_pos rfl]
    split_ifs with h1 h2 h3
    · refine ⟨fun h => absurd h (by simp), fun _ => ?_⟩
      refine ⟨⟨(uniform_int_distribution 0 (self.m_featureImage.width - 1) st.eng).1,
        (uniform_int_distribution 0 (self.m_featureImage.height - 1)
          (uniform_int_distribution 0 (self.m_featureImage.width - 1) st.eng).2).1⟩,
        rfl, by dsimp only; omega, by dsimp only; omega, ?_, rfl⟩
      simpa [sampleInlier] using h3
    · exact hrec
    · exact hrec
    · exact hrec

/-- What the batch loop of `sample_pixels_for_ransac` does to a non-empty mask of the image
size: the pixels it appends lie in the image, were unmarked and are marked afterwards, their
linear indices are pairwise distinct, and no mark is cleared. -/
theorem sample_pixels_loop_mask (self : SLAMComponentWithScoreForest)
    (hW : 0 < self.m_featureImage.width) (hH : 0 < self.m_featureImage.height) :
    ∀ (left : Nat) (st : SamplingState), st.maskSampledPixels ≠ [] →
      st.maskSampledPixels.length = self.m_featureImage.dataSize →
      ∃ returned : List Vector2i,
        (sample_pixels_loop self left st).sampledPixelIdx = st.sampledPixelIdx ++ returned
        ∧ returned.length ≤ left
        ∧ (sample_pixels_loop self left st).maskSampledPixels.length
            = st.maskSampledPixels.length
        ∧ (∀ s ∈ returned,
            st.maskSampledPixels.getD (sampleInlier self s).linearIdx false = false
            ∧ (sample_pixels_loop self left st).maskSampledPixels.getD
                (sampleInlier self s).linearIdx false = true)
        ∧ (returned.map (fun s => (sampleInlier self s).linearIdx)).Nodup
        ∧ (∀ i : Nat, st.maskSampledPixels.getD i false = true →
            (sample_pixels_loop self left st).maskSampledPixels.getD i false = true) := by
  intro left
  induction left with
  | zero =>
    intro st _ _
    exact ⟨[], by simp [sample_pixels_loop], by simp, rfl, by simp, by simp,
      fun i h => h⟩
  | succ n ih =>
    intro st hne hsize
    obtain ⟨hf, ht⟩ := sample_pixel_attempts_mask self hW hH 50 st hne
    rw [sample_pixels_loop]
    by_cases hr : (sample_pixel_attempts self 50 st).1 = false
    · rw [if_pos hr]
      obtain ⟨e1, e2⟩ := hf hr
      exact ⟨[], by simp [e1], by simp, by rw [e2], by simp, by simp,
        fun i h => by rw [e2]; exact h⟩
    · rw [if_neg hr]
      have hr1 : (sample_pixel_attempts self 50 st).1 = true := by
        cases hb : (sample_pixel_attempts self 50 st).1 with
        | false => exact absurd hb hr
        | true => rfl
      obtain ⟨s, hs, hx, hy, hun, hmask⟩ := ht hr1
      have hlin : (sampleInlier self s).linearIdx < st.maskSampledPixels.length := by
        rw [hsize]
        exact linearIdx_lt self s hx hy
      have hlen1 : (sample_pixel_attempts self 50 st).2.maskSampledPixels.length
          = st.maskSampledPixels.length := by
        rw [hmask, List.length_set]
      have hne1 : (sample_pixel_attempts self 50 st).2.maskSampledPixels ≠ [] := by
        intro h0
        rw [h0] at hlen1
        exact hne (List.length_eq_zero.mp hlen1.symm)
      have hget : ∀ j : Nat,
          (sample_pixel_attempts self 50 st).2.maskSampledPixels.getD j false
            = (if (sampleInlier self s).linearIdx = j then true
               else st.maskSampledPixels.getD j false) := by
        intro j
        rw [hmask, getD_set_true]
        by_cases hj : (sampleInlier self s).linearIdx = j
        · rw [if_pos ⟨hj, hlin⟩, if_pos hj]
        · rw [if_neg (fun h => hj h.1), if_neg hj]
      obtain ⟨ret, e1, e2, e3, e4, e5, e6⟩ := ih _ hne1 (by rw [hlen1, hsize])
      have hnew : ∀ s1 ∈ ret, (sampleInlier self s).linearIdx ≠ (sampleInlier self s1).linearIdx
          ∧ st.maskSampledPixels.getD (sampleInlier self s1).linearIdx false = false := by
        intro s1 hs1
        have h1 := (e4 s1 hs1).1
        rw [hget] at h1
        by_cases hj : (sampleInlier self s).linearIdx = (sampleInlier self s1).linearIdx
        · rw [if_pos hj] at h1
          exact absurd h1 (by decide)
        · rw [if_neg hj] at h1
          exact ⟨hj, h1⟩
      refine ⟨s :: ret, ?_, ?_, ?_, ?_, ?_, ?_⟩
      · rw [e1, hs, List.append_assoc]
        rfl
      · simp only [List.length_cons]
        omega
      · rw [e3, hlen1]
      · intro s1 hs1
        rcases List.mem_cons.mp hs1 with rfl | hs1
        · exact ⟨hun, e6 _ (by rw [hget, if_pos rfl])⟩
        · exact ⟨(hnew s1 hs1).2, (e4 s1 hs1).2⟩
      · rw [List.map_cons, List.nodup_cons]
        refine ⟨?_, e5⟩
        intro hmem
        obtain ⟨s1, hs1, heq⟩ := List.mem_map.mp hmem
        exact (hnew s1 hs1).1 heq.symm
      · intro i hi
        apply e6
        rw [hget]
        split_ifs
        · rfl
        · exact hi

/-- An image with a non-empty mask of its size has at least one column and one row. -/
theorem image_dims_pos (self : SLAMComponentWithScoreForest) (mask : List Bool)
    (hne : mask ≠ []) (hsize : mask.length = self.m_featureImage.dataSize) :
    0 < self.m_featureImage.width ∧ 0 < self.m_featureImage.height := by
  have hpos : 0 < self.m_featureImage.width * self.m_featureImage.height := by
    have : mask.length ≠ 0 := fun h0 => hne (List.length_eq_zero.mp h0)
    simp only [Image.dataSize] at hsize
    omega
  exact ⟨Nat.pos_of_mul_pos_right hpos, Nat.pos_of_mul_pos_left hpos⟩

/-- The mask after an iteration of the elimination loop is the one left by its call of
`sample_pixels_for_ransac`. -/
theorem ransac_round_mask (L : Library) (self : SLAMComponentWithScoreForest)
    (st st1 : RansacState) (h : ransac_round L self st = .ok st1) :
    st1.maskSampledPixels
      = (sample_pixels_for_ransac self ⟨st.maskSampledPixels, [], st.random_engine⟩
          self.m_batchSizeRansac).maskSampledPixels := by
  simp only [ransac_round] at h
  split at h
  · exact absurd h (by simp)
  · rename_i scored hs
    injection h with h
    subst h
    simp only [ransac_score_round] at hs
    split at hs
    · exact absurd hs (by simp)
    · split at hs
      · exact absurd hs (by simp)
      · injection hs with hs
        subst hs
        rfl

/-- The batches sampled by the iterations of the elimination loop, started on a non-empty mask
of the image size: their pixels were unmarked at the start, and no two batches share a
pixel. -/
theorem ransac_loop_batches_disjoint (L : Library) (self : SLAMComponentWithScoreForest)
    (hW : 0 < self.m_featureImage.width) (hH : 0 < self.m_featureImage.height) :
    ∀ (fuel : Nat) (st : RansacState), st.maskSampledPixels ≠ [] →
      st.maskSampledPixels.length = self.m_featureImage.dataSize →
      (∀ batch ∈ ransac_loop_batches L self fuel st, ∀ s ∈ batch,
        st.maskSampledPixels.getD (sampleInlier self s).linearIdx false = false)
      ∧ (ransac_loop_batches L self fuel st).Pairwise List.Disjoint := by
  intro fuel
  induction fuel with
  | zero =>
    intro st _ _
    simp [ransac_loop_batches]
  | succ n ih =>
    intro st hne hsize
    rw [ransac_loop_batches]
    by_cases hgt : st.candidates.length > 1
    · rw [if_pos hgt]
      obtain ⟨ret, e1, _, e3, e4, _, e6⟩ := sample_pixels_loop_mask self hW hH
        self.m_batchSizeRansac ⟨st.maskSampledPixels, [], st.random_engine⟩ hne hsize
      have hb0 : (sample_pixels_for_ransac self ⟨st.maskSampledPixels, [], st.random_engine⟩
          self.m_batchSizeRansac).sampledPixelIdx = ret := by
        rw [sample_pixels_for_ransac, e1]
        rfl
      rw [hb0]
      cases hr : ransac_round L self st with
      | error e =>
        refine ⟨?_, by simp⟩
        intro batch hbatch s hs
        simp only [List.mem_singleton] at hbatch
        subst hbatch
        exact (e4 s hs).1
      | ok st1 =>
        have hm := ransac_round_mask L self st st1 hr
        rw [sample_pixels_for_ransac] at hm
        have hlen1 : st1.maskSampledPixels.length = self.m_featureImage.dataSize := by
          rw [hm, e3]
          exact hsize
        have hne1 : st1.maskSampledPixels ≠ [] := by
          intro h0
          rw [h0] at hlen1
          rw [← hlen1] at hsize
          exact hne (List.length_eq_zero.mp hsize)
        obtain ⟨i1, i2⟩ := ih st1 hne1 hlen1
        dsimp only
        refine ⟨?_, ?_⟩
        · intro batch hbatch s hs
          rcases List.mem_cons.mp hbatch with rfl | hbatch
          · exact (e4 s hs).1
          · have h1 := i1 batch hbatch s hs
            cases hb : st.maskSampledPixels.getD (sampleInlier self s).linearIdx false with
            | false => rfl
            | true =>
              have h2 := e6 _ hb
              rw [← hm, h1] at h2
              exact absurd h2 (by decide)
        · rw [List.pairwise_cons]
          refine ⟨?_, i2⟩
          intro batch hbatch s hs0 hs
          have h1 := i1 batch hbatch s hs
          have h2 := (e4 s hs0).2
          rw [← hm, h1] at h2
          exact absurd h2 (by decide)
    · rw [if_neg hgt]
      simp

/-- C21: on a non-empty mask of the image size, a call of `sample_pixels_for_ransac` appends
at most `batchSize` pixels; every one of them was unmarked in the mask before the call and is
marked after it; they are pairwise distinct, and so are their linear indices; no mark set
before the call is cleared, and the mask keeps its size. Hence the batches sampled by the
iterations of the elimination loop are pairwise disjoint: no pixel is returned by two
different iterations. -/
theorem sample_pixels_for_ransac_mask (self : SLAMComponentWithScoreForest)
    (maskSampledPixels : List Bool) (hne : maskSampledPixels ≠ [])
    (hsize : maskSampledPixels.length = self.m_featureImage.dataSize) :
    (∀ (sampledPixelIdx : List Vector2i) (eng : mt19937) (batchSize : Nat),
      ∃ returned : List Vector2i,
        (sample_pixels_for_ransac self ⟨maskSampledPixels, sampledPixelIdx, eng⟩
            batchSize).sampledPixelIdx = sampledPixelIdx ++ returned
        ∧ returned.length ≤ batchSize
        ∧ (∀ s ∈ returned,
            maskSampledPixels.getD (sampleInlier self s).linearIdx false = false)
        ∧ returned.Nodup
        ∧ (returned.map (fun s => (sampleInlier self s).linearIdx)).Nodup
        ∧ (∀ s ∈ returned,
            (sample_pixels_for_ransac self ⟨maskSampledPixels, sampledPixelIdx, eng⟩
              batchSize).maskSampledPixels.getD (sampleInlier self s).linearIdx false = true)
        ∧ (∀ i : Nat, maskSampledPixels.getD i false = true →
            (sample_pixels_for_ransac self ⟨maskSampledPixels, sampledPixelIdx, eng⟩
              batchSize).maskSampledPixels.getD i false = true)
        ∧ (sample_pixels_for_ransac self ⟨maskSampledPixels, sampledPixelIdx, eng⟩
            batchSize).maskSampledPixels.length = maskSampledPixels.length)
    ∧ (∀ (L : Library) (candidates : List PoseCandidate) (random_engine : mt19937)
        (iteration fuel : Nat),
        (ransac_loop_batches L self fuel
          ⟨candidates, maskSampledPixels, random_engine, iteration⟩).Pairwise List.Disjoint) := by
  obtain ⟨hW, hH⟩ := image_dims_pos self maskSampledPixels hne hsize
  constructor
  · intro sampledPixelIdx eng batchSize
    obtain ⟨ret, e1, e2, e3, e4, e5, e6⟩ := sample_pixels_loop_mask self hW hH batchSize
      ⟨maskSampledPixels, sampledPixelIdx, eng⟩ hne hsize
    exact ⟨ret, e1, e2, fun s hs => (e4 s hs).1, List.Nodup.of_map _ e5, e5,
      fun s hs => (e4 s hs).2, e6, e3⟩
  · intro L candidates random_engine iteration fuel
    exact (ransac_loop_batches_disjoint L self hW hH fuel
      ⟨candidates, maskSampledPixels, random_engine, iteration⟩ hne hsize).2

/-- Witness of C21. On the example scene (3 x 1) with nothing marked, a batch of 2 is the
pixels 0 and 1, which are marked afterwards; on the mixed scene (5 x 1) the two iterations of
the loop on four candidates sample pixel 0 and then pixel 3. -/
theorem sample_pixels_for_ransac_mask_witness :
    (sample_pixels_for_ransac exampleComponent ⟨[false, false, false], [], exampleSamplingEngine⟩
        2).sampledPixelIdx = [⟨0, 0⟩, ⟨1, 0⟩]
    ∧ (sample_pixels_for_ransac exampleComponent ⟨[false, false, false], [], exampleSamplingEngine⟩
        2).maskSampledPixels = [true, true, false]
    ∧ (∃ returned : List Vector2i,
        (sample_pixels_for_ransac exampleComponent
            ⟨[false, false, false], [], exampleSamplingEngine⟩ 2).sampledPixelIdx
          = [] ++ returned
        ∧ returned.length ≤ 2 ∧ returned.Nodup)
    ∧ ransac_loop_batches exampleLibrary mixedComponent 4 fourGood = [[⟨0, 0⟩], [⟨3, 0⟩]]
    ∧ (ransac_loop_batches exampleLibrary mixedComponent 4 fourGood).Pairwise List.Disjoint :=
  have h1 := (sample_pixels_for_ransac_mask exampleComponent [false, false, false] (by decide)
    (by decide)).1 [] exampleSamplingEngine 2
  have h2 := (sample_pixels_for_ransac_mask mixedComponent (List.replicate 5 false) (by decide)
    (by decide)).2 exampleLibrary fourGood.candidates engine0Then3 0 4
  have ⟨returned, e1, e2, _, e4, _⟩ := h1
  ⟨by decide!, by decide!, ⟨returned, e1, e2, e4⟩, by decide!, h2⟩

/-! ## The energy formula of compute_pose_energy -/

/-- The energy stored for an inlier, in closed form: with raw likelihood `energy`,
`-log10 (max (energy / (nbModes * nbInliers)) 1e-6)`. -/
theorem inlierEnergy_eq (L : Library) (pred : GPUForestPrediction) (argmax : Int) (energy : ℚ) :
    inlierEnergy L pred argmax energy
      = -L.log10f (max (energy / ((pred.nbModes : ℚ) * ((pred.modes argmax.toNat).nbInliers : ℚ)))
          (1 / 1000000)) := by
  simp only [inlierEnergy, div_div]
  congr 2
  rw [max_def]
  split_ifs with h1 h2 h2
  · rfl
  · exact absurd (le_of_lt h1) h2
  · exact le_antisymm h2 (le_of_not_lt h1)
  · rfl

/-- C22: when `compute_pose_energy` does not raise on a candidate pose and a non-empty inlier
list, every stored inlier is the given one with the energy
`-log10 (max (l / (nbModes * nbInliers of the chosen mode)) 1e-6)`, where `l` is the raw
likelihood of the best mode at the projected point, and with that best mode's index as
`modeIdx`; the returned energy is the arithmetic mean of the stored energies. Consequently,
`log10f` being monotone on the positive numbers with `log10f 1e-6 = -6`, every stored energy and
the returned energy are at most 6. -/
theorem compute_pose_energy_formula (L : Library) (self : SLAMComponentWithScoreForest)
    (candidateCameraPose : Matrix4f) (inliersIndices stored : List Inlier) (energy : ℚ)
    (hne : inliersIndices ≠ [])
    (h : compute_pose_energy L self candidateCameraPose inliersIndices = .ok (energy, stored)) :
    stored = inliersIndices.map (fun inlier =>
        { inlier with
          energy := -L.log10f (max
            ((bestModeOfInlier L self candidateCameraPose inlier).2
              / (((self.m_predictionsImage.data inlier.linearIdx).nbModes : ℚ)
                  * ((chosenMode L self candidateCameraPose inlier).nbInliers : ℚ)))
            (1 / 1000000))
          modeIdx := (bestModeOfInlier L self candidateCameraPose inlier).1 })
    ∧ energy = (stored.map (fun inlier => inlier.energy)).sum / (stored.length : ℚ)
    ∧ ((∀ a b : ℚ, 0 < a → a ≤ b → L.log10f a ≤ L.log10f b) →
        L.log10f (1 / 1000000) = -6 →
        (∀ inlier ∈ stored, inlier.energy ≤ 6) ∧ energy ≤ 6) := by
  obtain ⟨he, hs⟩ := compute_pose_energy_ok L self candidateCameraPose inliersIndices stored
    energy h
  have hstored : stored = inliersIndices.map (fun inlier =>
      { inlier with
        energy := -L.log10f (max
          ((bestModeOfInlier L self candidateCameraPose inlier).2
            / (((self.m_predictionsImage.data inlier.linearIdx).nbModes : ℚ)
                * ((chosenMode L self candidateCameraPose inlier).nbInliers : ℚ)))
          (1 / 1000000))
        modeIdx := (bestModeOfInlier L self candidateCameraPose inlier).1 }) := by
    rw [hs]
    apply List.map_congr_left
    intro inlier _
    simp only [rescored, scoredEnergyOf, inlierEnergy_eq, chosenMode]
  have hmean : energy = (stored.map (fun inlier => inlier.energy)).sum / (stored.length : ℚ) := by
    rw [he, hs, List.length_map, List.map_map]
    rfl
  refine ⟨hstored, hmean, fun hmono hlog => ?_⟩
  have hall : ∀ inlier ∈ stored, inlier.energy ≤ 6 := by
    intro inlier hin
    rw [hstored] at hin
    obtain ⟨i0, _, rfl⟩ := List.mem_map.mp hin
    have hm := hmono (1 / 1000000) _ (by norm_num)
      (le_max_right ((bestModeOfInlier L self candidateCameraPose i0).2
        / (((self.m_predictionsImage.data i0.linearIdx).nbModes : ℚ)
            * ((chosenMode L self candidateCameraPose i0).nbInliers : ℚ))) (1 / 1000000))
    rw [hlog] at hm
    show -L.log10f _ ≤ 6
    linarith
  refine ⟨hall, ?_⟩
  have hlen : (0 : ℚ) < (stored.length : ℚ) := by
    have : stored.length ≠ 0 := by
      rw [hs, List.length_map]
      exact fun h0 => hne (List.length_eq_zero.mp h0)
    exact_mod_cast Nat.pos_of_ne_zero this
  have hsum : (stored.map (fun inlier => inlier.energy)).sum ≤ (stored.length : ℚ) * 6 := by
    have := List.sum_le_card_nsmul (stored.map (fun inlier => inlier.energy)) 6 (by
      intro x hx
      obtain ⟨i, hi, rfl⟩ := List.mem_map.mp hx
      exact hall i hi)
    simpa using this
  rw [hmean, div_le_iff₀ hlen]
  linarith

/-- Witness of C22 on the mixed scene under the true pose: the inliers on the pixels 0, 1, 2
(one mode each) get the energy 0, the inlier on pixel 3 (ten modes) gets the energy 1, and the
returned energy is their mean 1/4. -/
theorem compute_pose_energy_formula_witness :
    ∃ stored : List Inlier,
      compute_pose_energy floorLogLibrary mixedComponent Matrix4f.identity
          fourFittingInliers.inliers = .ok (1 / 4, stored)
      ∧ stored.map (fun inlier => (inlier.modeIdx, inlier.energy))
          = [(0, 0), (0, 0), (0, 0), (0, 1)]
      ∧ (∀ inlier ∈ stored, inlier.energy ≤ 6) ∧ (1 / 4 : ℚ) ≤ 6 :=
  have hm : (compute_pose_energy floorLogLibrary mixedComponent Matrix4f.identity
      fourFittingInliers.inliers).map
        (fun r => (r.1, r.2.map (fun inlier => (inlier.modeIdx, inlier.energy))))
      = .ok (1 / 4, [(0, 0), (0, 0), (0, 0), (0, 1)]) := by decide!
  have ⟨r, hr, he⟩ := map_eq_ok hm
  have h1 : r.1 = 1 / 4 := congrArg Prod.fst he
  have h2 : r.2.map (fun inlier => (inlier.modeIdx, inlier.energy))
      = [(0, 0), (0, 0), (0, 0), (0, 1)] := congrArg Prod.snd he
  have hr2 : compute_pose_energy floorLogLibrary mixedComponent Matrix4f.identity
      fourFittingInliers.inliers = .ok (1 / 4, r.2) := by rw [hr, ← h1]
  have h := compute_pose_energy_formula floorLogLibrary mixedComponent Matrix4f.identity
    fourFittingInliers.inliers r.2 (1 / 4) (by decide) hr2
  have hb := h.2.2
    (fun a b ha hab => by
      show ((Int.log 10 a : Int) : ℚ) ≤ ((Int.log 10 b : Int) : ℚ)
      exact_mod_cast Int.log_mono_right ha hab)
    (by
      show ((Int.log 10 (1 / 1000000 : ℚ) : Int) : ℚ) = -6
      have e : (1 / 1000000 : ℚ) = ((10 : ℕ) : ℚ) ^ (-6 : ℤ) := by norm_num
      rw [e, Int.log_zpow (by decide)]
      norm_num)
  ⟨r.2, hr2, h2, hb.1, hb.2⟩

/-! ## The number of iterations of the elimination loop -/

/-- An iteration of the elimination loop adds one to `iteration`. -/
theorem ransac_round_iteration (L : Library) (self : SLAMComponentWithScoreForest)
    (st st1 : RansacState) (h : ransac_round L self st = .ok st1) :
    st1.iteration = st.iteration + 1 := by
  simp only [ransac_round] at h
  split at h
  · exact absurd h (by simp)
  · rename_i scored hs
    injection h with h
    subst h
    simp only [ransac_score_round] at hs
    split at hs
    · exact absurd hs (by simp)
    · split at hs
      · exact absurd hs (by simp)
      · injection hs with hs
        subst hs
        rfl

/-- Allowing the elimination loop one more iteration than `floor (log2 n)` changes nothing. -/
theorem ransac_loop_succ (L : Library) (self : SLAMComponentWithScoreForest) :
    ∀ (fuel : Nat) (st : RansacState), Nat.log 2 st.candidates.length ≤ fuel →
      ransac_loop L self (fuel + 1) st = ransac_loop L self fuel st := by
  intro fuel
  induction fuel with
  | zero =>
    intro st hlog
    have hle : ¬ st.candidates.length > 1 := by
      intro hgt
      have := Nat.log_pos (by decide : 1 < 2) (show 2 ≤ st.candidates.length by omega)
      omega
    simp only [ransac_loop, hle, if_false]
  | succ n ih =>
    intro st hlog
    rw [ransac_loop.eq_2, ransac_loop.eq_2]
    by_cases hgt : st.candidates.length > 1
    · simp only [hgt, if_true]
      cases hr : ransac_round L self st with
      | error e => rfl
      | ok st1 =>
        have hl := ransac_round_length L self st st1 hr
        have hlog1 := Nat.log_of_one_lt_of_le (by decide : 1 < 2)
          (show 2 ≤ st.candidates.length by omega)
        exact ih st1 (by rw [hl]; omega)
    · simp only [hgt, if_false]

/-- The elimination loop gives the same outcome under every allowance of at least
`floor (log2 n)` iterations. -/
theorem ransac_loop_fuel (L : Library) (self : SLAMComponentWithScoreForest) (st : RansacState) :
    ∀ (extra : Nat),
      ransac_loop L self (Nat.log 2 st.candidates.length + extra) st
        = ransac_loop L self (Nat.log 2 st.candidates.length) st := by
  intro extra
  induction extra with
  | zero => rfl
  | succ k ih =>
    rw [← Nat.add_assoc, ransac_loop_succ L self _ st (by omega), ih]

/-- A run of the elimination loop that returns has made `floor (log2 n)` iterations and ends
with at most one candidate. -/
theorem ransac_loop_iterations (L : Library) (self : SLAMComponentWithScoreForest) :
    ∀ (fuel : Nat) (st st1 : RansacState), Nat.log 2 st.candidates.length ≤ fuel →
      ransac_loop L self fuel st = .ok st1 →
      st1.iteration = st.iteration + Nat.log 2 st.candidates.length
      ∧ st1.candidates.length ≤ 1
      ∧ (1 ≤ st.candidates.length → st1.candidates.length = 1) := by
  intro fuel
  induction fuel with
  | zero =>
    intro st st1 hlog h
    simp only [ransac_loop] at h
    injection h with h
    subst h
    have hle : ¬ st.candidates.length > 1 := by
      intro hgt
      have := Nat.log_pos (by decide : 1 < 2) (show 2 ≤ st.candidates.length by omega)
      omega
    refine ⟨by omega, by omega, fun _ => by omega⟩
  | succ n ih =>
    intro st st1 hlog h
    simp only [ransac_loop] at h
    split_ifs at h with hgt
    · split at h
      · exact absurd h (by simp)
      · rename_i st2 h2
        have hl := ransac_round_length L self st st2 h2
        have hi := ransac_round_iteration L self st st2 h2
        have hlog1 := Nat.log_of_one_lt_of_le (by decide : 1 < 2)
          (show 2 ≤ st.candidates.length by omega)
        obtain ⟨e1, e2, e3⟩ := ih st2 st1 (by rw [hl]; omega) h
        rw [hl] at e1 e3
        exact ⟨by omega, e2, fun _ => e3 (by omega)⟩
    · injection h with h
      subst h
      have h0 : Nat.log 2 st.candidates.length = 0 := Nat.log_of_lt (by omega)
      exact ⟨by omega, by omega, fun _ => by omega⟩

/-- A run of the elimination loop that returns has sampled one batch per iteration: the
batches listed by `ransac_loop_batches` are as many as the iterations counted. -/
theorem ransac_loop_batches_length (L : Library) (self : SLAMComponentWithScoreForest) :
    ∀ (fuel : Nat) (st st1 : RansacState), ransac_loop L self fuel st = .ok st1 →
      st1.iteration = st.iteration + (ransac_loop_batches L self fuel st).length := by
  intro fuel
  induction fuel with
  | zero =>
    intro st st1 h
    simp only [ransac_loop] at h
    injection h with h
    subst h
    simp [ransac_loop_batches]
  | succ n ih =>
    intro st st1 h
    simp only [ransac_loop] at h
    rw [ransac_loop_batches]
    split_ifs at h with hgt
    · rw [if_pos hgt]
      split at h
      · exact absurd h (by simp)
      · rename_i st2 h2
        have hi := ransac_round_iteration L self st st2 h2
        have := ih st2 st1 h
        simp only [List.length_cons]
        omega
    · rw [if_neg hgt]
      injection h with h
      subst h
      simp

/-- C23: the elimination loop of `estimate_pose`, entered with a pool of `n >= 1` candidates,
needs no more than `floor (log2 n)` iterations, which is at most `ceil (log2 n)`: under every
allowance of at least that many iterations its outcome is the one under exactly that many.
When it returns (no iteration raises), it has made exactly `floor (log2 n)` iterations and one
candidate is left. Every iteration that completes counts once and takes a pool of `m`
candidates to `floor (m / 2)`. -/
theorem ransac_loop_rounds (L : Library) (self : SLAMComponentWithScoreForest)
    (st : RansacState) (fuel : Nat) (hn : 1 ≤ st.candidates.length)
    (hfuel : Nat.log 2 st.candidates.length ≤ fuel) :
    ransac_loop L self fuel st = ransac_loop L self (Nat.log 2 st.candidates.length) st
    ∧ Nat.log 2 st.candidates.length ≤ Nat.clog 2 st.candidates.length
    ∧ (∀ st1 : RansacState, ransac_loop L self fuel st = .ok st1 →
        st1.iteration = st.iteration + Nat.log 2 st.candidates.length
        ∧ st1.candidates.length = 1)
    ∧ (∀ s s1 : RansacState, ransac_round L self s = .ok s1 →
        s1.iteration = s.iteration + 1
        ∧ s1.candidates.length = s.candidates.length / 2) := by
  refine ⟨?_, Nat.log_le_clog 2 _, fun st1 h => ?_, fun s s1 h => ?_⟩
  · obtain ⟨extra, rfl⟩ := Nat.exists_eq_add_of_le hfuel
    exact ransac_loop_fuel L self st extra
  · obtain ⟨e1, _, e3⟩ := ransac_loop_iterations L self fuel st st1 hfuel h
    exact ⟨e1, e3 hn⟩
  · exact ⟨ransac_round_iteration L self s s1 h, ransac_round_length L self s s1 h⟩

/-- Witness of C23 on the mixed scene: entered with 4 candidates and allowed 4 iterations, as
in `estimate_pose`, the loop returns after 2 iterations with one candidate. -/
theorem ransac_loop_rounds_witness :
    fourGood.candidates.length = 4 ∧ Nat.log 2 4 = 2 ∧ Nat.clog 2 4 = 2
    ∧ ∃ st1 : RansacState,
        ransac_loop exampleLibrary mixedComponent 4 fourGood = .ok st1
        ∧ st1.iteration = 2 ∧ st1.candidates.length = 1 :=
  have hlog : Nat.log 2 4 = 2 := Nat.log_pow (by decide) 2
  have hclog : Nat.clog 2 4 = 2 := Nat.clog_pow 2 2 (by decide)
  have hm : (ransac_loop exampleLibrary mixedComponent 4 fourGood).map
      (fun s => s.candidates.length) = .ok 1 := by decide!
  have ⟨st1, hs1, _⟩ := map_eq_ok hm
  have h := (ransac_loop_rounds exampleLibrary mixedComponent fourGood 4 (by decide)
    (by rw [show fourGood.candidates.length = 4 from rfl, hlog]; decide)).2.2.1 st1 hs1
  ⟨rfl, hlog, hclog, st1, hs1,
    by rw [h.1, show fourGood.candidates.length = 4 from rfl, hlog]; rfl, h.2⟩

/-! ## update_candidate_pose without the prediction covariance -/

/-- C24 as amended: with `m_usePredictionCovarianceForPoseOptimization` disabled,
`update_candidate_pose` raises "best mode idx invalid." when some inlier of the candidate has
no valid best mode; otherwise it raises "Not updated yet" when the refinement set has at least
4 pairs, and returns false, leaving the candidate as it is, when the set has fewer than 4 pairs.
It never refines: whenever it returns, the flag is false and the candidate is the given one. -/
theorem update_candidate_pose_without_covariance (L : Library)
    (self : SLAMComponentWithScoreForest) (poseCandidate : PoseCandidate)
    (hflag : self.m_usePredictionCovarianceForPoseOptimization = false) :
    ((∃ i ∈ poseCandidate.inliers,
        NoBestMode L self (L.SE3PoseOfMatrix poseCandidate.cameraPose) i) →
      update_candidate_pose L self poseCandidate = .error "best mode idx invalid.")
    ∧ ((∀ i ∈ poseCandidate.inliers,
        ¬ NoBestMode L self (L.SE3PoseOfMatrix poseCandidate.cameraPose) i) →
      (4 ≤ (refinementSet L self (L.SE3PoseOfMatrix poseCandidate.cameraPose)
          poseCandidate.inliers).length →
        update_candidate_pose L self poseCandidate = .error "Not updated yet")
      ∧ ((refinementSet L self (L.SE3PoseOfMatrix poseCandidate.cameraPose)
          poseCandidate.inliers).length < 4 →
        update_candidate_pose L self poseCandidate = .ok (false, poseCandidate)))
    ∧ (∀ r : Bool × PoseCandidate,
        update_candidate_pose L self poseCandidate = .ok r → r = (false, poseCandidate)) := by
  have h1 : (∃ i ∈ poseCandidate.inliers,
        NoBestMode L self (L.SE3PoseOfMatrix poseCandidate.cameraPose) i) →
      update_candidate_pose L self poseCandidate = .error "best mode idx invalid." := by
    intro hex
    have hc := collect_ptsForLM_error L self _ _ hex
    simp only [update_candidate_pose, hc]
  have h2 : (∀ i ∈ poseCandidate.inliers,
        ¬ NoBestMode L self (L.SE3PoseOfMatrix poseCandidate.cameraPose) i) →
      (4 ≤ (refinementSet L self (L.SE3PoseOfMatrix poseCandidate.cameraPose)
          poseCandidate.inliers).length →
        update_candidate_pose L self poseCandidate = .error "Not updated yet")
      ∧ ((refinementSet L self (L.SE3PoseOfMatrix poseCandidate.cameraPose)
          poseCandidate.inliers).length < 4 →
        update_candidate_pose L self poseCandidate = .ok (false, poseCandidate)) := by
    intro hall
    have hc := collect_ptsForLM_ok L self _ _ hall
    constructor
    · intro h4
      have hgt : (refinementSet L self (L.SE3PoseOfMatrix poseCandidate.cameraPose)
          poseCandidate.inliers).length > 3 := by omega
      simp only [update_candidate_pose, hc, hgt, hflag, if_true]
      rfl
    · intro hlt
      have hnot : ¬ (refinementSet L self (L.SE3PoseOfMatrix poseCandidate.cameraPose)
          poseCandidate.inliers).length > 3 := by omega
      simp only [update_candidate_pose, hc, hnot, if_false]
  refine ⟨h1, h2, fun r hr => ?_⟩
  by_cases hex : ∃ i ∈ poseCandidate.inliers,
      NoBestMode L self (L.SE3PoseOfMatrix poseCandidate.cameraPose) i
  · rw [h1 hex] at hr
    exact absurd hr (by simp)
  · have hall : ∀ i ∈ poseCandidate.inliers,
        ¬ NoBestMode L self (L.SE3PoseOfMatrix poseCandidate.cameraPose) i :=
      fun i hi hn => hex ⟨i, hi, hn⟩
    by_cases h4 : 4 ≤ (refinementSet L self (L.SE3PoseOfMatrix poseCandidate.cameraPose)
        poseCandidate.inliers).length
    · rw [(h2 hall).1 h4] at hr
      exact absurd hr (by simp)
    · rw [(h2 hall).2 (by omega)] at hr
      injection hr with hr
      exact hr.symm

/-- Witness of the amended C24 on the mixed scene with the flag disabled: the candidate whose
inliers 0, 1, 2, 3 all fit its pose makes `update_candidate_pose` raise "Not updated yet", and
the candidate with the inliers 0, 1, 2 is returned unchanged with the flag false. -/
theorem update_candidate_pose_without_covariance_witness :
    update_candidate_pose exampleLibrary mixedComponentWithoutCovariance fourFittingInliers
      = .error "Not updated yet"
    ∧ update_candidate_pose exampleLibrary mixedComponentWithoutCovariance
        (candidateOn012 Matrix4f.identity 0) = .ok (false, candidateOn012 Matrix4f.identity 0) :=
  ⟨((update_candidate_pose_without_covariance exampleLibrary mixedComponentWithoutCovariance
      fourFittingInliers rfl).2.1 (by decide!)).1 (by decide!),
   ((update_candidate_pose_without_covariance exampleLibrary mixedComponentWithoutCovariance
      (candidateOn012 Matrix4f.identity 0) rfl).2.1 (by decide!)).2 (by decide!)⟩

/-- C24 fails as stated. With the flag disabled, a candidate whose refinement set has fewer
than 4 pairs (it has 3 inliers, the third on a pixel without modes) makes
`update_candidate_pose` raise instead of returning false, and a candidate whose refinement set
has 4 pairs (its fifth inlier lies on the pixel without modes) makes it raise
"best mode idx invalid.", not "Not updated yet". -/
theorem update_candidate_pose_without_covariance_guard_first :
    mixedComponentWithoutCovariance.m_usePredictionCovarianceForPoseOptimization = false
    ∧ (refinementSet exampleLibrary mixedComponentWithoutCovariance
        (exampleLibrary.SE3PoseOfMatrix threeInliersOneWithoutMode.cameraPose)
        threeInliersOneWithoutMode.inliers).length < 4
    ∧ update_candidate_pose exampleLibrary mixedComponentWithoutCovariance
        threeInliersOneWithoutMode = .error "best mode idx invalid."
    ∧ update_candidate_pose exampleLibrary mixedComponentWithoutCovariance
        threeInliersOneWithoutMode ≠ .ok (false, threeInliersOneWithoutMode)
    ∧ 4 ≤ (refinementSet exampleLibrary mixedComponentWithoutCovariance
        (exampleLibrary.SE3PoseOfMatrix slightlyOffWithoutMode.cameraPose)
        slightlyOffWithoutMode.inliers).length
    ∧ update_candidate_pose exampleLibrary mixedComponentWithoutCovariance
        slightlyOffWithoutMode = .error "best mode idx invalid."
    ∧ update_candidate_pose exampleLibrary mixedComponentWithoutCovariance
        slightlyOffWithoutMode ≠ .error "Not updated yet" := by
  decide!

/-! ## The index of the path generator -/

/-- The new calls and the index of the path generator after an invocation of
`process_relocalisation` on `TRACKING_FAILED` with a path generator at index `i`: one
`increment_index` call, and the index `i + 1`. -/
theorem process_relocalisation_failed_index (K : Collaborators) (view : View)
    (st : ComponentState) (i : Nat) (hgen : st.m_sequentialPathGenerator = some i) :
    (process_relocalisation K view st .TRACKING_FAILED).2.m_sequentialPathGenerator
        = some (i + 1)
    ∧ (newCalls K view st .TRACKING_FAILED).count Call.increment_index = 1 := by
  by_cases hcount : K.CountValidDepths view.depth < K.get_min_nb_required_points
  · obtain ⟨_, h2, h3, _⟩ := process_relocalisation_too_few_eq K view st hcount
    refine ⟨by rw [h3, hgen]; rfl, ?_⟩
    simp only [newCalls, h2, List.append_assoc, List.drop_left]
    simp [hgen]
  · cases hfound : K.estimate_pose
        (K.ComputeFeature view.rgb view.depth view.intrinsics_d Matrix4f.identity)
        (K.evaluate_forest st.forest
          (K.ComputeFeature view.rgb view.depth view.intrinsics_d Matrix4f.identity)) with
    | none =>
      obtain ⟨_, h2, _, _, h5, _⟩ := process_relocalisation_not_found_eq K view st hcount hfound
      refine ⟨by rw [h5, hgen]; rfl, ?_⟩
      simp only [newCalls, h2, List.append_assoc, List.drop_left]
      simp [hgen, persistCalls]
    | some cand =>
      obtain ⟨_, h2, _, _, h5, _⟩ :=
        process_relocalisation_found_eq K view st cand hcount hfound
      refine ⟨by rw [h5, hgen]; rfl, ?_⟩
      simp only [newCalls, h2, List.append_assoc, List.drop_left]
      simp [hgen, persistCalls]

/-- C25: with a sequential path generator present, at index `i`, an invocation of
`process_relocalisation` with `TRACKING_FAILED` calls `increment_index` exactly once and leaves
the index at `i + 1`, whichever of its three paths it takes (too few valid depths, a pose
candidate found, no pose candidate found); an invocation with `TRACKING_GOOD` or
`TRACKING_POOR` does not call `increment_index` and leaves the index at `i`. -/
theorem process_relocalisation_increments_index (K : Collaborators) (view : View)
    (st : ComponentState) (trackingResult : TrackingResult) (i : Nat)
    (hgen : st.m_sequentialPathGenerator = some i) :
    (trackingResult = .TRACKING_FAILED →
      (process_relocalisation K view st trackingResult).2.m_sequentialPathGenerator
          = some (i + 1)
      ∧ (newCalls K view st trackingResult).count Call.increment_index = 1)
    ∧ (trackingResult ≠ .TRACKING_FAILED →
      (process_relocalisation K view st trackingResult).2.m_sequentialPathGenerator = some i
      ∧ Call.increment_index ∉ newCalls K view st trackingResult) := by
  cases trackingResult with
  | TRACKING_FAILED =>
    exact ⟨fun _ => process_relocalisation_failed_index K view st i hgen,
      fun h => absurd rfl h⟩
  | TRACKING_GOOD =>
    refine ⟨fun h => absurd h (by decide), fun _ => ?_⟩
    obtain ⟨_, h2, _, h4, _⟩ := process_relocalisation_good_eq K view st
    refine ⟨by rw [h4, hgen], ?_⟩
    simp only [newCalls, h2, List.drop_left]
    simp
  | TRACKING_POOR =>
    refine ⟨fun h => absurd h (by decide), fun _ => ?_⟩
    rw [newCalls, process_relocalisation_poor_eq K view st]
    exact ⟨hgen, by simp⟩

/-- Witness of C25 on the example state, whose path generator is at index 7: the three paths
of an invocation with `TRACKING_FAILED` leave it at index 8, and an invocation with
`TRACKING_GOOD` or `TRACKING_POOR` leaves it at 7. -/
theorem process_relocalisation_increments_index_witness :
    ((process_relocalisation exampleCollaborators sparseView exampleState
        .TRACKING_FAILED).2.m_sequentialPathGenerator = some 8
      ∧ (newCalls exampleCollaborators sparseView exampleState .TRACKING_FAILED).count
          Call.increment_index = 1)
    ∧ ((process_relocalisation findingCollaborators sparseView exampleState
        .TRACKING_FAILED).2.m_sequentialPathGenerator = some 8
      ∧ (newCalls findingCollaborators sparseView exampleState .TRACKING_FAILED).count
          Call.increment_index = 1)
    ∧ ((process_relocalisation notFindingCollaborators sparseView exampleState
        .TRACKING_FAILED).2.m_sequentialPathGenerator = some 8
      ∧ (newCalls notFindingCollaborators sparseView exampleState .TRACKING_FAILED).count
          Call.increment_index = 1)
    ∧ ((process_relocalisation exampleCollaborators sparseView exampleState
        .TRACKING_GOOD).2.m_sequentialPathGenerator = some 7
      ∧ Call.increment_index ∉ newCalls exampleCollaborators sparseView exampleState
          .TRACKING_GOOD)
    ∧ ((process_relocalisation exampleCollaborators sparseView exampleState
        .TRACKING_POOR).2.m_sequentialPathGenerator = some 7
      ∧ Call.increment_index ∉ newCalls exampleCollaborators sparseView exampleState
          .TRACKING_POOR) :=
  ⟨(process_relocalisation_increments_index exampleCollaborators sparseView exampleState
      .TRACKING_FAILED 7 rfl).1 rfl,
   (process_relocalisation_increments_index findingCollaborators sparseView exampleState
      .TRACKING_FAILED 7 rfl).1 rfl,
   (process_relocalisation_increments_index notFindingCollaborators sparseView exampleState
      .TRACKING_FAILED 7 rfl).1 rfl,
   (process_relocalisation_increments_index exampleCollaborators sparseView exampleState
      .TRACKING_GOOD 7 rfl).2 (by decide),
   (process_relocalisation_increments_index exampleCollaborators sparseView exampleState
      .TRACKING_POOR 7 rfl).2 (by decide)⟩

end spaint
